import Mathlib

/-!
# statusai: the result-acquisition pipeline of `src/hooks/useApi.js`

A shallow embedding of `calculateScores` and of the four `ensureValid*` helpers, together
with the fragment of the JavaScript run-time they rely on (truthiness, `typeof`,
`parseFloat`, `parseInt`, `Number`, `String`, `Math.round`, `toFixed`, `trim`, and the two
regular expressions of the source).

Conventions of the embedding.

* A JavaScript number is `NaN`, `+Infinity`, `-Infinity` or a finite binary64 value.  A finite
  value is kept as an exact decimal `num / 10 ^ scale`; every binary64 value is such a
  decimal.  `Dec.toBinary64` rounds a decimal to the nearest binary64 value (ties to even,
  overflow to an infinity), which is what reading a decimal literal does; every function
  that reads a number from text, or from a number written as a literal, goes through it, and
  the functions that compare, round and print work on the binary64 value.  `-0` is
  identified with `0`.
* A JavaScript string is a Lean `String`; all scanning is done on its list of characters.
* An object is the list of its own properties (each key once, in insertion order).  The values
  are the ones `JSON.parse` can build, plus `undefined`.
* An exception is the message of the thrown `Error`.
-/

deriving instance DecidableEq for Except

namespace StatusAI

/-! ## Numbers -/

/-- A finite number, kept as the exact decimal `num / 10 ^ scale`. -/
structure Dec where
  num : Int
  scale : Nat
deriving DecidableEq, Repr

/-- The rational number a decimal stands for. -/
def Dec.val (d : Dec) : ℚ := (d.num : ℚ) / (10 : ℚ) ^ d.scale

/-- An integer as a decimal. -/
def Dec.ofInt (i : Int) : Dec := ⟨i, 0⟩

/-- Comparison `a <= b` of two decimals, by cross multiplication. -/
def Dec.le (a b : Dec) : Bool := decide (a.num * 10 ^ b.scale ≤ b.num * 10 ^ a.scale)

/-- Comparison `a < b` of two decimals, by cross multiplication. -/
def Dec.lt (a b : Dec) : Bool := decide (a.num * 10 ^ b.scale < b.num * 10 ^ a.scale)

/-- The integer `floor (x + 1/2)` for the decimal `x`. -/
def Dec.roundHalfUp (d : Dec) : Int := (2 * d.num + 10 ^ d.scale) / (2 * 10 ^ d.scale)

/-- A JavaScript number. -/
inductive JSNum where
  | nan
  | posInf
  | negInf
  | fin (d : Dec)
deriving DecidableEq, Repr

/-- The number with integer value `i`. -/
def JSNum.ofInt (i : Int) : JSNum := .fin (Dec.ofInt i)

/-- The built-in `isNaN` on a value that is already a number. -/
def JSNum.isNaN : JSNum → Bool
  | .nan => true
  | _ => false

/-- The operator `a <= b` on numbers: false as soon as one side is `NaN`. -/
def JSNum.le : JSNum → JSNum → Bool
  | .nan, _ => false
  | _, .nan => false
  | .negInf, _ => true
  | _, .posInf => true
  | .posInf, _ => false
  | _, .negInf => false
  | .fin a, .fin b => a.le b

/-- The operator `a < b` on numbers: false as soon as one side is `NaN`. -/
def JSNum.lt : JSNum → JSNum → Bool
  | .nan, _ => false
  | _, .nan => false
  | .posInf, _ => false
  | _, .negInf => false
  | .negInf, _ => true
  | _, .posInf => true
  | .fin a, .fin b => a.lt b

/-- The operator `a >= b`. -/
def JSNum.ge (a b : JSNum) : Bool := JSNum.le b a

/-- The operator `a > b`. -/
def JSNum.gt (a b : JSNum) : Bool := JSNum.lt b a

/-! ### Rounding to binary64 -/

/-- The number of halvings that take `n` to 0, with at most `fuel` of them. -/
def bitLengthAux : Nat → Nat → Nat
  | 0, _ => 0
  | fuel + 1, n => if n = 0 then 0 else bitLengthAux fuel (n / 2) + 1

/-- The number of binary digits of `n`: `2 ^ (bitLength n - 1) <= n` and `n < 2 ^ bitLength n`
for a positive `n`. -/
def bitLength (n : Nat) : Nat := bitLengthAux n n

/-- The integer nearest to `p / q`, the even one on a tie. -/
def roundHalfEven (p q : Nat) : Nat :=
  let fl := p / q
  let r := p % q
  if 2 * r < q then fl
  else if q < 2 * r then fl + 1
  else if fl % 2 = 0 then fl else fl + 1

/-- The integer `floor (log2 (p / q))` for positive `p` and `q`. -/
def floorLog2 (p q : Nat) : Int :=
  let k : Int := (bitLength p : Int) - (bitLength q : Int)
  if (if 0 ≤ k then decide (q * 2 ^ k.toNat ≤ p) else decide (q ≤ p * 2 ^ (-k).toNat)) then k
  else k - 1

/-- The decimal `n / 10 ^ s` without trailing zeros in its fraction. -/
def stripZeros : Nat → Int → Dec
  | 0, n => ⟨n, 0⟩
  | s + 1, n => if n % 10 = 0 then stripZeros s (n / 10) else ⟨n, s + 1⟩

/-- The binary64 value nearest to `p / q` (round to nearest, ties to even), as the pair
`(m, e)` with value `m * 2 ^ e`: the significand has at most 53 binary digits and the exponent
is at least -1074 (the subnormal range); `none` when the rounded value is `2 ^ 1024` or
more. -/
def binary64OfRatio (p q : Nat) : Option (Nat × Int) :=
  if p = 0 then some (0, 0)
  else
    let e : Int := max (floorLog2 p q - 52) (-1074)
    let m : Nat :=
      if 0 ≤ e then roundHalfEven p (q * 2 ^ e.toNat) else roundHalfEven (p * 2 ^ (-e).toNat) q
    if 1024 < (bitLength m : Int) + e then none else some (m, e)

/-- The binary64 value nearest to a decimal, which is the value of the decimal read as a
numeric literal: an infinity on overflow, otherwise the exact decimal expansion of the
binary64 value, without trailing zeros.  An integer of magnitude below `2 ^ 53` is a
binary64 value and is returned as it is. -/
def Dec.toBinary64 (d : Dec) : JSNum :=
  if d.scale = 0 ∧ d.num.natAbs < 2 ^ 53 then .fin d
  else
    match binary64OfRatio d.num.natAbs (10 ^ d.scale) with
    | none => if d.num < 0 then .negInf else .posInf
    | some (m, e) =>
      let v : Dec :=
        if 0 ≤ e then ⟨(m : Int) * 2 ^ e.toNat, 0⟩
        else stripZeros (-e).toNat ((m : Int) * 5 ^ (-e).toNat)
      .fin ⟨if d.num < 0 then -v.num else v.num, v.scale⟩

/-- The binary64 value of a number that may be written as a decimal literal. -/
def JSNum.toBinary64 : JSNum → JSNum
  | .fin d => d.toBinary64
  | n => n

/-- The built-in `Math.round` on a binary64 value: `floor (x + 1/2)`; `NaN` and the infinities
are returned unchanged. -/
def mathRound : JSNum → JSNum
  | .fin d => .fin (Dec.ofInt d.roundHalfUp)
  | n => n

/-- The composition `Number(num.toFixed(1))` on a binary64 value.  `toFixed(1)` picks the
integer `n` with `n / 10` closest to `|x|`, the larger one on a tie, and prints `n / 10` with
the sign of `x`; `Number` reads the printed text back, which gives the binary64 value nearest
to `n / 10`.  For `|x| >= 1e21` and for `NaN` and the infinities `toFixed` prints the number
itself, which `Number` reads back. -/
def toFixed1 : JSNum → JSNum
  | .fin d =>
    if d.num.natAbs ≥ 10 ^ 21 * 10 ^ d.scale then .fin d
    else
      let n : Int := (20 * (d.num.natAbs : Int) + 10 ^ d.scale) / (2 * 10 ^ d.scale)
      (Dec.mk (if d.num < 0 then -n else n) 1).toBinary64
  | n => n

/-! ## Strings -/

/-- The characters `trim` removes: the ECMAScript `WhiteSpace` and `LineTerminator` code
points. -/
def isJSWhiteSpace (c : Char) : Bool :=
  let n := c.toNat
  n = 9 || n = 10 || n = 11 || n = 12 || n = 13 || n = 32 || n = 160 || n = 0x1680 ||
  (0x2000 ≤ n && n ≤ 0x200A) || n = 0x2028 || n = 0x2029 || n = 0x202F || n = 0x205F ||
  n = 0x3000 || n = 0xFEFF

/-- The white space stripped from the front, as `String.prototype.trimStart` does. -/
def trimStartChars (cs : List Char) : List Char := cs.dropWhile isJSWhiteSpace

/-- The white space stripped from the back. -/
def trimEndChars (cs : List Char) : List Char :=
  (cs.reverse.dropWhile isJSWhiteSpace).reverse

/-- The built-in `String.prototype.trim` on a list of characters. -/
def trimChars (cs : List Char) : List Char := trimEndChars (trimStartChars cs)

/-- The built-in `String.prototype.trim`. -/
def jsTrim (s : String) : String := String.mk (trimChars s.data)

/-- The longest prefix of decimal digits. -/
def digitsOf (cs : List Char) : List Char := cs.takeWhile Char.isDigit

/-- What follows the longest prefix of decimal digits. -/
def afterDigits (cs : List Char) : List Char := cs.dropWhile Char.isDigit

/-- The value of a run of decimal digits, read in base ten. -/
def natOfDigits (ds : List Char) : Nat := ds.foldl (fun a c => 10 * a + (c.toNat - 48)) 0

/-- The mantissa of a `StrUnsignedDecimalLiteral` at the front of the input: digits with an
optional fraction, or a fraction alone.  The result is the digits read as one integer, the
number of fraction digits, and the rest of the input. -/
def scanMantissa (cs : List Char) : Option (Nat × Nat × List Char) :=
  let ip := digitsOf cs
  match afterDigits cs with
  | '.' :: r =>
    let fp := digitsOf r
    if ip.isEmpty && fp.isEmpty then none
    else some (natOfDigits (ip ++ fp), fp.length, afterDigits r)
  | rest => if ip.isEmpty then none else some (natOfDigits ip, 0, rest)

/-- An optional `ExponentPart` at the front of the input: `e` or `E`, an optional sign and at
least one digit.  When it is incomplete nothing is consumed. -/
def scanExponent (cs : List Char) : Int × List Char :=
  match cs with
  | c :: r =>
    if c = 'e' || c = 'E' then
      let body : Bool × List Char :=
        match r with
        | '+' :: t => (false, t)
        | '-' :: t => (true, t)
        | _ => (false, r)
      let ds := digitsOf body.2
      if ds.isEmpty then (0, cs)
      else ((if body.1 then -(natOfDigits ds : Int) else (natOfDigits ds : Int)), afterDigits body.2)
    else (0, cs)
  | [] => (0, cs)

/-- The decimal `m * 10 ^ e`. -/
def Dec.scale10 (m : Int) (e : Int) : Dec :=
  if 0 ≤ e then ⟨m * 10 ^ e.toNat, 0⟩ else ⟨m, (-e).toNat⟩

/-- The longest `StrUnsignedDecimalLiteral` at the front of the input, with the rest of the
input: `Infinity`, or a mantissa with an optional exponent. -/
def scanUnsigned (cs : List Char) : Option (JSNum × List Char) :=
  if "Infinity".data.isPrefixOf cs then some (.posInf, cs.drop 8)
  else
    match scanMantissa cs with
    | none => none
    | some (m, f, rest) =>
      let ex := scanExponent rest
      some (.fin (Dec.scale10 m (ex.1 - f)), ex.2)

/-- The negation of a number. -/
def JSNum.neg : JSNum → JSNum
  | .nan => .nan
  | .posInf => .negInf
  | .negInf => .posInf
  | .fin d => .fin ⟨-d.num, d.scale⟩

/-- The longest `StrDecimalLiteral` at the front of the input: an optional sign and an
unsigned literal. -/
def scanSigned (cs : List Char) : Option (JSNum × List Char) :=
  match cs with
  | '-' :: r => (scanUnsigned r).map (fun p => (p.1.neg, p.2))
  | '+' :: r => scanUnsigned r
  | _ => scanUnsigned cs

/-- The built-in `parseFloat` on a string: leading white space is skipped, the longest prefix
that is a `StrDecimalLiteral` is read, the rest is ignored; the result is the binary64 value
nearest to the literal, and `NaN` when there is no such prefix. -/
def parseFloat (s : String) : JSNum :=
  match scanSigned (trimStartChars s.data) with
  | some (n, _) => n.toBinary64
  | none => .nan

/-- The built-in `parseInt(s, 10)`: leading white space is skipped, an optional sign is read,
then the longest run of decimal digits; the result is the binary64 value nearest to that
integer, and `NaN` when the run is empty. -/
def parseInt10 (s : String) : JSNum :=
  let cs := trimStartChars s.data
  let body : Bool × List Char :=
    match cs with
    | '-' :: t => (true, t)
    | '+' :: t => (false, t)
    | _ => (false, cs)
  let ds := digitsOf body.2
  if ds.isEmpty then .nan
  else (Dec.ofInt (if body.1 then -(natOfDigits ds : Int) else (natOfDigits ds : Int))).toBinary64

/-- The value of one digit of a `NonDecimalIntegerLiteral` in the given radix. -/
def radixDigit (radix : Nat) (c : Char) : Option Nat :=
  let v : Option Nat :=
    if c.isDigit then some (c.toNat - 48)
    else if 'a'.toNat ≤ c.toNat && c.toNat ≤ 'f'.toNat then some (c.toNat - 87)
    else if 'A'.toNat ≤ c.toNat && c.toNat ≤ 'F'.toNat then some (c.toNat - 55)
    else none
  v.bind (fun d => if d < radix then some d else none)

/-- The value of a run of digits in the given radix; `none` when a character is not a digit
of that radix. -/
def natOfRadix (radix : Nat) : List Char → Nat → Option Nat
  | [], acc => some acc
  | c :: cs, acc =>
    match radixDigit radix c with
    | some d => natOfRadix radix cs (radix * acc + d)
    | none => none

/-- The abstract operation `StringToNumber`, which is `Number(s)` for a string: white space
is trimmed at both ends, the empty string is `0`, and the whole rest has to be one
`StrNumericLiteral` (a signed decimal literal, or an unsigned `0x`, `0o` or `0b` integer),
which gives the binary64 value nearest to it; otherwise `NaN`. -/
def stringToNumber (s : String) : JSNum :=
  let cs := trimChars s.data
  match cs with
  | [] => .ofInt 0
  | '0' :: p :: r =>
    let radix : Option Nat :=
      if p = 'x' || p = 'X' then some 16
      else if p = 'o' || p = 'O' then some 8
      else if p = 'b' || p = 'B' then some 2
      else none
    match radix with
    | some k =>
      if r.isEmpty then .nan
      else
        match natOfRadix k r 0 with
        | some v => (Dec.ofInt v).toBinary64
        | none => .nan
    | none =>
      match scanSigned cs with
      | some (n, []) => n.toBinary64
      | _ => .nan
  | _ =>
    match scanSigned cs with
    | some (n, []) => n.toBinary64
    | _ => .nan

/-- The search for the shortest decimal that reads as the positive binary64 value `x`, which
lies in `[10 ^ (n10 - 1), 10 ^ n10)`: for `k = 1, 2, ...` digits, the two decimals with `k`
digits next to `x` are tried, and of those that read as `x` the closer one is taken (the one
with the even last digit on a tie). -/
def shortestAux (x : Dec) (n10 : Int) : Nat → Nat → Dec
  | 0, _ => x
  | fuel + 1, k =>
    let sh : Int := (x.scale : Int) + n10 - (k : Int)
    if sh < 0 then x
    else
      let unit : Int := 10 ^ sh.toNat
      let lo : Int := x.num / unit
      let r : Int := x.num % unit
      let cLo := Dec.scale10 lo (n10 - (k : Int))
      let cHi := Dec.scale10 (lo + 1) (n10 - (k : Int))
      let okLo := decide (cLo.toBinary64 = .fin x)
      let okHi := decide (cHi.toBinary64 = .fin x)
      if okLo && okHi then
        (if 2 * r < unit then cLo else if unit < 2 * r then cHi
          else if lo % 2 = 0 then cLo else cHi)
      else if okLo then cLo
      else if okHi then cHi
      else shortestAux x n10 fuel (k + 1)

/-- The decimal with the fewest significant digits that reads as the binary64 value `x` (the
closest one to `x` when there are several): the digits `Number::toString` prints.  Seventeen
digits always suffice. -/
def Dec.shortest (x : Dec) : Dec :=
  if x.num = 0 then ⟨0, 0⟩
  else
    let a : Dec := ⟨x.num.natAbs, x.scale⟩
    let n10 : Int := ((Nat.toDigits 10 x.num.natAbs).length : Int) - (x.scale : Int)
    let s := shortestAux a n10 17 1
    ⟨if x.num < 0 then -s.num else s.num, s.scale⟩

/-- The layout of `Number::toString` in radix ten for the decimal it prints: the significant
digits `D` (no trailing zero, `k` of them) and the exponent `n` with `|x| = 0.D * 10 ^ n`
decide between the plain and the exponential form. -/
def Dec.toJSString (d : Dec) : String :=
  if d.num = 0 then "0"
  else
    let all := Nat.toDigits 10 d.num.natAbs
    let z := (all.reverse.takeWhile (fun c => c = '0')).length
    let ds := all.take (all.length - z)
    let k := ds.length
    let n : Int := (k : Int) + (z : Int) - (d.scale : Int)
    let body : List Char :=
      if (k : Int) ≤ n ∧ n ≤ 21 then ds ++ List.replicate (n - k).toNat '0'
      else if 0 < n ∧ n ≤ 21 then ds.take n.toNat ++ '.' :: ds.drop n.toNat
      else if -6 < n ∧ n ≤ 0 then '0' :: '.' :: (List.replicate (-n).toNat '0' ++ ds)
      else
        let e := n - 1
        let es := (if e < 0 then '-' else '+') :: Nat.toDigits 10 e.natAbs
        if k = 1 then ds ++ 'e' :: es else ds.take 1 ++ '.' :: (ds.drop 1 ++ 'e' :: es)
    String.mk (if d.num < 0 then '-' :: body else body)

/-- The abstract operation `Number::toString`: for a finite number, the shortest decimal that
reads as its binary64 value, in the layout of `Dec.toJSString`. -/
def JSNum.toJSString (n : JSNum) : String :=
  match n.toBinary64 with
  | .nan => "NaN"
  | .posInf => "Infinity"
  | .negInf => "-Infinity"
  | .fin x => x.shortest.toJSString

/-! ## Values -/

/-- A JavaScript value as `JSON.parse` builds it, plus `undefined`.  A number may be written
as a decimal literal; it stands for the binary64 value nearest to it. -/
inductive JSVal where
  | undefined
  | null
  | bool (b : Bool)
  | num (n : JSNum)
  | str (s : String)
  | arr (items : List JSVal)
  | obj (fields : List (String × JSVal))

/-- The message of the `TypeError` raised when an object has no usable `toString` or
`valueOf`. -/
def errToPrimitive : String := "Cannot convert object to primitive value"

/-- The message of the `TypeError` raised by a property read on `null` or `undefined`. -/
def errNullish (key : String) : String :=
  "Cannot read properties of null or undefined (reading '" ++ key ++ "')"

/-- The message of the `TypeError` raised by calling a property that is not a function. -/
def errNotFunction (what : String) : String := what ++ " is not a function"

/-- Truthiness (the abstract operation `ToBoolean`): `undefined`, `null`, `false`, `0`,
`NaN` and the empty string are falsy, everything else is truthy. -/
def JSVal.truthy : JSVal → Bool
  | .undefined => false
  | .null => false
  | .bool b => b
  | .num n =>
    match n.toBinary64 with
    | .nan => false
    | .fin d => decide (d.num ≠ 0)
    | _ => true
  | .str s => !s.data.isEmpty
  | .arr _ => true
  | .obj _ => true

/-- Whether the value is `null` or `undefined`. -/
def JSVal.isNullish : JSVal → Bool
  | .undefined => true
  | .null => true
  | _ => false

/-- An own property of an object, `undefined` when there is none. -/
def lookupField (fields : List (String × JSVal)) (key : String) : JSVal :=
  match fields.lookup key with
  | some v => v
  | none => .undefined

/-- Whether an object has an own property with this key. -/
def hasOwn (fields : List (String × JSVal)) (key : String) : Bool :=
  (fields.lookup key).isSome

/-- The property read `v[key]` for the named keys the source uses (none of them is an index,
`length` or a member of a built-in prototype): a `TypeError` on `null` and `undefined`, the
own property on an object, `undefined` on every other value. -/
def JSVal.get (v : JSVal) (key : String) : Except String JSVal :=
  match v with
  | .undefined => .error (errNullish key)
  | .null => .error (errNullish key)
  | .obj fields => .ok (lookupField fields key)
  | _ => .ok .undefined

/-- The optional read `v?.[key]` for a named key: `undefined` on `null` and `undefined`. -/
def JSVal.getOpt (v : JSVal) (key : String) : JSVal :=
  match v with
  | .obj fields => lookupField fields key
  | _ => .undefined

/-- The optional read `v?.[0]`: the first element of an array, the first character of a
string, the own property `"0"` of an object, `undefined` otherwise. -/
def JSVal.getOpt0 (v : JSVal) : JSVal :=
  match v with
  | .arr (x :: _) => x
  | .str s =>
    match s.data with
    | c :: _ => .str (String.mk [c])
    | [] => .undefined
  | .obj fields => lookupField fields "0"
  | _ => .undefined

mutual
/-- The abstract operation `ToString`.  An array is joined with commas, `null` and
`undefined` elements giving the empty string.  A plain object gives `[object Object]`; an
object with an own `toString` property (after `JSON.parse` never a function) has no usable
conversion method left, since the inherited `valueOf` returns the object itself, and the
conversion throws a `TypeError`. -/
def JSVal.toStr : JSVal → Except String String
  | .undefined => .ok "undefined"
  | .null => .ok "null"
  | .bool b => .ok (if b then "true" else "false")
  | .num n => .ok n.toJSString
  | .str s => .ok s
  | .arr items =>
    match elemStrings items with
    | .ok parts => .ok (",".intercalate parts)
    | .error e => .error e
  | .obj fields => if hasOwn fields "toString" then .error errToPrimitive else .ok "[object Object]"
/-- The strings `Array.prototype.join` makes of the elements. -/
def elemStrings : List JSVal → Except String (List String)
  | [] => .ok []
  | x :: rest =>
    match (match x with
      | .undefined => Except.ok ""
      | .null => Except.ok ""
      | v => v.toStr) with
    | .error e => .error e
    | .ok a =>
      match elemStrings rest with
      | .ok parts => .ok (a :: parts)
      | .error e => .error e
end

/-- The conversion `Number(v)` (abstract operation `ToNumber`): arrays and objects are first
converted to a string, which can throw. -/
def JSVal.toNumber : JSVal → Except String JSNum
  | .undefined => .ok .nan
  | .null => .ok (.ofInt 0)
  | .bool b => .ok (.ofInt (if b then 1 else 0))
  | .num n => .ok n.toBinary64
  | .str s => .ok (stringToNumber s)
  | v =>
    match v.toStr with
    | .ok s => .ok (stringToNumber s)
    | .error e => .error e

/-! ## The helpers of `useApi.js` (lines 263-290) -/

/-- The expression `typeof x === 'string' ? parseFloat(x) : Number(x)` of lines 267 and
283. -/
def readFloat (x : JSVal) : Except String JSNum :=
  match x with
  | .str s => .ok (parseFloat s)
  | v => v.toNumber

/-- The expression `typeof position === 'string' ? parseInt(position, 10) : Number(position)`
of line 275. -/
def readInt (position : JSVal) : Except String JSNum :=
  match position with
  | .str s => .ok (parseInt10 s)
  | v => v.toNumber

/-- The expression `!isNaN(num) && num >= 0 && num <= 100 ? Math.round(num) : 50` of line
268. -/
def scoreOf (num : JSNum) : JSNum :=
  if !num.isNaN && num.ge (.ofInt 0) && num.le (.ofInt 100) then mathRound num else .ofInt 50

/-- The expression `!isNaN(num) && num > 0 && num <= 3970000000 ? Math.round(num) :
1985000000` of line 276. -/
def rankingOf (num : JSNum) : JSNum :=
  if !num.isNaN && num.gt (.ofInt 0) && num.le (.ofInt 3970000000) then mathRound num
  else .ofInt 1985000000

/-- The expression `!isNaN(num) && num >= 0 && num <= 100 ? Number(num.toFixed(1)) : 50.0`
of line 284. -/
def percentileOf (num : JSNum) : JSNum :=
  if !num.isNaN && num.ge (.ofInt 0) && num.le (.ofInt 100) then toFixed1 num else .ofInt 50

/-- The helper `ensureValidScore` (lines 263-269): `null` and `undefined` give 50; a string
is read with `parseFloat`, any other value with `Number`; the number is rounded when it is
not `NaN` and lies in `[0, 100]`, and replaced by 50 otherwise. -/
def ensureValidScore (score : JSVal) : Except String JSNum :=
  match score with
  | .null => .ok (.ofInt 50)
  | .undefined => .ok (.ofInt 50)
  | v =>
    match readFloat v with
    | .error e => .error e
    | .ok num => .ok (scoreOf num)

/-- The helper `ensureValidRanking` (lines 271-277): `null` and `undefined` give 1985000000;
a string is read with `parseInt(position, 10)`, any other value with `Number`; the number is
rounded when it is not `NaN`, positive and at most 3970000000, and replaced by 1985000000
otherwise. -/
def ensureValidRanking (position : JSVal) : Except String JSNum :=
  match position with
  | .null => .ok (.ofInt 1985000000)
  | .undefined => .ok (.ofInt 1985000000)
  | v =>
    match readInt v with
    | .error e => .error e
    | .ok num => .ok (rankingOf num)

/-- The helper `ensureValidPercentile` (lines 279-285): `null` and `undefined` give 50.0; a
string is read with `parseFloat`, any other value with `Number`; the number goes through
`Number(num.toFixed(1))` when it is not `NaN` and lies in `[0, 100]`, and is replaced by 50.0
otherwise. -/
def ensureValidPercentile (percentile : JSVal) : Except String JSNum :=
  match percentile with
  | .null => .ok (.ofInt 50)
  | .undefined => .ok (.ofInt 50)
  | v =>
    match readFloat v with
    | .error e => .error e
    | .ok num => .ok (percentileOf num)

/-- The sentinel of `ensureValidString`. -/
def noData : String := "No data available"

/-- The helper `ensureValidString` (lines 287-290): the trimmed string when the value is a string whose
trimmed form is not empty, the sentinel otherwise. -/
def ensureValidString (str : JSVal) : String :=
  match str with
  | .null => noData
  | .undefined => noData
  | .str s => if (JSVal.str (jsTrim s)).truthy then jsTrim s else noData
  | _ => noData

/-! ## Normalisation (lines 176-203) -/

/-- A character the class `[\d.]` accepts. -/
def isNumberRunChar (c : Char) : Bool := c.isDigit || c = '.'

/-- The match of the regular expression `/[\d.]+/`: the first maximal run of digits and
dots, `none` when the string has neither. -/
def firstNumberRun (cs : List Char) : Option (List Char) :=
  let r := cs.dropWhile (fun c => !isNumberRunChar c)
  if r.isEmpty then none else some (r.takeWhile isNumberRunChar)

/-- The pre-processing of `globalRanking.percentile` (lines 177-184): a string that includes
`%` and has a match of `/[\d.]+/` is replaced by `parseFloat` of that match. -/
def prePercentile (percentile : JSVal) : JSVal :=
  match percentile with
  | .str s =>
    if s.data.contains '%' then
      match firstNumberRun s.data with
      | some m => .num (parseFloat (String.mk m))
      | none => .str s
    else .str s
  | v => v

/-- The six category scores of a result. -/
structure CategoryScores where
  wealth : JSNum
  fitness : JSNum
  power : JSNum
  intelligence : JSNum
  willpower : JSNum
  legacy : JSNum
deriving DecidableEq

/-- The ranking of a result. -/
structure GlobalRanking where
  position : JSNum
  percentile : JSNum
deriving DecidableEq

/-- The object `calculateScores` resolves with. -/
structure ScoreResult where
  categoryScores : CategoryScores
  overallScore : JSNum
  globalRanking : GlobalRanking
  status : String
  futurePrediction : String
deriving DecidableEq

/-- The statements of lines 176-203: the percentile pre-processing and the object literal
`result`, its fields evaluated in source order.  An error is an exception thrown on the
way. -/
def normalize (responseData : JSVal) : Except String ScoreResult := do
  let globalRanking ← responseData.get "globalRanking"
  let percentile := prePercentile (← globalRanking.get "percentile")
  let categoryScores ← responseData.get "categoryScores"
  let wealth ← ensureValidScore (← categoryScores.get "wealth")
  let fitness ← ensureValidScore (← categoryScores.get "fitness")
  let power ← ensureValidScore (← categoryScores.get "power")
  let intelligence ← ensureValidScore (← categoryScores.get "intelligence")
  let willpower ← ensureValidScore (← categoryScores.get "willpower")
  let legacy ← ensureValidScore (← categoryScores.get "legacy")
  let overallScore ← ensureValidScore (← responseData.get "overallScore")
  let position ← ensureValidRanking (← globalRanking.get "position")
  let pct ← ensureValidPercentile percentile
  let status := ensureValidString (← responseData.get "status")
  let futurePrediction := ensureValidString (← responseData.get "futurePrediction")
  pure
    { categoryScores :=
        { wealth := wealth, fitness := fitness, power := power, intelligence := intelligence,
          willpower := willpower, legacy := legacy }
      overallScore := overallScore
      globalRanking := { position := position, percentile := pct }
      status := status
      futurePrediction := futurePrediction }

/-! ## Parsing and the required-field checks (lines 128-159) -/

/-- The array `requiredFields` of line 146. -/
def requiredFields : List String :=
  ["categoryScores", "overallScore", "globalRanking", "status", "futurePrediction"]

/-- The array `requiredCategories` of line 153. -/
def requiredCategories : List String :=
  ["wealth", "fitness", "power", "intelligence", "willpower", "legacy"]

/-- The array `missingFields` of line 147: the required fields whose value in the response
is falsy.  Reading a property of `null` or `undefined` throws. -/
def missingFields (responseData : JSVal) : Except String (List String) :=
  match responseData with
  | .undefined => .error (errNullish "categoryScores")
  | .null => .error (errNullish "categoryScores")
  | v => .ok (requiredFields.filter (fun field => !(v.getOpt field).truthy))

/-- The array `missingCategories` of lines 154-156, for a response that is not `null` or
`undefined`: the categories for which `categoryScores` is falsy or has a falsy value. -/
def missingCategories (responseData : JSVal) : List String :=
  requiredCategories.filter (fun category =>
    !(responseData.getOpt "categoryScores").truthy ||
      !((responseData.getOpt "categoryScores").getOpt category).truthy)

/-- The required-field checks of lines 145-159; the error is the message of the exception
they throw. -/
def validateResponse (responseData : JSVal) : Except String Unit :=
  match missingFields responseData with
  | .error e => .error e
  | .ok missing =>
    if !missing.isEmpty then
      .error ("Missing required fields in response: " ++ ", ".intercalate missing)
    else if !(missingCategories responseData).isEmpty then
      .error ("Missing category scores: " ++ ", ".intercalate (missingCategories responseData))
    else .ok ()

/-- Whether `pat` occurs in `cs` as a contiguous run (`String.prototype.includes`). -/
def containsSub (pat : List Char) : List Char → Bool
  | [] => pat.isEmpty
  | c :: cs => pat.isPrefixOf (c :: cs) || containsSub pat cs

/-- The built-in `String.prototype.includes`. -/
def jsIncludes (s pat : String) : Bool := containsSub pat.data s.data

/-- The marker looked for in line 139. -/
def fenceMarker : String := "```json"

/-- The replacement `replace(/```json\n?|\n?```/g, '')` of line 140, scanning from the left.
The first argument counts the characters of the current match that are still to be dropped.
At a fresh position the first alternative (the marker with an optional line feed) is tried
before the second (three backticks with an optional line feed in front). -/
def stripFencesAux : Nat → List Char → List Char
  | _, [] => []
  | skip + 1, _ :: cs => stripFencesAux skip cs
  | 0, c :: cs =>
    if "```json\n".data.isPrefixOf (c :: cs) then stripFencesAux 7 cs
    else if "```json".data.isPrefixOf (c :: cs) then stripFencesAux 6 cs
    else if "\n```".data.isPrefixOf (c :: cs) then stripFencesAux 3 cs
    else if "```".data.isPrefixOf (c :: cs) then stripFencesAux 2 cs
    else c :: stripFencesAux 0 cs

/-- The expression `messageContent.replace(/```json\n?|\n?```/g, '').trim()`. -/
def stripFences (s : String) : String := jsTrim (String.mk (stripFencesAux 0 s.data))

/-- The expression `data.choices?.[0]?.message?.content` of line 131. -/
def extractContent (data : JSVal) : Except String JSVal :=
  match data.get "choices" with
  | .error e => .error e
  | .ok choices => .ok (((choices.getOpt0).getOpt "message").getOpt "content")

/-- The variable `cleanContent` of lines 137-141 for a truthy `messageContent`.  A string has
its fences stripped when it includes the marker.  An array has `includes` but no `replace`;
every other value has no `includes`. -/
def cleanContent (messageContent : JSVal) : Except String JSVal :=
  match messageContent with
  | .str s => .ok (.str (if jsIncludes s fenceMarker then stripFences s else s))
  | .arr items =>
    if items.any (fun x => match x with
      | .str t => decide (t = fenceMarker)
      | _ => false)
    then .error (errNotFunction "messageContent.replace")
    else .ok (.arr items)
  | _ => .error (errNotFunction "messageContent.includes")

/-- The built-ins the embedding takes as given. -/
structure Platform where
  /-- The built-in `JSON.parse` on the text it is given: the parsed value, or the message of
  the `SyntaxError`. -/
  jsonParse : String → Except String JSVal

/-- The body of the inner `try` (lines 131-159): the parsed response when the content is
there, parses, and passes the required-field checks; otherwise the message of the exception
thrown. -/
def parseResponse (P : Platform) (data : JSVal) : Except String JSVal :=
  match extractContent data with
  | .error e => .error e
  | .ok messageContent =>
    if !messageContent.truthy then .error "Invalid API response structure"
    else
      match cleanContent messageContent with
      | .error e => .error e
      | .ok clean =>
        match clean.toStr with
        | .error e => .error e
        | .ok text =>
          match P.jsonParse text with
          | .error e => .error e
          | .ok responseData =>
            match validateResponse responseData with
            | .error e => .error e
            | .ok _ => .ok responseData

/-! ## One invocation of `calculateScores` (lines 20-232) -/

/-- The constant `API_CONFIG.RATE_LIMIT.MAX_RETRIES` of `config/api.js`. -/
def MAX_RETRIES : Nat := 3

/-- The constant `API_CONFIG.RATE_LIMIT.DEFAULT_RETRY_DELAY` of `config/api.js`, in
milliseconds. -/
def DEFAULT_RETRY_DELAY : Nat := 2000

/-- The answer keys read in lines 42-71, by category and field of the payload. -/
def profileLayout : List (String × List (String × String)) :=
  [("wealth", [("income", "annualIncome"), ("netWorth", "netWorth"), ("lifestyle", "lifestyle")]),
   ("physical", [("height", "height"), ("bodyType", "bodyType"), ("strength", "strengthLevel")]),
   ("power", [("leadership", "leadershipRole"), ("socialReach", "socialReach"),
     ("network", "networkStrength")]),
   ("intelligence", [("problemSolving", "problemSolving"), ("skills", "skillLevel"),
     ("achievements", "achievements")]),
   ("willpower", [("discipline", "discipline"), ("productivity", "productiveHours"),
     ("resilience", "stressResilience")]),
   ("legacy", [("relationships", "relationshipStatus"), ("attractiveness", "attractiveness"),
     ("impact", "legacy")])]

/-- The expression `String(answers.key || '')`. -/
def profileLeaf (answers : JSVal) (key : String) : Except String String :=
  match answers.get key with
  | .error e => .error e
  | .ok v => if v.truthy then v.toStr else .ok ""

/-- The leaves of one category of the payload, in source order. -/
def profileFields (answers : JSVal) : List (String × String) → Except String (List (String × String))
  | [] => .ok []
  | (field, key) :: rest =>
    match profileLeaf answers key with
    | .error e => .error e
    | .ok leaf =>
      match profileFields answers rest with
      | .error e => .error e
      | .ok leaves => .ok ((field, leaf) :: leaves)

/-- The categories of the payload, in source order. -/
def profileCategories (answers : JSVal) :
    List (String × List (String × String)) → Except String (List (String × List (String × String)))
  | [] => .ok []
  | (category, fields) :: rest =>
    match profileFields answers fields with
    | .error e => .error e
    | .ok leaves =>
      match profileCategories answers rest with
      | .error e => .error e
      | .ok cats => .ok ((category, leaves) :: cats)

/-- The object under `profile` that lines 40-73 serialise: category, field, leaf string. -/
def buildProfile (answers : JSVal) : Except String (List (String × List (String × String))) :=
  profileCategories answers profileLayout

/-- What `fetch` resolves with: the status line and the outcome of `response.json()` (the
parsed body, or the message of the rejection). -/
structure Response where
  status : Nat
  statusText : String
  body : Except String JSVal

/-- The property `response.ok`: the status is in the range 200-299. -/
def Response.ok (r : Response) : Bool := 200 ≤ r.status && r.status ≤ 299

/-- What the surroundings do during one pass through the body of `calculateScores`. -/
structure AttemptEnv where
  /-- The value of `isMounted.current` at line 21. -/
  mountedAtEntry : Bool
  /-- The outcome of `AsyncStorage.setItem` (line 29): done, or the message of the rejection. -/
  storageSetItem : Except String Unit
  /-- The outcome of `fetch` (line 79): a response, or the message of the rejection. -/
  fetch : Except String Response
  /-- The value of `isMounted.current` at line 123. -/
  mountedAfterBody : Bool
  /-- The outcome of `AsyncStorage.removeItem` (line 210). -/
  storageRemoveItem : Except String Unit
  /-- The value of `isMounted.current` at line 215. -/
  mountedAtCatch : Bool

/-- An effect of `calculateScores` the outside can observe. -/
inductive Event where
  | setLoading (b : Bool)
  | setError (e : Option String)
  | setProgress (p : Nat)
  | setCalculationStatus (s : String)
  /-- The call `setRetryCount(prev => prev + 1)`. -/
  | incRetryCount
  /-- The call `AsyncStorage.setItem('@calculation_state', ...)` with the `retryCount` it
  records. -/
  | storageSetItem (retryCount : Nat)
  | storageRemoveItem
  /-- The call `fetch(API_CONFIG.BACKEND_URL, ...)` with the profile it sends. -/
  | fetch (profile : List (String × List (String × String)))
  /-- The wait `await new Promise(resolve => setTimeout(resolve, ms))`. -/
  | sleep (ms : Dec)
deriving DecidableEq

/-- How one pass through the body ends. -/
inductive Step where
  | resolve (result : ScoreResult)
  | resolveNull
  | reject (message : String)
  /-- The statement `return calculateScores(answers)`. -/
  | again
deriving DecidableEq

/-- The delay `DEFAULT_RETRY_DELAY * Math.pow(2, retryCount)` of lines 109 and 223. -/
def backoffTime (retryCount : Nat) : Dec := Dec.ofInt (DEFAULT_RETRY_DELAY * 2 ^ retryCount)

/-- The delay `DEFAULT_RETRY_DELAY * Math.pow(1.5, retryCount)` of line 168. -/
def parseRetryDelay (retryCount : Nat) : Dec := ⟨DEFAULT_RETRY_DELAY * 15 ^ retryCount, retryCount⟩

/-- The message of the error thrown in line 114; building it can itself throw. -/
def apiErrorMessage (response : Response) (errorData : JSVal) : Except String String :=
  match errorData.get "error" with
  | .error e => .error e
  | .ok err =>
    let detail := if (err.getOpt "message").truthy then err.getOpt "message"
      else JSVal.str response.statusText
    match detail.toStr with
    | .error e => .error e
    | .ok text => .ok ("API request failed: " ++ toString response.status ++ " - " ++ text)

/-- The body of the outer `try` (lines 24-211) for the closure that captured `retryCount`:
the effects in order, and either how the pass ends or the message of the exception that
reaches the outer `catch`. -/
def tryBody (P : Platform) (retryCount : Nat) (answers : JSVal) (env : AttemptEnv) :
    List Event × Except String Step :=
  let ev1 : List Event :=
    [.setLoading true, .setError none, .setProgress 0,
     .setCalculationStatus "Validating your responses...", .storageSetItem retryCount]
  match env.storageSetItem with
  | .error e => (ev1, .error e)
  | .ok _ =>
    let ev2 := ev1 ++ [.setProgress 20, .setCalculationStatus "Connecting to assessment server..."]
    match buildProfile answers with
    | .error e => (ev2, .error e)
    | .ok profile =>
      let ev3 := ev2 ++ [.fetch profile]
      match env.fetch with
      | .error e => (ev3, .error e)
      | .ok response =>
        if !response.ok then
          let errorData : JSVal :=
            match response.body with
            | .ok v => v
            | .error _ => .obj []
          if retryCount < MAX_RETRIES && (response.status = 429 || response.status ≥ 500) then
            (ev3 ++ [.incRetryCount, .setCalculationStatus "Retrying connection...",
              .sleep (backoffTime retryCount)], .ok .again)
          else
            match apiErrorMessage response errorData with
            | .error e => (ev3, .error e)
            | .ok message => (ev3, .error message)
        else
          let ev4 := ev3 ++ [.setProgress 40, .setCalculationStatus "Analyzing your profile data..."]
          match response.body with
          | .error e => (ev4, .error e)
          | .ok data =>
            if !env.mountedAfterBody then (ev4, .ok .resolveNull)
            else
              let ev5 := ev4 ++ [.setProgress 70, .setCalculationStatus "Processing results..."]
              match parseResponse P data with
              | .error e =>
                if retryCount < MAX_RETRIES then
                  (ev5 ++ [.incRetryCount, .setCalculationStatus "Retrying analysis...",
                    .sleep (parseRetryDelay retryCount)], .ok .again)
                else (ev5, .error ("Invalid response format: " ++ e))
              | .ok responseData =>
                match normalize responseData with
                | .error e => (ev5, .error e)
                | .ok result =>
                  let ev6 := ev5 ++ [.setProgress 100,
                    .setCalculationStatus "Calculation complete!", .setLoading false,
                    .storageRemoveItem]
                  match env.storageRemoveItem with
                  | .error e => (ev6, .error e)
                  | .ok _ => (ev6, .ok (.resolve result))

/-- One pass through `calculateScores` (lines 20-232) for the closure that captured
`retryCount`: the guard of line 21, the outer `try`, and the outer `catch`. -/
def attempt (P : Platform) (retryCount : Nat) (answers : JSVal) (env : AttemptEnv) :
    List Event × Step :=
  if !env.mountedAtEntry then ([], .resolveNull)
  else
    match tryBody P retryCount answers env with
    | (evs, .ok step) => (evs, step)
    | (evs, .error message) =>
      if !env.mountedAtCatch then (evs, .resolveNull)
      else if retryCount < MAX_RETRIES &&
          (jsIncludes message "Rate limit" || jsIncludes message "429") then
        (evs ++ [.incRetryCount, .setCalculationStatus "Retrying connection...",
          .sleep (backoffTime retryCount)], .again)
      else (evs ++ [.setError (some message), .setLoading false], .reject message)

/-- How an invocation stands after a bounded number of passes. -/
inductive Outcome where
  | resolved (result : ScoreResult)
  | resolvedNull
  | rejected (message : String)
  /-- The promise is not settled yet: another pass is due. -/
  | pending
deriving DecidableEq

/-- The effects of an invocation so far, and how it stands. -/
structure Run where
  events : List Event
  outcome : Outcome
deriving DecidableEq

/-- One invocation of the function `calculateScores` that `useCallback` made in a render
with state `retryCount`, followed for at most `fuel` passes.  Pass `i` meets the
surroundings `world i`.  The identifier `calculateScores` in `return calculateScores(answers)`
is the constant of that same render, so each further pass runs the same closure with the same
captured `retryCount`; `setRetryCount` changes the state of the hook, which only a later
render reads. -/
def calculateScores (P : Platform) (retryCount : Nat) (answers : JSVal)
    (world : Nat → AttemptEnv) : Nat → Nat → Run
  | 0, _ => ⟨[], .pending⟩
  | fuel + 1, i =>
    match attempt P retryCount answers (world i) with
    | (evs, .resolve result) => ⟨evs, .resolved result⟩
    | (evs, .resolveNull) => ⟨evs, .resolvedNull⟩
    | (evs, .reject message) => ⟨evs, .rejected message⟩
    | (evs, .again) =>
      let rest := calculateScores P retryCount answers world fuel (i + 1)
      ⟨evs ++ rest.events, rest.outcome⟩

/-- The number of requests among the effects. -/
def requestCount (events : List Event) : Nat :=
  (events.filter (fun e => match e with
    | .fetch _ => true
    | _ => false)).length

/-- The value of the state `retryCount` after the effects, starting from `start`. -/
def retryCountAfter (start : Nat) (events : List Event) : Nat :=
  start + (events.filter (fun e => match e with
    | .incRetryCount => true
    | _ => false)).length

/-! ## The rules of the specification, and sample inputs -/

/-- The rule of the specification for a score, on the number read from the field: 50 when it
is not a number or lies outside `[0, 100]`, otherwise the nearest integer. -/
def scoreRule : JSNum → JSNum
  | .fin d => if 0 ≤ d.val ∧ d.val ≤ 100 then .ofInt ⌊d.val + 1 / 2⌋ else .ofInt 50
  | _ => .ofInt 50

/-- The rule of the specification for a position, on the number read from the field:
1985000000 when it is not a number, is `<= 0` or is `> 3970000000`, otherwise the nearest
integer. -/
def rankingRule : JSNum → JSNum
  | .fin d =>
    if 0 < d.val ∧ d.val ≤ 3970000000 then .ofInt ⌊d.val + 1 / 2⌋ else .ofInt 1985000000
  | _ => .ofInt 1985000000

/-- The rule of the specification for a percentile, on the number read from the field: 50.0
when it is not a number or lies outside `[0, 100]`, otherwise the number nearest to the
nearest multiple of one tenth. -/
def percentileRule : JSNum → JSNum
  | .fin d =>
    if 0 ≤ d.val ∧ d.val ≤ 100 then (Dec.mk ⌊10 * d.val + 1 / 2⌋ 1).toBinary64 else .ofInt 50
  | _ => .ofInt 50

/-- Whether a parsed response has the five required keys, and under `categoryScores` an
object with the six category keys, whatever the values. -/
def keysPresent (responseData : JSVal) : Bool :=
  match responseData with
  | .obj fields =>
    requiredFields.all (hasOwn fields) &&
      (match lookupField fields "categoryScores" with
       | .obj cats => requiredCategories.all (hasOwn cats)
       | _ => false)
  | _ => false

/-- A parsed response with the given values and 50 for the other five categories. -/
def sampleResponse (wealth overallScore position percentile status futurePrediction : JSVal) :
    JSVal :=
  .obj
    [("categoryScores",
        .obj [("wealth", wealth), ("fitness", .num (.ofInt 50)), ("power", .num (.ofInt 50)),
          ("intelligence", .num (.ofInt 50)), ("willpower", .num (.ofInt 50)),
          ("legacy", .num (.ofInt 50))]),
     ("overallScore", overallScore),
     ("globalRanking", .obj [("position", position), ("percentile", percentile)]),
     ("status", status),
     ("futurePrediction", futurePrediction)]

/-- A platform whose `JSON.parse` returns the given value for every text. -/
def parsesTo (v : JSVal) : Platform := ⟨fun _ => .ok v⟩

/-- A response body with the given message content at `choices[0].message.content`. -/
def bodyWith (content : JSVal) : JSVal :=
  .obj [("choices", .arr [.obj [("message", .obj [("content", content)])]])]

/-- Surroundings in which the hook stays mounted, storage works, and `fetch` resolves with
the given response. -/
def envWith (response : Response) : AttemptEnv :=
  { mountedAtEntry := true, storageSetItem := .ok (), fetch := .ok response,
    mountedAfterBody := true, storageRemoveItem := .ok (), mountedAtCatch := true }

/-- A response with status 200 and the given parsed body. -/
def okResponse (data : JSVal) : Response := ⟨200, "OK", .ok data⟩

/-- A response with status 200 whose body is not JSON text, so that `response.json()`
rejects. -/
def unparsableBody : Response := ⟨200, "OK", .error "Unexpected token < in JSON at position 0"⟩

/-- A response with status 500 and an empty error object as body. -/
def serverError : Response := ⟨500, "Internal Server Error", .ok (.obj [])⟩

/-- The response whose position is the number 0.3, everything else in range. -/
def positionThreeTenths : JSVal :=
  sampleResponse (.num (.ofInt 50)) (.num (.ofInt 50)) (.num (.fin ⟨3, 1⟩)) (.num (.ofInt 50))
    (.str "Above average") (.str "Steady growth")

/-- The response whose percentile is the string `approx. top 5%`. -/
def percentileWithDot : JSVal :=
  sampleResponse (.num (.ofInt 50)) (.num (.ofInt 50)) (.num (.ofInt 198500000))
    (.str "approx. top 5%") (.str "Above average") (.str "Steady growth")

/-- The response whose `wealth` score is the object with the one key `toString`. -/
def wealthWithToString : JSVal :=
  sampleResponse (.obj [("toString", .num (.ofInt 1))]) (.num (.ofInt 50))
    (.num (.ofInt 198500000)) (.num (.ofInt 5)) (.str "Above average") (.str "Steady growth")

/-- The response whose `overallScore` is the number 0, everything else in range. -/
def overallScoreZero : JSVal :=
  sampleResponse (.num (.ofInt 50)) (.num (.ofInt 0)) (.num (.ofInt 3000000000))
    (.num (.ofInt 75)) (.str "Developing") (.str "Room to grow")

/-- An answers object without any answer: every leaf of the payload is the empty string. -/
def noAnswers : JSVal := .obj []

/-- Surroundings in which the hook stays mounted, storage works, and the response has status
200 with the given message content. -/
def envWithContent (content : JSVal) : AttemptEnv := envWith (okResponse (bodyWith content))

/-- The example of property P2 of the specification: `wealth` is `"abc"`, `overallScore` is
150, `position` is -5, `percentile` is `"top 1.9%"`, `status` is the empty string and
`futurePrediction` is `null`. -/
def exampleP2 : JSVal :=
  sampleResponse (.str "abc") (.num (.ofInt 150)) (.num (.ofInt (-5))) (.str "top 1.9%")
    (.str "") .null

/-- The message content of a response body, when there is one: the truthy value of
`data.choices?.[0]?.message?.content`. -/
def messageContent (data : JSVal) : Option JSVal :=
  match extractContent data with
  | .ok c => if c.truthy then some c else none
  | .error _ => none

/-- The text of the content after fence stripping, when the content yields one. -/
def cleanedText (content : JSVal) : Option String :=
  match cleanContent content with
  | .ok clean =>
    match clean.toStr with
    | .ok text => some text
    | .error _ => none
  | .error _ => none

/-- The value the content denotes, when its text after fence stripping is valid JSON. -/
def parsedContent (P : Platform) (content : JSVal) : Option JSVal :=
  match cleanedText content with
  | some text =>
    match P.jsonParse text with
    | .ok v => some v
    | .error _ => none
  | none => none

/-- The payload built from `noAnswers`: every leaf is the empty string. -/
def emptyProfile : List (String × List (String × String)) :=
  profileLayout.map (fun cat => (cat.1, cat.2.map (fun leaf => (leaf.1, ""))))

/-- A platform whose `JSON.parse` throws on every text. -/
def parsesNothing : Platform := ⟨fun _ => .error "Unexpected token o in JSON at position 1"⟩

/-! ## The state of the hook, `cleanup` and `abortCalculation` (lines 6-10, 234-248) -/

/-- The five state variables of `useApi` (lines 6-10). -/
structure HookState where
  loading : Bool
  error : Option String
  progress : Nat
  calculationStatus : String
  retryCount : Nat
deriving DecidableEq

/-- The initial values of the state variables: `false`, `null`, `0`, `''`, `0`. -/
def HookState.initial : HookState :=
  { loading := false, error := none, progress := 0, calculationStatus := "", retryCount := 0 }

/-- What one effect does to the state of the hook: a setter writes its variable, everything
else leaves the state alone. -/
def applyEvent (s : HookState) : Event → HookState
  | .setLoading b => { s with loading := b }
  | .setError e => { s with error := e }
  | .setProgress p => { s with progress := p }
  | .setCalculationStatus t => { s with calculationStatus := t }
  | .incRetryCount => { s with retryCount := s.retryCount + 1 }
  | _ => s

/-- The state of the hook after a list of effects. -/
def applyEvents (s : HookState) (events : List Event) : HookState := events.foldl applyEvent s

/-- The body of `cleanup` (lines 235-241): four setter calls. -/
def cleanupEvents : List Event :=
  [.setLoading false, .setError none, .setProgress 0, .setCalculationStatus ""]

/-- The state of the hook after `cleanup()`. -/
def cleanup (s : HookState) : HookState := applyEvents s cleanupEvents

/-- The body of `abortCalculation` (lines 244-248): two setter calls. -/
def abortCalculationEvents : List Event :=
  [.setLoading false, .setError (some "Calculation was cancelled")]

/-- The state of the hook after `abortCalculation()`. -/
def abortCalculation (s : HookState) : HookState := applyEvents s abortCalculationEvents

/-! ## Further sample inputs and readings of the effects -/

/-- The waits among the effects, in order. -/
def sleepsOf (events : List Event) : List Dec :=
  events.filterMap (fun e => match e with
    | .sleep ms => some ms
    | _ => none)

/-- A response with status 429 and an empty error object as body. -/
def rateLimited : Response := ⟨429, "Too Many Requests", .ok (.obj [])⟩

/-- A response with status 400 whose error message speaks of a rate limit. -/
def badRequestRateLimit : Response :=
  ⟨400, "Bad Request", .ok (.obj [("error", .obj [("message", .str "Rate limit exceeded")])])⟩

/-- A response with status 400 whose body is the JSON text `null`. -/
def badRequestNullBody : Response := ⟨400, "Bad Request", .ok .null⟩

/-- A response with status 404 and an empty error object as body. -/
def notFound : Response := ⟨404, "Not Found", .ok (.obj [])⟩

/-- Surroundings in which the hook stays mounted, storage works, and `fetch` rejects with the
given message. -/
def envFetchFails (message : String) : AttemptEnv :=
  { mountedAtEntry := true, storageSetItem := .ok (), fetch := .error message,
    mountedAfterBody := true, storageRemoveItem := .ok (), mountedAtCatch := true }

/-- The variable `errorData` of line 100: the parsed body, or `{}` when `response.json()`
rejects. -/
def errorDataOf (response : Response) : JSVal :=
  match response.body with
  | .ok v => v
  | .error _ => .obj []

/-- The message of the error that line 114 ends in: the `Error` it builds, or the `TypeError`
raised while building it. -/
def thrownForStatus (response : Response) : String :=
  match apiErrorMessage response (errorDataOf response) with
  | .ok message => message
  | .error e => e

/-- The test of the outer `catch` (lines 218-219) on the message of the caught error. -/
def catchRetries (retryCount : Nat) (message : String) : Bool :=
  retryCount < MAX_RETRIES && (jsIncludes message "Rate limit" || jsIncludes message "429")

/-- The expression `errorData.error?.message` of line 114 for an `errorData` that is not
`null`. -/
def upstreamMessage (errorData : JSVal) : JSVal := (errorData.getOpt "error").getOpt "message"

/-- Message content that wraps the text `j` in a fence: the marker and a line feed in front,
a line feed and three backticks behind. -/
def fenced (j : String) : String := "```json\n" ++ j ++ "\n```"

/-- A JSON text whose `status` string holds three backticks. -/
def statusWithBackticks : String := "\x7b\"status\":\"Use ``` to quote\"\x7d"

/-- A value an answer can have according to the specification: a string, a number, `null`,
or nothing (`undefined`). -/
def simpleAnswer : JSVal → Bool
  | .str _ => true
  | .num _ => true
  | .null => true
  | .undefined => true
  | _ => false

/-- The string `String(v || '')` for a string, a number, `null` or `undefined`: the string
itself, the decimal form of a number other than `0` and `NaN`, and the empty string for
every falsy value. -/
def leafOf : JSVal → String
  | .str s => s
  | .num n => if (JSVal.num n).truthy then n.toJSString else ""
  | _ => ""

/-- The effects of a pass up to and including the request. -/
def requestEvents (retryCount : Nat) (profile : List (String × List (String × String))) :
    List Event :=
  [.setLoading true, .setError none, .setProgress 0,
    .setCalculationStatus "Validating your responses...", .storageSetItem retryCount,
    .setProgress 20, .setCalculationStatus "Connecting to assessment server...",
    .fetch profile]

/-! ## The caller: `performCalculation` of `CalculationScreen.js` (lines 83-115) -/

/-- An effect of `performCalculation`. -/
inductive ScreenEvent where
  | setIsCalculating (b : Bool)
  /-- The wait `await new Promise(resolve => setTimeout(resolve, 300))`. -/
  | wait (ms : Nat)
  /-- An effect of the call `calculateScores(answers)`. -/
  | api (e : Event)
  /-- The call `navigation.replace('Results', ...)` with the result. -/
  | navigateResults (result : ScoreResult)
  | setErrorMessage (message : String)
  | setShowErrorDialog (b : Bool)
deriving DecidableEq

/-- One call of the function `performCalculation` that `useCallback` made in a render with
state `isCalculating`, with the `calculateScores` of that render (captured `retryCount`),
followed for at most `fuel` passes of `calculateScores`: the effects, and whether the call
has returned. -/
def performCalculation (P : Platform) (isCalculating : Bool) (retryCount : Nat)
    (answers : JSVal) (world : Nat → AttemptEnv) (fuel : Nat) : List ScreenEvent × Bool :=
  if isCalculating then ([], true)
  else
    let run := calculateScores P retryCount answers world fuel 0
    let front : List ScreenEvent :=
      [.setIsCalculating true, .wait 300] ++ run.events.map ScreenEvent.api
    match run.outcome with
    | .resolved result => (front ++ [.navigateResults result, .setIsCalculating false], true)
    | .resolvedNull => (front ++ [.setIsCalculating false], true)
    | .rejected message =>
      (front ++ [.setErrorMessage (if message.data.isEmpty then
          "An unexpected error occurred during calculation." else message),
        .setShowErrorDialog true, .setIsCalculating false], true)
    | .pending => (front, false)

/-- The effects of `calculateScores` among the effects of `performCalculation`. -/
def apiEventsOf (events : List ScreenEvent) : List Event :=
  events.filterMap (fun e => match e with
    | .api a => some a
    | _ => none)

/-! ## Teardown, and runs that follow one another -/

/-- Whether an effect is a call of one of the five state setters of the hook. -/
def isSetter : Event → Bool
  | .setLoading _ => true
  | .setError _ => true
  | .setProgress _ => true
  | .setCalculationStatus _ => true
  | .incRetryCount => true
  | _ => false

/-- The effects that come after the first request. -/
def eventsAfterRequest : List Event → List Event
  | [] => []
  | .fetch _ :: rest => rest
  | _ :: rest => eventsAfterRequest rest

/-- Surroundings of a pass that starts after the hook was torn down. -/
def envUnmounted : AttemptEnv :=
  { mountedAtEntry := false, storageSetItem := .ok (), fetch := .error "Network request failed",
    mountedAfterBody := false, storageRemoveItem := .ok (), mountedAtCatch := false }

/-- Surroundings of a pass that starts while the hook is mounted and whose response arrives
after the hook was torn down. -/
def envTornDownDuringFetch (response : Response) : AttemptEnv :=
  { mountedAtEntry := true, storageSetItem := .ok (), fetch := .ok response,
    mountedAfterBody := false, storageRemoveItem := .ok (), mountedAtCatch := false }

/-- A world in which the hook is torn down while the first request is pending: the first
pass gets the given response, every later pass starts unmounted. -/
def worldTornDown (response : Response) (i : Nat) : AttemptEnv :=
  if i = 0 then envTornDownDuringFetch response else envUnmounted

/-- A parsed response with every value in range. -/
def plainResponse : JSVal :=
  sampleResponse (.num (.ofInt 72)) (.num (.ofInt 68)) (.num (.ofInt 198500000))
    (.num (.fin ⟨52, 1⟩)) (.str "Above average") (.str "Steady growth")

/-- What `normalize` makes of `plainResponse`. -/
def plainResult : ScoreResult :=
  { categoryScores := ⟨.ofInt 72, .ofInt 50, .ofInt 50, .ofInt 50, .ofInt 50, .ofInt 50⟩,
    overallScore := .ofInt 68,
    globalRanking := ⟨.ofInt 198500000, Dec.toBinary64 ⟨52, 1⟩⟩,
    status := "Above average", futurePrediction := "Steady growth" }

/-- A world that answers the first `k` requests with HTTP 500 and every later one with
status 200. -/
def worldFailsFirst (k : Nat) (i : Nat) : AttemptEnv :=
  if i < k then envWith serverError else envWithContent (.str "model output")

/-- A world that answers with HTTP 429 and with content that is not JSON in turn. -/
def worldAlternating (i : Nat) : AttemptEnv :=
  if i % 2 = 0 then envWith rateLimited else envWithContent (.str "not json")

/-- The constant `API_CONFIG.TIMEOUT.MAX_RETRY_DELAY` of `config/api.js`, in milliseconds. -/
def MAX_RETRY_DELAY : Nat := 10000

/-! ## The history of results (`ResultsScreen.js`, lines 142-153) -/

/-- The list written to `@results_history`: the stored history, or the empty list when there
is none, gets the new entry in front (`unshift`) and is cut to its first ten entries
(`slice(0, 10)`). -/
def saveHistory {α : Type} (stored : Option (List α)) (resultsData : α) : List α :=
  (resultsData :: (match stored with
    | some history => history
    | none => [])).take 10

/-! ## The display values of `ResultsScreen.js` (lines 49-90) -/

/-- The expression `parseInt(value || fallback, 10)` on a number: a falsy number gives way to
the fallback, and `parseInt` reads the decimal form of its argument. -/
def displayInt (value : JSNum) (fallback : Int) : JSNum :=
  parseInt10 (if (JSVal.num value).truthy then value else JSNum.ofInt fallback).toJSString

/-- The expression `parseFloat(value || 50.0)` on a number. -/
def displayFloat (value : JSNum) : JSNum :=
  parseFloat (if (JSVal.num value).truthy then value else JSNum.ofInt 50).toJSString

/-- The memo `scores.categoryScores` for the scores of a result of `calculateScores`. -/
def displayCategoryScores (c : CategoryScores) : CategoryScores :=
  { wealth := displayInt c.wealth 50, fitness := displayInt c.fitness 50,
    power := displayInt c.power 50, intelligence := displayInt c.intelligence 50,
    willpower := displayInt c.willpower 50, legacy := displayInt c.legacy 50 }

/-- The memo `globalRanking` for the ranking of a result of `calculateScores`. -/
def displayRanking (g : GlobalRanking) : GlobalRanking :=
  { position := displayInt g.position 1985000000, percentile := displayFloat g.percentile }

/-- The response whose `wealth` score is the number 0.3, everything else in range. -/
def wealthThreeTenths : JSVal :=
  sampleResponse (.num (.fin ⟨3, 1⟩)) (.num (.ofInt 68)) (.num (.ofInt 198500000))
    (.num (.fin ⟨52, 1⟩)) (.str "Above average") (.str "Steady growth")

/-! ## The questionnaire (`useQuestionnaire.js`, lines 5-92) -/

/-- The table `CATEGORY_FIELDS`, with `[]` for a category it does not have. -/
def CATEGORY_FIELDS : Nat → List String
  | 1 => ["annualIncome", "netWorth", "lifestyle"]
  | 2 => ["height", "bodyType", "strengthLevel"]
  | 3 => ["leadershipRole", "socialReach", "networkStrength"]
  | 4 => ["problemSolving", "skillLevel", "achievements"]
  | 5 => ["discipline", "productiveHours", "stressResilience"]
  | 6 => ["relationshipStatus", "attractiveness", "legacy"]
  | _ => []

/-- The 18 answer keys, by category. -/
def answerKeys : List String :=
  CATEGORY_FIELDS 1 ++ CATEGORY_FIELDS 2 ++ CATEGORY_FIELDS 3 ++ CATEGORY_FIELDS 4 ++
    CATEGORY_FIELDS 5 ++ CATEGORY_FIELDS 6

/-- The object `initialAnswers`: every key with the empty string. -/
def initialAnswers : List (String × JSVal) := answerKeys.map (fun key => (key, .str ""))

/-- The object `{ ...prev, [field]: value }`: the property is overwritten where it is, or
added at the end. -/
def setField : List (String × JSVal) → String → JSVal → List (String × JSVal)
  | [], field, value => [(field, value)]
  | (k, v) :: rest, field, value =>
    if field == k then (k, value) :: rest else (k, v) :: setField rest field value

/-- The state of `useQuestionnaire`. -/
structure QState where
  currentCategory : Nat
  answers : List (String × JSVal)

/-- The initial state: category 1 and `initialAnswers`. -/
def QState.initial : QState := ⟨1, initialAnswers⟩

/-- The function `validateCategory`: no field of the category has a falsy answer. -/
def validateCategory (s : QState) (category : Nat) : Bool :=
  !(CATEGORY_FIELDS category).any (fun field => !(lookupField s.answers field).truthy)

/-- The function `updateAnswer`. -/
def updateAnswer (s : QState) (field : String) (value : JSVal) : QState :=
  { s with answers := setField s.answers field value }

/-- The function `moveToNextCategory`: the state after the call and the value returned. -/
def moveToNextCategory (s : QState) : QState × Bool :=
  if !validateCategory s s.currentCategory then (s, false)
  else if s.currentCategory < 6 then ({ s with currentCategory := s.currentCategory + 1 }, false)
  else (s, true)

/-- The function `moveToPreviousCategory`: the state after the call and the value
returned. -/
def moveToPreviousCategory (s : QState) : QState × Bool :=
  if s.currentCategory > 1 then ({ s with currentCategory := s.currentCategory - 1 }, false)
  else (s, true)

/-- A call of one of the three functions that change the state. -/
inductive QAction where
  | update (field : String) (value : JSVal)
  | next
  | previous

/-- The state after a call. -/
def qStep (s : QState) : QAction → QState
  | .update field value => updateAnswer s field value
  | .next => (moveToNextCategory s).1
  | .previous => (moveToPreviousCategory s).1

/-- The state after a sequence of calls. -/
def qRun (s : QState) (actions : List QAction) : QState := actions.foldl qStep s

/-- Whether all 18 answer keys have a truthy (non-empty) answer. -/
def allAnswered (s : QState) : Bool :=
  answerKeys.all (fun key => (lookupField s.answers key).truthy)

/-- Whether a call is one the screen can make in the state: the screen shows the fields of
the current category only, so `updateAnswer` is called for those. -/
def shownCall (s : QState) : QAction → Bool
  | .update field _ => (CATEGORY_FIELDS s.currentCategory).contains field
  | _ => true

/-- Whether every call of a sequence is one the screen can make in the state it is made
in. -/
def shownCalls : QState → List QAction → Bool
  | _, [] => true
  | s, a :: rest => shownCall s a && shownCalls (qStep s a) rest

/-- The invariant of the questionnaire: the current category is one of the six, and every
category before it is answered. -/
def QInv (s : QState) : Prop :=
  1 ≤ s.currentCategory ∧ s.currentCategory ≤ 6 ∧
    ∀ c < s.currentCategory, 1 ≤ c → validateCategory s c = true

instance (s : QState) : Decidable (QInv s) := by
  unfold QInv
  infer_instance

/-- The calls that answer every question of category `c` with `yes`. -/
def answerCategory (c : Nat) : List QAction :=
  (CATEGORY_FIELDS c).map (fun field => QAction.update field (.str "yes"))

/-- The calls of a user who answers every question of the six categories in turn, with
`moveToNextCategory` after each of the first five. -/
def answerAll : List QAction :=
  answerCategory 1 ++ [.next] ++ answerCategory 2 ++ [.next] ++ answerCategory 3 ++ [.next] ++
    answerCategory 4 ++ [.next] ++ answerCategory 5 ++ [.next] ++ answerCategory 6

/-- The calls of `answerAll`, followed by a call of `updateAnswer` that empties an answer of
category 1 while category 6 is the current one. -/
def answerAllThenClear : List QAction := answerAll ++ [.update "annualIncome" (.str "")]

/-! ## The subscription helpers (`subscriptionPlans.js`, lines 37-65) -/

/-- The argument `expiryDate`: nothing (`null`, `undefined` or the empty string), a date
string that `new Date` reads as the time `t` (what `toISOString` writes), or the number
`t`.  Times are milliseconds since the epoch. -/
inductive ExpiryDate where
  | missing
  | isoString (t : Int)
  | millis (t : Int)

/-- Truthiness of the argument: a date string is not empty, a number is truthy unless it
is 0. -/
def ExpiryDate.truthy : ExpiryDate → Bool
  | .missing => false
  | .isoString _ => true
  | .millis t => decide (t ≠ 0)

/-- The time of `new Date(expiryDate)`. -/
def ExpiryDate.time : ExpiryDate → Int
  | .missing => 0
  | .isoString t => t
  | .millis t => t

/-- The function `getTimeRemaining`, with the reading `now` of the clock (a time after the
epoch). -/
def getTimeRemaining (now : Nat) (expiryDate : ExpiryDate) : String :=
  if !expiryDate.truthy then "Expired"
  else
    let diffMs : Int := expiryDate.time - now
    if diffMs ≤ 0 then "Expired"
    else
      let diffDays : Int := diffMs / (1000 * 60 * 60 * 24)
      let diffHours : Int := (diffMs % (1000 * 60 * 60 * 24)) / (1000 * 60 * 60)
      if diffDays > 0 then
        toString diffDays.toNat ++ " day" ++ (if diffDays ≠ 1 then "s" else "") ++ " remaining"
      else
        toString diffHours.toNat ++ " hour" ++ (if diffHours ≠ 1 then "s" else "") ++ " remaining"

/-- The function `isSubscriptionActive`, with the reading `now` of the clock. -/
def isSubscriptionActive (now : Nat) (expiryDate : ExpiryDate) : Bool :=
  if !expiryDate.truthy then false
  else decide (expiryDate.time > now)

/-! ## Arithmetic of the number checks -/

theorem Dec.le_ofInt_iff (d : Dec) (k : Int) : d.le (Dec.ofInt k) = true ↔ d.val ≤ (k : ℚ) := by
  have hpos : (0 : ℚ) < (10 : ℚ) ^ d.scale := by positivity
  simp only [Dec.le, Dec.ofInt, Dec.val, decide_eq_true_eq, pow_zero, mul_one]
  rw [div_le_iff₀ hpos]
  constructor
  · intro h; exact_mod_cast h
  · intro h; exact_mod_cast h

theorem Dec.ofInt_le_iff (k : Int) (d : Dec) : (Dec.ofInt k).le d = true ↔ (k : ℚ) ≤ d.val := by
  have hpos : (0 : ℚ) < (10 : ℚ) ^ d.scale := by positivity
  simp only [Dec.le, Dec.ofInt, Dec.val, decide_eq_true_eq, pow_zero, mul_one]
  rw [le_div_iff₀ hpos]
  constructor
  · intro h; exact_mod_cast h
  · intro h; exact_mod_cast h

theorem Dec.ofInt_lt_iff (k : Int) (d : Dec) : (Dec.ofInt k).lt d = true ↔ (k : ℚ) < d.val := by
  have hpos : (0 : ℚ) < (10 : ℚ) ^ d.scale := by positivity
  simp only [Dec.lt, Dec.ofInt, Dec.val, decide_eq_true_eq, pow_zero, mul_one]
  rw [lt_div_iff₀ hpos]
  constructor
  · intro h; exact_mod_cast h
  · intro h; exact_mod_cast h

theorem Dec.roundHalfUp_eq_floor (d : Dec) : d.roundHalfUp = ⌊d.val + 1 / 2⌋ := by
  have hpos : (0 : ℚ) < (10 : ℚ) ^ d.scale := by positivity
  have h : d.val + 1 / 2 = ((2 * d.num + 10 ^ d.scale : ℤ) : ℚ) / ((2 * 10 ^ d.scale : ℕ) : ℚ) := by
    simp only [Dec.val]
    push_cast
    field_simp
    ring
  rw [h, Rat.floor_intCast_div_natCast]
  simp [Dec.roundHalfUp]

theorem scoreOf_eq_scoreRule (n : JSNum) : scoreOf n = scoreRule n := by
  cases n with
  | nan => rfl
  | posInf => rfl
  | negInf => rfl
  | fin d =>
    have h0 := Dec.ofInt_le_iff 0 d
    have h1 := Dec.le_ofInt_iff d 100
    simp only [scoreOf, scoreRule, JSNum.isNaN, JSNum.ge, JSNum.le, JSNum.ofInt, mathRound,
      Bool.not_false, Bool.true_and, Bool.and_eq_true, h0, h1, Dec.roundHalfUp_eq_floor]
    norm_num

theorem rankingOf_eq_rankingRule (n : JSNum) : rankingOf n = rankingRule n := by
  cases n with
  | nan => rfl
  | posInf => rfl
  | negInf => rfl
  | fin d =>
    have h0 := Dec.ofInt_lt_iff 0 d
    have h1 := Dec.le_ofInt_iff d 3970000000
    simp only [rankingOf, rankingRule, JSNum.isNaN, JSNum.gt, JSNum.lt, JSNum.le, JSNum.ofInt,
      mathRound, Bool.not_false, Bool.true_and, Bool.and_eq_true, h0, h1,
      Dec.roundHalfUp_eq_floor]
    norm_num

theorem percentileOf_eq_percentileRule (n : JSNum) : percentileOf n = percentileRule n := by
  cases n with
  | nan => rfl
  | posInf => rfl
  | negInf => rfl
  | fin d =>
    have h0 := Dec.ofInt_le_iff 0 d
    have h1 := Dec.le_ofInt_iff d 100
    by_cases hr : 0 ≤ d.val ∧ d.val ≤ 100
    · have hpos : (0 : ℚ) < (10 : ℚ) ^ d.scale := by positivity
      have hnum : 0 ≤ d.num := by
        have := hr.1
        simp only [Dec.val] at this
        have h2 : (0 : ℚ) ≤ (d.num : ℚ) := by
          by_contra hneg
          push_neg at hneg
          have : (d.num : ℚ) / 10 ^ d.scale < 0 := div_neg_of_neg_of_pos hneg hpos
          linarith
        exact_mod_cast h2
      have hup : d.num ≤ 100 * 10 ^ d.scale := by
        have := hr.2
        simp only [Dec.val] at this
        rw [div_le_iff₀ hpos] at this
        exact_mod_cast this
      have habs : (d.num.natAbs : Int) = d.num := Int.natAbs_of_nonneg hnum
      have hsmall : ¬ (d.num.natAbs ≥ 10 ^ 21 * 10 ^ d.scale) := by
        intro hge
        have h3 : ((10 ^ 21 * 10 ^ d.scale : ℕ) : Int) ≤ (d.num.natAbs : Int) := by exact_mod_cast hge
        rw [habs] at h3
        push_cast at h3
        have h4 : (0 : Int) < 10 ^ d.scale := by positivity
        nlinarith
      have hfl : (20 * (d.num.natAbs : Int) + 10 ^ d.scale) / (2 * 10 ^ d.scale)
          = ⌊10 * d.val + 1 / 2⌋ := by
        have h : 10 * d.val + 1 / 2
            = ((20 * d.num + 10 ^ d.scale : ℤ) : ℚ) / ((2 * 10 ^ d.scale : ℕ) : ℚ) := by
          simp only [Dec.val]
          push_cast
          field_simp
          ring
        rw [h, Rat.floor_intCast_div_natCast, habs]
        simp
      have hlt : ¬ d.num < 0 := not_lt.mpr hnum
      have hc : (!(JSNum.fin d).isNaN && (JSNum.fin d).ge (.ofInt 0) && (JSNum.fin d).le (.ofInt 100)) = true := by
        simp only [JSNum.isNaN, JSNum.ge, JSNum.le, JSNum.ofInt, Bool.not_false, Bool.true_and,
          Bool.and_eq_true, h0, h1]
        exact_mod_cast hr
      simp only [percentileOf, hc, if_true, toFixed1, hsmall, if_false, hfl, hlt, percentileRule, hr,
        and_self]
    · have hc : (!(JSNum.fin d).isNaN && (JSNum.fin d).ge (.ofInt 0) && (JSNum.fin d).le (.ofInt 100)) = false := by
        rw [Bool.eq_false_iff]
        intro hc
        simp only [JSNum.isNaN, JSNum.ge, JSNum.le, JSNum.ofInt, Bool.not_false, Bool.true_and,
          Bool.and_eq_true, h0, h1] at hc
        exact hr (by exact_mod_cast hc)
      simp only [percentileOf, hc, percentileRule, hr, if_false]
      rfl

theorem scoreRule_range (n : JSNum) : ∃ k : Int, scoreRule n = .ofInt k ∧ 0 ≤ k ∧ k ≤ 100 := by
  cases n with
  | nan => exact ⟨50, rfl, by norm_num, by norm_num⟩
  | posInf => exact ⟨50, rfl, by norm_num, by norm_num⟩
  | negInf => exact ⟨50, rfl, by norm_num, by norm_num⟩
  | fin d =>
    by_cases hr : 0 ≤ d.val ∧ d.val ≤ 100
    · refine ⟨⌊d.val + 1 / 2⌋, by simp [scoreRule, hr], ?_, ?_⟩
      · apply Int.floor_nonneg.mpr; linarith [hr.1]
      · have : ⌊d.val + 1 / 2⌋ < 101 := by
          apply Int.floor_lt.mpr
          push_cast
          linarith [hr.2]
        omega
    · exact ⟨50, by simp [scoreRule, hr], by norm_num, by norm_num⟩

theorem rankingRule_range (n : JSNum) :
    ∃ k : Int, rankingRule n = .ofInt k ∧ 0 ≤ k ∧ k ≤ 3970000000 := by
  cases n with
  | nan => exact ⟨1985000000, rfl, by norm_num, by norm_num⟩
  | posInf => exact ⟨1985000000, rfl, by norm_num, by norm_num⟩
  | negInf => exact ⟨1985000000, rfl, by norm_num, by norm_num⟩
  | fin d =>
    by_cases hr : 0 < d.val ∧ d.val ≤ 3970000000
    · refine ⟨⌊d.val + 1 / 2⌋, by simp [rankingRule, hr], ?_, ?_⟩
      · apply Int.floor_nonneg.mpr; linarith [hr.1]
      · have : ⌊d.val + 1 / 2⌋ < 3970000001 := by
          apply Int.floor_lt.mpr
          push_cast
          linarith [hr.2]
        omega
    · exact ⟨1985000000, by simp [rankingRule, hr], by norm_num, by norm_num⟩

/-- The binary64 value nearest to `k / 10` lies in `[0, 100]` for every `k` from 0 to 1000. -/
theorem tenths_in_range : ∀ k : Nat, k ≤ 1000 →
    (match Dec.toBinary64 ⟨(k : Int), 1⟩ with
      | .fin d => (Dec.ofInt 0).le d && d.le (Dec.ofInt 100)
      | _ => false) = true := by
  decide!

theorem tenths_val_in_range (k : Int) (h0 : 0 ≤ k) (h1 : k ≤ 1000) :
    ∃ d : Dec, Dec.toBinary64 ⟨k, 1⟩ = .fin d ∧ 0 ≤ d.val ∧ d.val ≤ 100 := by
  obtain ⟨n, rfl⟩ := Int.eq_ofNat_of_zero_le h0
  have h := tenths_in_range n (by omega)
  cases hb : Dec.toBinary64 ⟨(n : Int), 1⟩ with
  | nan => rw [hb] at h; simp at h
  | posInf => rw [hb] at h; simp at h
  | negInf => rw [hb] at h; simp at h
  | fin d =>
    rw [hb] at h
    simp only [Bool.and_eq_true] at h
    refine ⟨d, rfl, ?_, ?_⟩
    · have := (Dec.ofInt_le_iff 0 d).mp h.1
      exact_mod_cast this
    · have := (Dec.le_ofInt_iff d 100).mp h.2
      exact_mod_cast this

theorem percentileRule_range (n : JSNum) :
    ∃ k : Int, 0 ≤ k ∧ k ≤ 1000 ∧ percentileRule n = Dec.toBinary64 ⟨k, 1⟩ := by
  have h50 : ∃ k : Int, 0 ≤ k ∧ k ≤ 1000 ∧ JSNum.ofInt 50 = Dec.toBinary64 ⟨k, 1⟩ :=
    ⟨500, by norm_num, by norm_num, by decide⟩
  cases n with
  | nan => exact h50
  | posInf => exact h50
  | negInf => exact h50
  | fin d =>
    by_cases hr : 0 ≤ d.val ∧ d.val ≤ 100
    · have hlo : 0 ≤ ⌊10 * d.val + 1 / 2⌋ := by
        apply Int.floor_nonneg.mpr; linarith [hr.1]
      have hhi : ⌊10 * d.val + 1 / 2⌋ ≤ 1000 := by
        have : ⌊10 * d.val + 1 / 2⌋ < 1001 := by
          apply Int.floor_lt.mpr
          push_cast
          linarith [hr.2]
        omega
      exact ⟨⌊10 * d.val + 1 / 2⌋, hlo, hhi, by simp [percentileRule, hr]⟩
    · simpa [percentileRule, hr] using h50

/-! ## The claims -/

/-- C1, evaluated on the code: the response `positionThreeTenths` has every required key with
a truthy value, passes the required-field checks, and is normalised to a result whose
`globalRanking.position` is 0, below the declared range `[1, 3970000000]`: the number 0.3
passes the test `num > 0` of `ensureValidRanking` and `Math.round` then takes it to 0. -/
theorem C1_position_rounds_to_zero :
    keysPresent positionThreeTenths = true ∧
    validateResponse positionThreeTenths = .ok () ∧
    (normalize positionThreeTenths).map (fun r => r.globalRanking.position) = .ok (.ofInt 0) ∧
    ensureValidRanking (.num (.fin ⟨3, 1⟩)) = .ok (.ofInt 0) := by
  decide

/-- C2 as stated fails: the boolean `true` is neither a number nor a numeric string, and
`ensureValidScore(true)` is 1, not 50. -/
theorem C2_boolean_is_coerced :
    ensureValidScore (.bool true) = .ok (.ofInt 1) ∧
    ensureValidScore (.bool true) ≠ .ok (.ofInt 50) := by
  decide

/-- C2 as amended: take a value `v` for which the conversion of line 267 gives a number
`num`, which is `parseFloat(v)` for a string, the value itself for a number, 1 or 0 for a
boolean, and `Number(v)` for any other value.  Then `ensureValidScore(v)` is 50 for `null`
and `undefined`, and otherwise the rule of the specification applied to `num`: 50 when `num`
is not a number or lies outside `[0, 100]`, otherwise the nearest integer, a half going
up. -/
theorem C2_ensureValidScore_amended (v : JSVal) (num : JSNum) (hread : readFloat v = .ok num) :
    (v.isNullish = true → ensureValidScore v = .ok (.ofInt 50)) ∧
    (v.isNullish = false → ensureValidScore v = .ok (scoreRule num)) ∧
    (∀ n, v = .num n → num = n.toBinary64) ∧
    (∀ s, v = .str s → num = parseFloat s) ∧
    (∀ b, v = .bool b → num = .ofInt (if b then 1 else 0)) := by
  refine ⟨?_, ?_, ?_, ?_, ?_⟩
  · intro h
    cases v <;> simp_all [JSVal.isNullish, ensureValidScore]
  · intro h
    cases v with
    | undefined => simp [JSVal.isNullish] at h
    | null => simp [JSVal.isNullish] at h
    | bool b => simp only [ensureValidScore, hread, scoreOf_eq_scoreRule]
    | num n => simp only [ensureValidScore, hread, scoreOf_eq_scoreRule]
    | str s => simp only [ensureValidScore, hread, scoreOf_eq_scoreRule]
    | arr xs => simp only [ensureValidScore, hread, scoreOf_eq_scoreRule]
    | obj fs => simp only [ensureValidScore, hread, scoreOf_eq_scoreRule]
  · intro n h
    subst h
    simp only [readFloat, JSVal.toNumber, Except.ok.injEq] at hread
    exact hread.symm
  · intro s h
    subst h
    simp only [readFloat, Except.ok.injEq] at hread
    exact hread.symm
  · intro b h
    subst h
    simp only [readFloat, JSVal.toNumber, Except.ok.injEq] at hread
    exact hread.symm

/-- Witness for C2 as amended, at the string `100.00000000000000001`, which `parseFloat`
reads as the number 100, and at the string `0.49999999999999999`, which it reads as 0.5. -/
theorem C2_ensureValidScore_amended_witness :
    readFloat (.str "100.00000000000000001") = .ok (.ofInt 100) ∧
    ensureValidScore (.str "100.00000000000000001") = .ok (scoreRule (.ofInt 100)) ∧
    ensureValidScore (.str "100.00000000000000001") = .ok (.ofInt 100) ∧
    ensureValidScore (.str "0.49999999999999999") = .ok (.ofInt 1) ∧
    ensureValidScore (.str "87.5") = .ok (.ofInt 88) :=
  ⟨by decide,
    (C2_ensureValidScore_amended (.str "100.00000000000000001") (.ofInt 100) (by decide)).2.1
      (by decide),
    by decide, by decide, by decide⟩

/-- C3, evaluated on the code: for the numeric string `12.7` the claim asks for 13, and
`ensureValidRanking("12.7")` is 12, because a string is read with `parseInt(position, 10)`,
which stops at the decimal point, while the number 12.7 is rounded to 13.  In the same way
the string `0.7` is read as 0 and replaced by the default, while the number 0.7 gives 1.
The sibling helper `ensureValidScore` reads a string with `parseFloat` and gives 13 for
`12.7` either way. -/
theorem C3_fraction_of_string_is_cut :
    ensureValidRanking (.str "12.7") = .ok (.ofInt 12) ∧
    ensureValidRanking (.str "12.7") ≠ .ok (.ofInt 13) ∧
    ensureValidRanking (.num (.fin ⟨127, 1⟩)) = .ok (.ofInt 13) ∧
    ensureValidRanking (.str "0.7") = .ok (.ofInt 1985000000) ∧
    ensureValidRanking (.num (.fin ⟨7, 1⟩)) = .ok (.ofInt 1) ∧
    ensureValidScore (.str "12.7") = .ok (.ofInt 13) ∧
    ensureValidScore (.num (.fin ⟨127, 1⟩)) = .ok (.ofInt 13) := by
  decide

set_option maxRecDepth 100000 in
/-- C4, evaluated on the code: the percentile string `approx. top 5%` includes `%`, its first
decimal number is 5, and the normalised percentile is 50.0: the first match of `/[\d.]+/` is
the lone dot after `approx`, `parseFloat(".")` is `NaN`, and `ensureValidPercentile(NaN)`
falls back to the default.  The strings of the specification give the numbers 1.9 and
0.5. -/
theorem C4_lone_dot_hides_the_number :
    firstNumberRun "approx. top 5%".data = some ['.'] ∧
    prePercentile (.str "approx. top 5%") = .num .nan ∧
    validateResponse percentileWithDot = .ok () ∧
    (normalize percentileWithDot).map (fun r => r.globalRanking.percentile) = .ok (.ofInt 50) ∧
    ensureValidPercentile (prePercentile (.str "top 1.9%")) = .ok (Dec.toBinary64 ⟨19, 1⟩) ∧
    (Dec.toBinary64 ⟨19, 1⟩).toJSString = "1.9" ∧
    ensureValidPercentile (prePercentile (.str "top 0.5%")) = .ok (.fin ⟨5, 1⟩) :=
  ⟨by decide, rfl, by decide, by decide, by decide, by decide, by decide⟩

/-- C5 as stated fails: the values `true` and `[]` are not numeric, and
`ensureValidPercentile` gives 1 and 0 for them, not 50.0. -/
theorem C5_non_numeric_is_coerced :
    ensureValidPercentile (.bool true) = .ok (.ofInt 1) ∧
    ensureValidPercentile (.arr []) = .ok (.ofInt 0) ∧
    ensureValidPercentile (.bool true) ≠ .ok (.ofInt 50) ∧
    ensureValidPercentile (.arr []) ≠ .ok (.ofInt 50) := by
  decide

/-- C5 as amended: take a value `v` for which the conversion of line 283 gives a number
`num`, which is `parseFloat(v)` for a string, the value itself for a number, and `Number(v)`
for any other value.  Then `ensureValidPercentile(v)` is 50.0 for `null` and `undefined`, and
otherwise the rule of the specification applied to `num`: 50.0 when `num` is not a number or
lies outside `[0, 100]`, otherwise the number nearest to `k / 10` for the integer `k` nearest
to `10 * num`.  Every result is the number nearest to `k / 10` for an integer `k` from 0 to
1000, and lies in `[0, 100]`. -/
theorem C5_ensureValidPercentile_amended (v : JSVal) (num : JSNum)
    (hread : readFloat v = .ok num) :
    (v.isNullish = true → ensureValidPercentile v = .ok (.ofInt 50)) ∧
    (v.isNullish = false → ensureValidPercentile v = .ok (percentileRule num)) ∧
    (∀ n, v = .num n → num = n.toBinary64) ∧
    (∀ s, v = .str s → num = parseFloat s) ∧
    (∃ k : Int, 0 ≤ k ∧ k ≤ 1000 ∧ ensureValidPercentile v = .ok (Dec.toBinary64 ⟨k, 1⟩) ∧
      ∃ d : Dec, Dec.toBinary64 ⟨k, 1⟩ = .fin d ∧ 0 ≤ d.val ∧ d.val ≤ 100) := by
  have nul : v.isNullish = true → ensureValidPercentile v = .ok (.ofInt 50) := by
    intro h
    cases v <;> simp_all [JSVal.isNullish, ensureValidPercentile]
  have key : v.isNullish = false → ensureValidPercentile v = .ok (percentileRule num) := by
    intro h
    cases v with
    | undefined => simp [JSVal.isNullish] at h
    | null => simp [JSVal.isNullish] at h
    | bool b => simp only [ensureValidPercentile, hread, percentileOf_eq_percentileRule]
    | num n => simp only [ensureValidPercentile, hread, percentileOf_eq_percentileRule]
    | str s => simp only [ensureValidPercentile, hread, percentileOf_eq_percentileRule]
    | arr xs => simp only [ensureValidPercentile, hread, percentileOf_eq_percentileRule]
    | obj fs => simp only [ensureValidPercentile, hread, percentileOf_eq_percentileRule]
  refine ⟨nul, key, ?_, ?_, ?_⟩
  · intro n h
    subst h
    simp only [readFloat, JSVal.toNumber, Except.ok.injEq] at hread
    exact hread.symm
  · intro s h
    subst h
    simp only [readFloat, Except.ok.injEq] at hread
    exact hread.symm
  · have hres : ∃ k : Int, 0 ≤ k ∧ k ≤ 1000 ∧
        ensureValidPercentile v = .ok (Dec.toBinary64 ⟨k, 1⟩) := by
      cases hn : v.isNullish with
      | true =>
        rw [nul hn]
        exact ⟨500, by norm_num, by norm_num, by decide⟩
      | false =>
        rw [key hn]
        obtain ⟨k, h0, h1, hk⟩ := percentileRule_range num
        exact ⟨k, h0, h1, by rw [hk]⟩
    obtain ⟨k, h0, h1, hk⟩ := hres
    exact ⟨k, h0, h1, hk, tenths_val_in_range k h0 h1⟩

/-- Witness for C5 as amended, at the string `1.45`: the number read lies just below 1.45,
and the result is the number 1.4. -/
theorem C5_ensureValidPercentile_amended_witness :
    readFloat (.str "1.45") = .ok (Dec.toBinary64 ⟨145, 2⟩) ∧
    ensureValidPercentile (.str "1.45") = .ok (percentileRule (Dec.toBinary64 ⟨145, 2⟩)) ∧
    ensureValidPercentile (.str "1.45") = .ok (Dec.toBinary64 ⟨14, 1⟩) ∧
    ensureValidPercentile (.num (.fin ⟨145, 2⟩)) = .ok (Dec.toBinary64 ⟨14, 1⟩) ∧
    ensureValidPercentile (.str "12.34") = .ok (Dec.toBinary64 ⟨123, 1⟩) :=
  ⟨by decide,
    (C5_ensureValidPercentile_amended (.str "1.45") (Dec.toBinary64 ⟨145, 2⟩) (by decide)).2.1
      (by decide),
    by decide, by decide, by decide⟩

/-! ### Trimming -/

theorem dropWhile_head_not (p : Char → Bool) (cs : List Char) (c : Char)
    (h : (cs.dropWhile p).head? = some c) : p c = false := by
  induction cs with
  | nil => simp at h
  | cons x xs ih =>
    by_cases hx : p x = true
    · rw [List.dropWhile_cons_of_pos hx] at h
      exact ih h
    · rw [List.dropWhile_cons_of_neg hx] at h
      simp only [List.head?_cons, Option.some.injEq] at h
      subst h
      simpa using hx

theorem trimChars_split (cs : List Char) :
    ∃ pre post : List Char, cs = pre ++ trimChars cs ++ post ∧
      pre.all isJSWhiteSpace = true ∧ post.all isJSWhiteSpace = true := by
  refine ⟨cs.takeWhile isJSWhiteSpace,
    (((cs.dropWhile isJSWhiteSpace).reverse).takeWhile isJSWhiteSpace).reverse, ?_, ?_, ?_⟩
  · have h1 : cs = cs.takeWhile isJSWhiteSpace ++ cs.dropWhile isJSWhiteSpace :=
      (List.takeWhile_append_dropWhile _ _).symm
    have h2 : cs.dropWhile isJSWhiteSpace = trimChars cs ++
        (((cs.dropWhile isJSWhiteSpace).reverse).takeWhile isJSWhiteSpace).reverse := by
      have := List.takeWhile_append_dropWhile isJSWhiteSpace (cs.dropWhile isJSWhiteSpace).reverse
      have h3 := congrArg List.reverse this
      simp only [List.reverse_append, List.reverse_reverse] at h3
      simp only [trimChars, trimEndChars, trimStartChars]
      exact h3.symm
    rw [List.append_assoc, ← h2]
    exact h1
  · rw [List.all_eq_true]
    intro x hx
    exact (List.mem_takeWhile_imp hx)
  · rw [List.all_eq_true]
    intro x hx
    rw [List.mem_reverse] at hx
    exact (List.mem_takeWhile_imp hx)

theorem trimChars_last_not_space (cs : List Char) (c : Char)
    (h : (trimChars cs).getLast? = some c) : isJSWhiteSpace c = false := by
  simp only [trimChars, trimEndChars, List.getLast?_reverse] at h
  exact dropWhile_head_not _ _ _ h

theorem trimChars_head_not_space (cs : List Char) (c : Char)
    (h : (trimChars cs).head? = some c) : isJSWhiteSpace c = false := by
  -- the trimmed list is a prefix of what is left after dropping the leading white space
  have hpre : trimChars cs ++
      (((cs.dropWhile isJSWhiteSpace).reverse).takeWhile isJSWhiteSpace).reverse
      = cs.dropWhile isJSWhiteSpace := by
    have := List.takeWhile_append_dropWhile isJSWhiteSpace (cs.dropWhile isJSWhiteSpace).reverse
    have h3 := congrArg List.reverse this
    simp only [List.reverse_append, List.reverse_reverse] at h3
    simp only [trimChars, trimEndChars, trimStartChars]
    exact h3
  cases ht : trimChars cs with
  | nil => simp [ht] at h
  | cons x xs =>
    rw [ht] at h hpre
    simp only [List.head?_cons, Option.some.injEq] at h
    subst h
    apply dropWhile_head_not isJSWhiteSpace cs
    rw [← hpre]
    simp

/-- C6: `ensureValidString(v)` is the sentinel `No data available` when `v` is `null` or
`undefined`, is not a string, or is a string that is empty after trimming; otherwise it is
`v.trim()`, which is `v` without a leading and a trailing run of white space and neither
starts nor ends with white space; in every case the result is a non-empty string. -/
theorem C6_ensureValidString (v : JSVal) :
    ((∀ s, v ≠ .str s) → ensureValidString v = "No data available") ∧
    (∀ s, v = .str s → jsTrim s = "" → ensureValidString v = "No data available") ∧
    (∀ s, v = .str s → jsTrim s ≠ "" → ensureValidString v = jsTrim s) ∧
    (∀ s, ∃ pre post : List Char, s.data = pre ++ (jsTrim s).data ++ post ∧
      pre.all isJSWhiteSpace = true ∧ post.all isJSWhiteSpace = true ∧
      (∀ c, (jsTrim s).data.head? = some c → isJSWhiteSpace c = false) ∧
      (∀ c, (jsTrim s).data.getLast? = some c → isJSWhiteSpace c = false)) ∧
    ensureValidString v ≠ "" := by
  have hne : noData ≠ "" := by decide
  have hstr : ∀ s : String, ensureValidString (.str s) =
      if jsTrim s = "" then noData else jsTrim s := by
    intro s
    have : (jsTrim s).data.isEmpty = true ↔ jsTrim s = "" := by
      rw [List.isEmpty_iff]
      constructor
      · intro h; exact String.ext h
      · intro h; rw [h]
    by_cases hs : jsTrim s = ""
    · simp only [ensureValidString, JSVal.truthy, hs, if_true]
      rfl
    · have hf : (jsTrim s).data.isEmpty = false := by
        rw [Bool.eq_false_iff]
        exact fun h => hs (this.mp h)
      simp only [ensureValidString, JSVal.truthy, hf, hs, if_false]
      rfl
  refine ⟨?_, ?_, ?_, ?_, ?_⟩
  · intro h
    cases v with
    | str s => exact absurd rfl (h s)
    | undefined => rfl
    | null => rfl
    | bool b => rfl
    | num n => rfl
    | arr xs => rfl
    | obj fs => rfl
  · intro s hv ht
    subst hv
    rw [hstr, if_pos ht]
    rfl
  · intro s hv ht
    subst hv
    rw [hstr, if_neg ht]
  · intro s
    obtain ⟨pre, post, h1, h2, h3⟩ := trimChars_split s.data
    exact ⟨pre, post, h1, h2, h3, trimChars_head_not_space s.data, trimChars_last_not_space s.data⟩
  · cases v with
    | str s =>
      rw [hstr]
      by_cases hs : jsTrim s = ""
      · rw [if_pos hs]; exact hne
      · rw [if_neg hs]; exact hs
    | undefined => exact hne
    | null => exact hne
    | bool b => exact hne
    | num n => exact hne
    | arr xs => exact hne
    | obj fs => exact hne

/-- Witness for C6, at the string `  rising fast ` with white space at both ends. -/
theorem C6_ensureValidString_witness :
    jsTrim "  rising fast " ≠ "" ∧ ensureValidString (.str "  rising fast ") = jsTrim "  rising fast " ∧
    jsTrim "  rising fast " = "rising fast" :=
  ⟨by decide, (C6_ensureValidString (.str "  rising fast ")).2.2.1 "  rising fast " rfl (by decide),
    by decide⟩

/-- C7, evaluated on the code: the response `wealthWithToString`, whose `wealth` score is the
nested object with the one key `toString`, has every required key with a truthy value and
passes the required-field checks; `ensureValidScore` then calls `Number` on that object,
which throws a `TypeError`, so the construction of the result throws and the invocation
rejects with that error. -/
theorem C7_normalisation_throws :
    keysPresent wealthWithToString = true ∧
    validateResponse wealthWithToString = .ok () ∧
    ensureValidScore (.obj [("toString", .num (.ofInt 1))]) = .error errToPrimitive ∧
    normalize wealthWithToString = .error errToPrimitive ∧
    (calculateScores (parsesTo wealthWithToString) 0 noAnswers
        (fun _ => envWithContent (.str "model output")) 1 0).outcome
      = .rejected "Cannot convert object to primitive value" := by
  decide

/-- C8, evaluated on the code: the response `overallScoreZero` has all five required keys and
all six category keys, with the score 0 under `overallScore`; the check `!responseData[field]`
counts the falsy 0 as missing, so the response is thrown out as malformed, and the pass ends
in a retry that increments the retry counter (or, with no retry left, in a rejection).  The
same happens to the example of property P2, for its empty `status` and `null`
`futurePrediction`. -/
theorem C8_present_but_falsy_is_rejected :
    keysPresent overallScoreZero = true ∧
    validateResponse overallScoreZero
      = .error "Missing required fields in response: overallScore" ∧
    (attempt (parsesTo overallScoreZero) 0 noAnswers (envWithContent (.str "model output"))).2
      = .again ∧
    Event.incRetryCount ∈
      (attempt (parsesTo overallScoreZero) 0 noAnswers (envWithContent (.str "model output"))).1 ∧
    (attempt (parsesTo overallScoreZero) 3 noAnswers (envWithContent (.str "model output"))).2
      = .reject "Invalid response format: Missing required fields in response: overallScore" ∧
    keysPresent exampleP2 = true ∧
    validateResponse exampleP2
      = .error "Missing required fields in response: status, futurePrediction" := by
  decide

/-! ### Malformed responses -/

theorem truthy_lookupField_hasOwn (fields : List (String × JSVal)) (key : String)
    (h : (lookupField fields key).truthy = true) : hasOwn fields key = true := by
  unfold lookupField at h
  unfold hasOwn
  cases hl : fields.lookup key with
  | none => rw [hl] at h; simp [JSVal.truthy] at h
  | some v => rfl

theorem truthy_getOpt_hasOwn (v : JSVal) (key : String) (h : (v.getOpt key).truthy = true) :
    ∃ fields, v = .obj fields ∧ hasOwn fields key = true := by
  cases v with
  | obj fs => exact ⟨fs, rfl, truthy_lookupField_hasOwn fs key h⟩
  | undefined => simp [JSVal.getOpt, JSVal.truthy] at h
  | null => simp [JSVal.getOpt, JSVal.truthy] at h
  | bool b => simp [JSVal.getOpt, JSVal.truthy] at h
  | num n => simp [JSVal.getOpt, JSVal.truthy] at h
  | str s => simp [JSVal.getOpt, JSVal.truthy] at h
  | arr xs => simp [JSVal.getOpt, JSVal.truthy] at h

/-- A response that passes the required-field checks has all the required keys. -/
theorem keysPresent_of_validateResponse (v : JSVal) (h : validateResponse v = .ok ()) :
    keysPresent v = true := by
  unfold validateResponse at h
  cases hm : missingFields v with
  | error e => rw [hm] at h; simp at h
  | ok missing =>
    rw [hm] at h
    by_cases h1 : missing.isEmpty = true
    · by_cases h2 : (missingCategories v).isEmpty = true
      · -- every required field and every category is truthy
        have hmiss : missing = [] := List.isEmpty_iff.mp h1
        have hcat : missingCategories v = [] := List.isEmpty_iff.mp h2
        have hfields : ∀ f ∈ requiredFields, (v.getOpt f).truthy = true := by
          intro f hf
          cases v with
          | undefined => simp [missingFields] at hm
          | null => simp [missingFields] at hm
          | bool b =>
            simp only [missingFields, Except.ok.injEq] at hm
            rw [hmiss, List.filter_eq_nil_iff] at hm
            simpa using hm f hf
          | num n =>
            simp only [missingFields, Except.ok.injEq] at hm
            rw [hmiss, List.filter_eq_nil_iff] at hm
            simpa using hm f hf
          | str s =>
            simp only [missingFields, Except.ok.injEq] at hm
            rw [hmiss, List.filter_eq_nil_iff] at hm
            simpa using hm f hf
          | arr xs =>
            simp only [missingFields, Except.ok.injEq] at hm
            rw [hmiss, List.filter_eq_nil_iff] at hm
            simpa using hm f hf
          | obj fs =>
            simp only [missingFields, Except.ok.injEq] at hm
            rw [hmiss, List.filter_eq_nil_iff] at hm
            simpa using hm f hf
        have hcats : ∀ c ∈ requiredCategories,
            ((v.getOpt "categoryScores").getOpt c).truthy = true := by
          intro c hc
          unfold missingCategories at hcat
          rw [List.filter_eq_nil_iff] at hcat
          have := hcat c hc
          simp only [Bool.or_eq_true, Bool.not_eq_true', not_or, Bool.not_eq_false] at this
          exact this.2
        obtain ⟨fs, hv, _⟩ := truthy_getOpt_hasOwn v "categoryScores"
          (hfields _ (by simp [requiredFields]))
        subst hv
        obtain ⟨cats, hcs, _⟩ := truthy_getOpt_hasOwn _ "wealth"
          (hcats _ (by simp [requiredCategories]))
        simp only [JSVal.getOpt] at hcs
        simp only [keysPresent, hcs, Bool.and_eq_true, List.all_eq_true]
        constructor
        · intro f hf
          obtain ⟨fs', hv', hown⟩ := truthy_getOpt_hasOwn _ f (hfields f hf)
          cases hv'
          exact hown
        · intro c hc
          have := hcats c hc
          simp only [JSVal.getOpt, hcs] at this
          exact truthy_lookupField_hasOwn cats c this
      · simp [h1, h2] at h
    · simp [h1] at h

/-- A response without message content, with content that is not valid JSON, or whose parsed
content lacks a required key, makes the inner `try` throw. -/
theorem parseResponse_error_of_malformed (P : Platform) (data : JSVal)
    (h : messageContent data = none ∨
      (∃ c, messageContent data = some c ∧ parsedContent P c = none) ∨
      (∃ c v, messageContent data = some c ∧ parsedContent P c = some v ∧
        keysPresent v = false)) :
    ∃ e, parseResponse P data = .error e := by
  unfold parseResponse
  cases hx : extractContent data with
  | error e => exact ⟨e, rfl⟩
  | ok c =>
    simp only
    cases ht : c.truthy with
    | false => exact ⟨"Invalid API response structure", by simp⟩
    | true =>
      have hmc : messageContent data = some c := by simp [messageContent, hx, ht]
      simp only [Bool.not_true, Bool.false_eq_true, if_false]
      cases hc : cleanContent c with
      | error e => exact ⟨e, rfl⟩
      | ok clean =>
        simp only
        cases hs : clean.toStr with
        | error e => exact ⟨e, rfl⟩
        | ok text =>
          simp only
          have hct : cleanedText c = some text := by simp [cleanedText, hc, hs]
          cases hp : P.jsonParse text with
          | error e => exact ⟨e, rfl⟩
          | ok v =>
            simp only
            have hpc : parsedContent P c = some v := by simp [parsedContent, hct, hp]
            cases hv : validateResponse v with
            | error e => exact ⟨e, rfl⟩
            | ok u =>
              exfalso
              have hk := keysPresent_of_validateResponse v hv
              rcases h with h | ⟨c', h1, h2⟩ | ⟨c', v', h1, h2, h3⟩
              · rw [hmc] at h; cases h
              · rw [hmc] at h1; cases h1
                rw [hpc] at h2; cases h2
              · rw [hmc] at h1; cases h1
                rw [hpc] at h2; cases h2
                rw [hk] at h3; cases h3

/-- What holds for a body that parses: take a pass of `calculateScores` in which the hook is
mounted, the request was sent and `fetch` resolved with a 2xx response whose body is `data`.  If `data` has no message
content, or the content after fence stripping is not valid JSON, or the parsed content lacks
one of the five required keys or of the six category keys, then the pass yields no result;
while `retryCount < MAX_RETRIES = 3` it ends in `return calculateScores(answers)` after
`setRetryCount(prev => prev + 1)`, the status `Retrying analysis...` and the wait
`DEFAULT_RETRY_DELAY * 1.5 ^ retryCount`; otherwise it rejects with a message that starts
with `Invalid response format: `, which is also put in the error state. -/
theorem malformed_content_retried_or_rejected (P : Platform) (retryCount : Nat)
    (answers : JSVal) (env : AttemptEnv) (profile : List (String × List (String × String)))
    (response : Response) (data : JSVal)
    (hentry : env.mountedAtEntry = true) (hset : env.storageSetItem = .ok ())
    (hprofile : buildProfile answers = .ok profile)
    (hfetch : env.fetch = .ok response) (hok : response.ok = true)
    (hbody : response.body = .ok data)
    (hbodyMounted : env.mountedAfterBody = true) (hcatch : env.mountedAtCatch = true)
    (hbad : messageContent data = none ∨
      (∃ c, messageContent data = some c ∧ parsedContent P c = none) ∨
      (∃ c v, messageContent data = some c ∧ parsedContent P c = some v ∧
        keysPresent v = false)) :
    MAX_RETRIES = 3 ∧
    (∀ r, (attempt P retryCount answers env).2 ≠ .resolve r) ∧
    (retryCount < MAX_RETRIES →
      (attempt P retryCount answers env).2 = .again ∧
      ∃ evs, (attempt P retryCount answers env).1 =
        evs ++ [.incRetryCount, .setCalculationStatus "Retrying analysis...",
          .sleep (parseRetryDelay retryCount)]) ∧
    (¬ retryCount < MAX_RETRIES →
      ∃ e evs, (attempt P retryCount answers env).2 = .reject ("Invalid response format: " ++ e) ∧
        (attempt P retryCount answers env).1 =
          evs ++ [.setError (some ("Invalid response format: " ++ e)), .setLoading false]) := by
  obtain ⟨e, he⟩ := parseResponse_error_of_malformed P data hbad
  by_cases hlt : retryCount < MAX_RETRIES
  · have hlt' : decide (retryCount < MAX_RETRIES) = true := by simpa using hlt
    have hatt : attempt P retryCount answers env =
        ([.setLoading true, .setError none, .setProgress 0,
          .setCalculationStatus "Validating your responses...", .storageSetItem retryCount] ++
          [.setProgress 20, .setCalculationStatus "Connecting to assessment server..."] ++
          [.fetch profile] ++
          [.setProgress 40, .setCalculationStatus "Analyzing your profile data..."] ++
          [.setProgress 70, .setCalculationStatus "Processing results..."] ++
          [.incRetryCount, .setCalculationStatus "Retrying analysis...",
            .sleep (parseRetryDelay retryCount)], .again) := by
      simp only [attempt, tryBody, hentry, hset, hprofile, hfetch, hok, hbody, hbodyMounted, he,
        hlt', Bool.not_true, Bool.false_eq_true, if_false, if_true, hlt]
    refine ⟨rfl, ?_, ?_, ?_⟩
    · intro r; rw [hatt]; simp
    · intro _; rw [hatt]; exact ⟨rfl, _, rfl⟩
    · intro h; exact absurd hlt h
  · have hlt' : decide (retryCount < MAX_RETRIES) = false := by simpa using hlt
    have hatt : attempt P retryCount answers env =
        ([.setLoading true, .setError none, .setProgress 0,
          .setCalculationStatus "Validating your responses...", .storageSetItem retryCount] ++
          [.setProgress 20, .setCalculationStatus "Connecting to assessment server..."] ++
          [.fetch profile] ++
          [.setProgress 40, .setCalculationStatus "Analyzing your profile data..."] ++
          [.setProgress 70, .setCalculationStatus "Processing results..."] ++
          [.setError (some ("Invalid response format: " ++ e)), .setLoading false],
          .reject ("Invalid response format: " ++ e)) := by
      simp only [attempt, tryBody, hentry, hset, hprofile, hfetch, hok, hbody, hbodyMounted, he,
        hcatch, hlt', Bool.not_true, Bool.false_eq_true, if_false, if_true, Bool.false_and, hlt,
        decide_False]
    refine ⟨rfl, ?_, ?_, ?_⟩
    · intro r; rw [hatt]; simp
    · intro h; exact absurd h hlt
    · intro _; rw [hatt]; exact ⟨e, _, rfl, rfl⟩

/-- C9, evaluated on the code: a 2xx response whose body is not JSON text has no message
content, but it is not treated as a malformed response.  The statement
`const data = await response.json()` of line 120 stands before the inner `try`, so the
rejection goes to the outer `catch`: the invocation of a fresh hook (`retryCount = 0`, below
`MAX_RETRIES`) makes one request, no retry and no wait, and rejects with the message of
`response.json()`, which does not start with `Invalid response format: `.  Content that is
not JSON inside a body that parses is retried, and for a response that is not ok the body
that does not parse is replaced by an empty object (line 100). -/
theorem C9_unparsable_body_is_not_retried (P : Platform) :
    unparsableBody.ok = true ∧
    (calculateScores P 0 noAnswers (fun _ => envWith unparsableBody) 4 0).outcome
      = .rejected "Unexpected token < in JSON at position 0" ∧
    requestCount (calculateScores P 0 noAnswers (fun _ => envWith unparsableBody) 4 0).events
      = 1 ∧
    retryCountAfter 0 (calculateScores P 0 noAnswers (fun _ => envWith unparsableBody) 4 0).events
      = 0 ∧
    sleepsOf (calculateScores P 0 noAnswers (fun _ => envWith unparsableBody) 4 0).events = [] ∧
    "Invalid response format: ".data.isPrefixOf "Unexpected token < in JSON at position 0".data
      = false ∧
    (attempt parsesNothing 0 noAnswers (envWithContent (.str "not json"))).2 = .again ∧
    (attempt P 3 noAnswers
        (envWith ⟨404, "Not Found", .error "Unexpected token < in JSON at position 0"⟩)).2
      = .reject "API request failed: 404 - Not Found" :=
  ⟨rfl, rfl, rfl, rfl, rfl, by decide, by decide, rfl⟩

/-! ### The retry ceiling -/

theorem attempt_serverError_fresh (P : Platform) :
    attempt P 0 noAnswers (envWith serverError) =
      ([.setLoading true, .setError none, .setProgress 0,
        .setCalculationStatus "Validating your responses...", .storageSetItem 0,
        .setProgress 20, .setCalculationStatus "Connecting to assessment server...",
        .fetch emptyProfile, .incRetryCount, .setCalculationStatus "Retrying connection...",
        .sleep (Dec.ofInt 2000)], .again) := by
  rfl

theorem calculateScores_serverError_fresh (P : Platform) (n i : Nat) :
    (calculateScores P 0 noAnswers (fun _ => envWith serverError) n i).outcome = .pending ∧
    requestCount (calculateScores P 0 noAnswers (fun _ => envWith serverError) n i).events = n := by
  induction n generalizing i with
  | zero => exact ⟨rfl, rfl⟩
  | succ k ih =>
    obtain ⟨h1, h2⟩ := ih (i + 1)
    simp only [calculateScores, attempt_serverError_fresh]
    refine ⟨h1, ?_⟩
    simp only [requestCount, List.filter_append, List.length_append] at h2 ⊢
    rw [h2]
    simp [List.filter]
    omega

/-- C10, evaluated on the code: with a transport that always answers HTTP 500, the function
`calculateScores` of a fresh hook (captured `retryCount = 0`) has, after any number `n` of
passes, issued `n` requests and is still not settled: each pass ends in
`return calculateScores(answers)`, which runs the same closure with the same `retryCount`, so
the test `retryCount < MAX_RETRIES` never fails.  Six passes give six requests, more than
`MAX_RETRIES + 1 = 4`.  A closure that captured `retryCount = 3` rejects after one request. -/
theorem C10_server_error_retried_without_end (P : Platform) (n : Nat) :
    (calculateScores P 0 noAnswers (fun _ => envWith serverError) n 0).outcome = .pending ∧
    requestCount (calculateScores P 0 noAnswers (fun _ => envWith serverError) n 0).events = n ∧
    requestCount (calculateScores P 0 noAnswers (fun _ => envWith serverError) 6 0).events = 6 ∧
    (calculateScores P 3 noAnswers (fun _ => envWith serverError) (n + 1) 0).outcome
      = .rejected "API request failed: 500 - Internal Server Error" ∧
    requestCount (calculateScores P 3 noAnswers (fun _ => envWith serverError) (n + 1) 0).events
      = 1 :=
  ⟨(calculateScores_serverError_fresh P n 0).1, (calculateScores_serverError_fresh P n 0).2,
    (calculateScores_serverError_fresh P 6 0).2, rfl, rfl⟩

/-! ## What holds of every result, and where the normalisation completes -/

theorem except_bind_ok_iff {ε α β : Type} (x : Except ε α) (f : α → Except ε β) (b : β) :
    (x >>= f) = .ok b ↔ ∃ a, x = .ok a ∧ f a = .ok b := by
  cases x with
  | error e => simp [bind, Except.bind]
  | ok a => simp [bind, Except.bind]

theorem ensureValidScore_range (v : JSVal) (r : JSNum) (h : ensureValidScore v = .ok r) :
    ∃ k : Int, r = .ofInt k ∧ 0 ≤ k ∧ k ≤ 100 := by
  have h50 : ∃ k : Int, JSNum.ofInt 50 = .ofInt k ∧ 0 ≤ k ∧ k ≤ 100 := ⟨50, rfl, by norm_num, by norm_num⟩
  have hgen : ∀ w : JSVal, (match readFloat w with
      | .error e => Except.error e
      | .ok num => .ok (scoreOf num)) = .ok r → ∃ k : Int, r = .ofInt k ∧ 0 ≤ k ∧ k ≤ 100 := by
    intro w hw
    cases hread : readFloat w with
    | error e => rw [hread] at hw; cases hw
    | ok n =>
      rw [hread] at hw
      simp only [Except.ok.injEq] at hw
      rw [← hw, scoreOf_eq_scoreRule]
      exact scoreRule_range n
  cases v with
  | undefined => simp only [ensureValidScore, Except.ok.injEq] at h; rw [← h]; exact h50
  | null => simp only [ensureValidScore, Except.ok.injEq] at h; rw [← h]; exact h50
  | bool b => exact hgen (.bool b) h
  | num n => exact hgen (.num n) h
  | str s => exact hgen (.str s) h
  | arr xs => exact hgen (.arr xs) h
  | obj fs => exact hgen (.obj fs) h

theorem ensureValidRanking_range (v : JSVal) (r : JSNum) (h : ensureValidRanking v = .ok r) :
    ∃ k : Int, r = .ofInt k ∧ 0 ≤ k ∧ k ≤ 3970000000 := by
  have h50 : ∃ k : Int, JSNum.ofInt 1985000000 = .ofInt k ∧ 0 ≤ k ∧ k ≤ 3970000000 :=
    ⟨1985000000, rfl, by norm_num, by norm_num⟩
  have hgen : ∀ w : JSVal, (match readInt w with
      | .error e => Except.error e
      | .ok num => .ok (rankingOf num)) = .ok r →
      ∃ k : Int, r = .ofInt k ∧ 0 ≤ k ∧ k ≤ 3970000000 := by
    intro w hw
    cases hread : readInt w with
    | error e => rw [hread] at hw; cases hw
    | ok n =>
      rw [hread] at hw
      simp only [Except.ok.injEq] at hw
      rw [← hw, rankingOf_eq_rankingRule]
      exact rankingRule_range n
  cases v with
  | undefined => simp only [ensureValidRanking, Except.ok.injEq] at h; rw [← h]; exact h50
  | null => simp only [ensureValidRanking, Except.ok.injEq] at h; rw [← h]; exact h50
  | bool b => exact hgen (.bool b) h
  | num n => exact hgen (.num n) h
  | str s => exact hgen (.str s) h
  | arr xs => exact hgen (.arr xs) h
  | obj fs => exact hgen (.obj fs) h

theorem ensureValidPercentile_range (v : JSVal) (r : JSNum) (h : ensureValidPercentile v = .ok r) :
    ∃ k : Int, 0 ≤ k ∧ k ≤ 1000 ∧ r = Dec.toBinary64 ⟨k, 1⟩ ∧
      ∃ d : Dec, r = .fin d ∧ 0 ≤ d.val ∧ d.val ≤ 100 := by
  have hrule : ∀ n : JSNum, ∃ k : Int, 0 ≤ k ∧ k ≤ 1000 ∧ percentileRule n = Dec.toBinary64 ⟨k, 1⟩ ∧
      ∃ d : Dec, percentileRule n = .fin d ∧ 0 ≤ d.val ∧ d.val ≤ 100 := by
    intro n
    obtain ⟨k, h0, h1, hk⟩ := percentileRule_range n
    obtain ⟨d, hd, hlo, hhi⟩ := tenths_val_in_range k h0 h1
    exact ⟨k, h0, h1, hk, d, by rw [hk, hd], hlo, hhi⟩
  have hgen : ∀ w : JSVal, (match readFloat w with
      | .error e => Except.error e
      | .ok num => .ok (percentileOf num)) = .ok r →
      ∃ k : Int, 0 ≤ k ∧ k ≤ 1000 ∧ r = Dec.toBinary64 ⟨k, 1⟩ ∧
        ∃ d : Dec, r = .fin d ∧ 0 ≤ d.val ∧ d.val ≤ 100 := by
    intro w hw
    cases hread : readFloat w with
    | error e => rw [hread] at hw; cases hw
    | ok n =>
      rw [hread] at hw
      simp only [Except.ok.injEq] at hw
      rw [← hw, percentileOf_eq_percentileRule]
      exact hrule n
  cases v with
  | undefined =>
    simp only [ensureValidPercentile, Except.ok.injEq] at h; rw [← h]; exact hrule .nan
  | null =>
    simp only [ensureValidPercentile, Except.ok.injEq] at h; rw [← h]; exact hrule .nan
  | bool b => exact hgen (.bool b) h
  | num n => exact hgen (.num n) h
  | str s => exact hgen (.str s) h
  | arr xs => exact hgen (.arr xs) h
  | obj fs => exact hgen (.obj fs) h

theorem ensureValidString_ne_empty (v : JSVal) : ensureValidString v ≠ "" := by
  have hne : noData ≠ "" := by decide
  cases v with
  | str s =>
    simp only [ensureValidString, JSVal.truthy]
    by_cases hs : (jsTrim s).data.isEmpty = true
    · simp only [hs, Bool.not_true, Bool.false_eq_true, if_false]; exact hne
    · simp only [hs, Bool.not_false, if_true]
      intro h
      rw [h] at hs
      exact hs rfl
  | undefined => exact hne
  | null => exact hne
  | bool b => exact hne
  | num n => exact hne
  | arr xs => exact hne
  | obj fs => exact hne

/-- What does hold of every result the normalisation builds: the scores are integers in
`[0, 100]`, the position is an integer in `[0, 3970000000]`, the percentile is the number
nearest to a multiple of one tenth and lies in `[0, 100]`, and the two strings are not
empty. -/
theorem normalize_ranges (responseData : JSVal) (r : ScoreResult)
    (h : normalize responseData = .ok r) :
    (∀ x ∈ [r.categoryScores.wealth, r.categoryScores.fitness, r.categoryScores.power,
        r.categoryScores.intelligence, r.categoryScores.willpower, r.categoryScores.legacy,
        r.overallScore], ∃ k : Int, x = .ofInt k ∧ 0 ≤ k ∧ k ≤ 100) ∧
    (∃ k : Int, r.globalRanking.position = .ofInt k ∧ 0 ≤ k ∧ k ≤ 3970000000) ∧
    (∃ k : Int, 0 ≤ k ∧ k ≤ 1000 ∧ r.globalRanking.percentile = Dec.toBinary64 ⟨k, 1⟩ ∧
      ∃ d : Dec, r.globalRanking.percentile = .fin d ∧ 0 ≤ d.val ∧ d.val ≤ 100) ∧
    r.status ≠ "" ∧ r.futurePrediction ≠ "" := by
  simp only [normalize, except_bind_ok_iff, pure, Except.pure, Except.ok.injEq] at h
  obtain ⟨gr, -, pc, -, cs, -, w0, -, w, hw, f0, -, f, hf, p0, -, p, hp, i0, -, i, hi,
    wl0, -, wl, hwl, l0, -, l, hl, o0, -, o, ho, ps0, -, ps, hps, pct, hpct, st, -, fp, -, hr⟩ := h
  subst hr
  refine ⟨?_, ensureValidRanking_range _ _ hps, ensureValidPercentile_range _ _ hpct,
    ensureValidString_ne_empty _, ensureValidString_ne_empty _⟩
  intro x hx
  simp only [List.mem_cons, List.mem_singleton, List.not_mem_nil, or_false] at hx
  rcases hx with rfl | rfl | rfl | rfl | rfl | rfl | rfl
  · exact ensureValidScore_range _ _ hw
  · exact ensureValidScore_range _ _ hf
  · exact ensureValidScore_range _ _ hp
  · exact ensureValidScore_range _ _ hi
  · exact ensureValidScore_range _ _ hwl
  · exact ensureValidScore_range _ _ hl
  · exact ensureValidScore_range _ _ ho

/-- What the required-field checks test: every required field, and every category under
`categoryScores`, has a truthy value. -/
theorem validateResponse_ok_iff (v : JSVal) :
    validateResponse v = .ok () ↔
      (∀ f ∈ requiredFields, (v.getOpt f).truthy = true) ∧
      (∀ c ∈ requiredCategories, ((v.getOpt "categoryScores").getOpt c).truthy = true) := by
  have hmf : v.isNullish = false →
      missingFields v = .ok (requiredFields.filter (fun field => !(v.getOpt field).truthy)) := by
    intro hn
    cases v <;> first | rfl | simp [JSVal.isNullish] at hn
  constructor
  · intro h
    have hn : v.isNullish = false := by
      cases v <;> first | rfl | simp [validateResponse, missingFields] at h
    unfold validateResponse at h
    rw [hmf hn] at h
    simp only at h
    by_cases h1 : (requiredFields.filter (fun field => !(v.getOpt field).truthy)).isEmpty = true
    · by_cases h2 : (missingCategories v).isEmpty = true
      · constructor
        · intro f hf
          have := List.filter_eq_nil_iff.mp (List.isEmpty_iff.mp h1) f hf
          simpa using this
        · intro c hc
          have hcat : missingCategories v = [] := List.isEmpty_iff.mp h2
          unfold missingCategories at hcat
          have := List.filter_eq_nil_iff.mp hcat c hc
          simp only [Bool.or_eq_true, Bool.not_eq_true', not_or, Bool.not_eq_false] at this
          exact this.2
      · simp [h1, h2] at h
    · simp [h1] at h
  · rintro ⟨hf, hc⟩
    have hn : v.isNullish = false := by
      have := hf "categoryScores" (by simp [requiredFields])
      cases v <;> first | rfl | simp [JSVal.getOpt, JSVal.truthy] at this
    have h1 : requiredFields.filter (fun field => !(v.getOpt field).truthy) = [] := by
      rw [List.filter_eq_nil_iff]
      intro f hfm
      simp [hf f hfm]
    have h2 : missingCategories v = [] := by
      unfold missingCategories
      rw [List.filter_eq_nil_iff]
      intro c hcm
      simp [hc c hcm, hf "categoryScores" (by simp [requiredFields])]
    unfold validateResponse
    rw [hmf hn]
    simp [h1, h2]

theorem get_of_truthy (x : JSVal) (key : String) (h : x.truthy = true) :
    x.get key = .ok (x.getOpt key) := by
  cases x <;> first | rfl | simp [JSVal.truthy] at h

theorem ensureValidScore_ok_of_read (x : JSVal) (n : JSNum) (h : readFloat x = .ok n) :
    ∃ m, ensureValidScore x = .ok m := by
  cases x with
  | undefined => exact ⟨_, rfl⟩
  | null => exact ⟨_, rfl⟩
  | bool b => exact ⟨scoreOf n, by simp only [ensureValidScore, h]⟩
  | num k => exact ⟨scoreOf n, by simp only [ensureValidScore, h]⟩
  | str s => exact ⟨scoreOf n, by simp only [ensureValidScore, h]⟩
  | arr xs => exact ⟨scoreOf n, by simp only [ensureValidScore, h]⟩
  | obj fs => exact ⟨scoreOf n, by simp only [ensureValidScore, h]⟩

theorem ensureValidRanking_ok_of_read (x : JSVal) (n : JSNum) (h : readInt x = .ok n) :
    ∃ m, ensureValidRanking x = .ok m := by
  cases x with
  | undefined => exact ⟨_, rfl⟩
  | null => exact ⟨_, rfl⟩
  | bool b => exact ⟨rankingOf n, by simp only [ensureValidRanking, h]⟩
  | num k => exact ⟨rankingOf n, by simp only [ensureValidRanking, h]⟩
  | str s => exact ⟨rankingOf n, by simp only [ensureValidRanking, h]⟩
  | arr xs => exact ⟨rankingOf n, by simp only [ensureValidRanking, h]⟩
  | obj fs => exact ⟨rankingOf n, by simp only [ensureValidRanking, h]⟩

theorem ensureValidPercentile_ok_of_read (x : JSVal) (n : JSNum) (h : readFloat x = .ok n) :
    ∃ m, ensureValidPercentile x = .ok m := by
  cases x with
  | undefined => exact ⟨_, rfl⟩
  | null => exact ⟨_, rfl⟩
  | bool b => exact ⟨percentileOf n, by simp only [ensureValidPercentile, h]⟩
  | num k => exact ⟨percentileOf n, by simp only [ensureValidPercentile, h]⟩
  | str s => exact ⟨percentileOf n, by simp only [ensureValidPercentile, h]⟩
  | arr xs => exact ⟨percentileOf n, by simp only [ensureValidPercentile, h]⟩
  | obj fs => exact ⟨percentileOf n, by simp only [ensureValidPercentile, h]⟩

/-- Where the normalisation does complete: on a response that passed the required-field
checks it returns a result as soon as none of the nine numeric conversions throws. -/
theorem normalize_ok_of_validated (v : JSVal) (hv : validateResponse v = .ok ())
    (hc : ∀ c ∈ requiredCategories,
      ∃ n, readFloat ((v.getOpt "categoryScores").getOpt c) = .ok n)
    (ho : ∃ n, readFloat (v.getOpt "overallScore") = .ok n)
    (hp : ∃ n, readInt ((v.getOpt "globalRanking").getOpt "position") = .ok n)
    (hq : ∃ n, readFloat (prePercentile ((v.getOpt "globalRanking").getOpt "percentile")) = .ok n) :
    ∃ r, normalize v = .ok r := by
  obtain ⟨hf, _⟩ := (validateResponse_ok_iff v).mp hv
  have hvt : v.truthy = true := by
    have := hf "categoryScores" (by simp [requiredFields])
    cases v <;> first | rfl | simp [JSVal.getOpt, JSVal.truthy] at this
  have hgr := hf "globalRanking" (by simp [requiredFields])
  have hcs := hf "categoryScores" (by simp [requiredFields])
  obtain ⟨n1, h1⟩ := hc "wealth" (by simp [requiredCategories])
  obtain ⟨n2, h2⟩ := hc "fitness" (by simp [requiredCategories])
  obtain ⟨n3, h3⟩ := hc "power" (by simp [requiredCategories])
  obtain ⟨n4, h4⟩ := hc "intelligence" (by simp [requiredCategories])
  obtain ⟨n5, h5⟩ := hc "willpower" (by simp [requiredCategories])
  obtain ⟨n6, h6⟩ := hc "legacy" (by simp [requiredCategories])
  obtain ⟨m1, e1⟩ := ensureValidScore_ok_of_read _ _ h1
  obtain ⟨m2, e2⟩ := ensureValidScore_ok_of_read _ _ h2
  obtain ⟨m3, e3⟩ := ensureValidScore_ok_of_read _ _ h3
  obtain ⟨m4, e4⟩ := ensureValidScore_ok_of_read _ _ h4
  obtain ⟨m5, e5⟩ := ensureValidScore_ok_of_read _ _ h5
  obtain ⟨m6, e6⟩ := ensureValidScore_ok_of_read _ _ h6
  obtain ⟨no, ho'⟩ := ho
  obtain ⟨mo, eo⟩ := ensureValidScore_ok_of_read _ _ ho'
  obtain ⟨np, hp'⟩ := hp
  obtain ⟨mp, ep⟩ := ensureValidRanking_ok_of_read _ _ hp'
  obtain ⟨nq, hq'⟩ := hq
  obtain ⟨mq, eq⟩ := ensureValidPercentile_ok_of_read _ _ hq'
  simp only [normalize, get_of_truthy v _ hvt, get_of_truthy _ _ hgr, get_of_truthy _ _ hcs,
    bind, Except.bind, e1, e2, e3, e4, e5, e6, eo, ep, eq, pure, Except.pure]
  exact ⟨_, rfl⟩

/-! ### Backoff inside one invocation -/

theorem attempt_retryable_status (P : Platform) (retryCount : Nat) (response : Response)
    (hrc : retryCount < MAX_RETRIES) (hstatus : response.status = 429 ∨ response.status ≥ 500) :
    attempt P retryCount noAnswers (envWith response) =
      ([.setLoading true, .setError none, .setProgress 0,
        .setCalculationStatus "Validating your responses...", .storageSetItem retryCount,
        .setProgress 20, .setCalculationStatus "Connecting to assessment server...",
        .fetch emptyProfile, .incRetryCount, .setCalculationStatus "Retrying connection...",
        .sleep (backoffTime retryCount)], .again) := by
  have hnok : response.ok = false := by
    simp only [Response.ok, Bool.and_eq_false_iff, decide_eq_false_iff_not, not_le]
    rcases hstatus with h | h
    · right; omega
    · right; omega
  have hprofile : buildProfile noAnswers = .ok emptyProfile := by decide
  have hcond : (decide (retryCount < MAX_RETRIES) &&
      (decide (response.status = 429) || decide (response.status ≥ 500))) = true := by
    simp only [Bool.and_eq_true, Bool.or_eq_true, decide_eq_true_eq]
    exact ⟨hrc, hstatus⟩
  simp only [attempt, tryBody, envWith, hprofile, hnok, hcond, Bool.not_true, Bool.not_false,
    Bool.false_eq_true, if_false, if_true, List.cons_append, List.nil_append]

theorem sleepsOf_retryable_status (P : Platform) (retryCount : Nat) (response : Response)
    (hrc : retryCount < MAX_RETRIES) (hstatus : response.status = 429 ∨ response.status ≥ 500)
    (n i : Nat) :
    sleepsOf (calculateScores P retryCount noAnswers (fun _ => envWith response) n i).events
      = List.replicate n (backoffTime retryCount) := by
  induction n generalizing i with
  | zero => rfl
  | succ k ih =>
    simp only [calculateScores, attempt_retryable_status P retryCount response hrc hstatus]
    simp only [sleepsOf, List.filterMap_append] at ih ⊢
    rw [ih (i + 1)]
    simp [List.filterMap, List.replicate_succ]

/-- C11, evaluated on the code: inside one invocation that meets HTTP 429 or a status of 500
or more in every pass, every wait is `DEFAULT_RETRY_DELAY * 2 ^ retryCount` for the one
`retryCount` the closure captured, so the waits before the retries are all equal: 2000, 2000,
2000 for a fresh hook, not 2000, 4000, 8000.  The expression of line 109 is the one the claim
names; its `retryCount` does not change between the passes. -/
theorem C11_backoff_constant_within_invocation (P : Platform) (retryCount : Nat)
    (response : Response) (n : Nat) (hrc : retryCount < MAX_RETRIES)
    (hstatus : response.status = 429 ∨ response.status ≥ 500) :
    sleepsOf (calculateScores P retryCount noAnswers (fun _ => envWith response) n 0).events
      = List.replicate n (backoffTime retryCount) ∧
    backoffTime retryCount = Dec.ofInt (2000 * 2 ^ retryCount) :=
  ⟨sleepsOf_retryable_status P retryCount response hrc hstatus n 0, by
    simp [backoffTime, DEFAULT_RETRY_DELAY]⟩

/-- Witness for C11: three passes against HTTP 429 from a fresh hook wait 2000 ms each
time. -/
theorem C11_backoff_constant_witness :
    sleepsOf (calculateScores parsesNothing 0 noAnswers (fun _ => envWith rateLimited) 3 0).events
      = [Dec.ofInt 2000, Dec.ofInt 2000, Dec.ofInt 2000] ∧
    [Dec.ofInt 2000, Dec.ofInt 2000, Dec.ofInt 2000]
      ≠ [Dec.ofInt 2000, Dec.ofInt 4000, Dec.ofInt 8000] :=
  ⟨(C11_backoff_constant_within_invocation parsesNothing 0 rateLimited 3 (by decide)
      (Or.inl rfl)).1, by decide⟩

/-! ### `cleanup` and `abortCalculation` -/

theorem cleanup_eq (s : HookState) :
    cleanup s = ⟨false, none, 0, "", s.retryCount⟩ := rfl

/-- C18: from every state of the hook, `cleanup()` is four setter calls, which cannot throw,
and leaves `loading = false`, `error = null` and `progress = 0`; calling it twice, or any
number of times in a row, leaves the same state as calling it once; it issues no request. -/
theorem C18_cleanup_idempotent (s : HookState) (n : Nat) :
    (cleanup s).loading = false ∧ (cleanup s).error = none ∧ (cleanup s).progress = 0 ∧
    cleanup (cleanup s) = cleanup s ∧
    Nat.iterate cleanup (n + 1) s = cleanup s ∧
    requestCount cleanupEvents = 0 := by
  refine ⟨rfl, rfl, rfl, rfl, ?_, rfl⟩
  induction n with
  | zero => rfl
  | succ k ih =>
    rw [Function.iterate_succ_apply']
    rw [ih]
    rfl

/-- C19 as stated fails: in the state a fresh hook is in after two retries against HTTP 500,
`cleanup()` leaves `retryCount` at 2, so the state is not the initial one. -/
theorem C19_retryCount_survives_cleanup :
    (applyEvents HookState.initial
      (calculateScores parsesNothing 0 noAnswers (fun _ => envWith serverError) 2 0).events).retryCount
      = 2 ∧
    (cleanup (applyEvents HookState.initial
      (calculateScores parsesNothing 0 noAnswers (fun _ => envWith serverError) 2 0).events)).retryCount
      = 2 ∧
    cleanup (applyEvents HookState.initial
      (calculateScores parsesNothing 0 noAnswers (fun _ => envWith serverError) 2 0).events)
      ≠ HookState.initial := by
  decide

/-- C19 as amended: from every prior state, `cleanup()` resets `loading`, `error`,
`progress` and `calculationStatus` to their initial values `false`, `null`, `0` and `''`,
and leaves `retryCount` as it was. -/
theorem C19_cleanup_amended (s : HookState) :
    (cleanup s).loading = HookState.initial.loading ∧
    (cleanup s).error = HookState.initial.error ∧
    (cleanup s).progress = HookState.initial.progress ∧
    (cleanup s).calculationStatus = HookState.initial.calculationStatus ∧
    (cleanup s).retryCount = s.retryCount ∧
    cleanup s = { HookState.initial with retryCount := s.retryCount } :=
  ⟨rfl, rfl, rfl, rfl, rfl, rfl⟩

/-- C20: from every state of the hook, `abortCalculation()` sets `loading` to `false` and
`error` to the non-empty message `Calculation was cancelled`, and leaves `progress`,
`calculationStatus` and `retryCount` as they were; its effects are the two setter calls, so
it issues no request and touches none that is in flight. -/
theorem C20_abortCalculation (s : HookState) :
    (abortCalculation s).loading = false ∧
    (abortCalculation s).error = some "Calculation was cancelled" ∧
    "Calculation was cancelled" ≠ "" ∧
    (abortCalculation s).progress = s.progress ∧
    (abortCalculation s).calculationStatus = s.calculationStatus ∧
    (abortCalculation s).retryCount = s.retryCount ∧
    abortCalculationEvents = [.setLoading false, .setError (some "Calculation was cancelled")] ∧
    requestCount abortCalculationEvents = 0 :=
  ⟨rfl, rfl, by decide, rfl, rfl, rfl, rfl, rfl⟩

/-! ### The outer `catch` -/

/-- What the outer `catch` makes of an exception, while the hook is mounted. -/
theorem attempt_of_thrown (P : Platform) (retryCount : Nat) (answers : JSVal) (env : AttemptEnv)
    (evs : List Event) (message : String)
    (hentry : env.mountedAtEntry = true) (hcatch : env.mountedAtCatch = true)
    (htry : tryBody P retryCount answers env = (evs, .error message)) :
    attempt P retryCount answers env =
      if catchRetries retryCount message = true then
        (evs ++ [.incRetryCount, .setCalculationStatus "Retrying connection...",
          .sleep (backoffTime retryCount)], .again)
      else (evs ++ [.setError (some message), .setLoading false], .reject message) := by
  simp only [attempt, hentry, hcatch, htry, catchRetries, Bool.not_true, Bool.false_eq_true,
    if_false]

theorem tryBody_fatal_status (P : Platform) (retryCount : Nat) (answers : JSVal)
    (env : AttemptEnv) (profile : List (String × List (String × String))) (response : Response)
    (hset : env.storageSetItem = .ok ()) (hprofile : buildProfile answers = .ok profile)
    (hfetch : env.fetch = .ok response) (hnok : response.ok = false)
    (h429 : response.status ≠ 429) (h500 : response.status < 500) :
    tryBody P retryCount answers env
      = (requestEvents retryCount profile, .error (thrownForStatus response)) := by
  have hcond : (decide (retryCount < MAX_RETRIES) &&
      (decide (response.status = 429) || decide (response.status ≥ 500))) = false := by
    have h1 : decide (response.status = 429) = false := by simpa using h429
    have h2 : decide (response.status ≥ 500) = false := by simpa using h500
    simp [h1, h2]
  simp only [tryBody, hset, hprofile, hfetch, hnok, hcond, Bool.not_false, Bool.false_eq_true,
    if_false, if_true, thrownForStatus, errorDataOf, requestEvents, List.cons_append,
    List.nil_append]
  cases response.body <;> simp only <;> split <;> simp_all

theorem tryBody_fetch_rejects (P : Platform) (retryCount : Nat) (answers : JSVal)
    (env : AttemptEnv) (profile : List (String × List (String × String))) (message : String)
    (hset : env.storageSetItem = .ok ()) (hprofile : buildProfile answers = .ok profile)
    (hfetch : env.fetch = .error message) :
    tryBody P retryCount answers env = (requestEvents retryCount profile, .error message) := by
  simp only [tryBody, hset, hprofile, hfetch, requestEvents, List.cons_append, List.nil_append]

theorem requestCount_requestEvents (retryCount : Nat)
    (profile : List (String × List (String × String))) (tail : List Event)
    (htail : requestCount tail = 0) :
    requestCount (requestEvents retryCount profile ++ tail) = 1 := by
  simp only [requestCount, List.filter_append, List.length_append] at htail ⊢
  rw [htail]
  rfl

theorem calculateScores_of_reject (P : Platform) (retryCount : Nat) (answers : JSVal)
    (world : Nat → AttemptEnv) (fuel i : Nat) (evs : List Event) (message : String)
    (h : attempt P retryCount answers (world i) = (evs, .reject message)) :
    calculateScores P retryCount answers world (fuel + 1) i = ⟨evs, .rejected message⟩ := by
  simp only [calculateScores, h]

theorem catchRetries_false_of_exhausted (retryCount : Nat) (message : String)
    (h : MAX_RETRIES ≤ retryCount) : catchRetries retryCount message = false := by
  have : decide (retryCount < MAX_RETRIES) = false := by simpa using h
  simp [catchRetries, this]

theorem catchRetries_false_of_plain (retryCount : Nat) (message : String)
    (h1 : jsIncludes message "Rate limit" = false) (h2 : jsIncludes message "429" = false) :
    catchRetries retryCount message = false := by
  simp [catchRetries, h1, h2]

/-- C12 as stated fails: the response with status 400 and the upstream error message
`Rate limit exceeded` is retried by the closure of a fresh hook, because the message of the
error thrown for it includes `Rate limit`; after four passes four requests have been issued
and the invocation is still pending. -/
theorem C12_fatal_status_is_retried :
    badRequestRateLimit.status = 400 ∧
    thrownForStatus badRequestRateLimit = "API request failed: 400 - Rate limit exceeded" ∧
    (attempt parsesNothing 0 noAnswers (envWith badRequestRateLimit)).2 = .again ∧
    (calculateScores parsesNothing 0 noAnswers (fun _ => envWith badRequestRateLimit) 4 0).outcome
      = .pending ∧
    requestCount
      (calculateScores parsesNothing 0 noAnswers (fun _ => envWith badRequestRateLimit) 4 0).events
      = 4 := by
  decide

/-- C12 as amended: take a pass in which the hook is mounted, the request was sent and
`fetch` resolved with a non-2xx response whose status is neither 429 nor 500 or more.  The
error thrown for it reaches the outer `catch`.  When no retry is left (`retryCount >= 3`), or
when the message of that error includes neither `Rate limit` nor `429`, the response is not
retried: the invocation ends with this one request and rejects with that message.  When the
message does include `Rate limit` or `429` (from the upstream error message or the status
text) and `retryCount < 3`, the pass ends in a retry after the wait
`DEFAULT_RETRY_DELAY * 2 ^ retryCount`. -/
theorem C12_fatal_status_amended (P : Platform) (retryCount : Nat) (answers : JSVal)
    (world : Nat → AttemptEnv) (fuel i : Nat) (profile : List (String × List (String × String)))
    (response : Response)
    (hentry : (world i).mountedAtEntry = true) (hset : (world i).storageSetItem = .ok ())
    (hprofile : buildProfile answers = .ok profile)
    (hfetch : (world i).fetch = .ok response) (hnok : response.ok = false)
    (h429 : response.status ≠ 429) (h500 : response.status < 500)
    (hcatch : (world i).mountedAtCatch = true) :
    (catchRetries retryCount (thrownForStatus response) = false →
      (calculateScores P retryCount answers world (fuel + 1) i).outcome
        = .rejected (thrownForStatus response) ∧
      requestCount (calculateScores P retryCount answers world (fuel + 1) i).events = 1) ∧
    (catchRetries retryCount (thrownForStatus response) = true →
      (attempt P retryCount answers (world i)).2 = .again ∧
      Event.sleep (backoffTime retryCount) ∈ (attempt P retryCount answers (world i)).1) ∧
    (MAX_RETRIES ≤ retryCount → catchRetries retryCount (thrownForStatus response) = false) ∧
    (jsIncludes (thrownForStatus response) "Rate limit" = false →
      jsIncludes (thrownForStatus response) "429" = false →
      catchRetries retryCount (thrownForStatus response) = false) := by
  have htry := tryBody_fatal_status P retryCount answers (world i) profile response hset hprofile
    hfetch hnok h429 h500
  have hatt := attempt_of_thrown P retryCount answers (world i) _ _ hentry hcatch htry
  refine ⟨?_, ?_, catchRetries_false_of_exhausted _ _, catchRetries_false_of_plain _ _⟩
  · intro hno
    rw [hno] at hatt
    simp only [Bool.false_eq_true, if_false] at hatt
    rw [calculateScores_of_reject P retryCount answers world fuel i _ _ hatt]
    exact ⟨rfl, requestCount_requestEvents _ _ _ rfl⟩
  · intro hyes
    rw [hyes] at hatt
    simp only [if_true] at hatt
    rw [hatt]
    exact ⟨rfl, by simp⟩

/-- Witness for C12 as amended: HTTP 404 met by a fresh hook is rejected after one
request. -/
theorem C12_fatal_status_amended_witness :
    (calculateScores parsesNothing 0 noAnswers (fun _ => envWith notFound) 6 0).outcome
      = .rejected (thrownForStatus notFound) ∧
    requestCount (calculateScores parsesNothing 0 noAnswers (fun _ => envWith notFound) 6 0).events
      = 1 ∧
    thrownForStatus notFound = "API request failed: 404 - Not Found" :=
  ⟨((C12_fatal_status_amended parsesNothing 0 noAnswers (fun _ => envWith notFound) 5 0
      emptyProfile notFound rfl rfl (by decide) rfl (by decide) (by decide) (by decide) rfl).1
      (by decide)).1,
   ((C12_fatal_status_amended parsesNothing 0 noAnswers (fun _ => envWith notFound) 5 0
      emptyProfile notFound rfl rfl (by decide) rfl (by decide) (by decide) (by decide) rfl).1
      (by decide)).2,
   by decide⟩

/-- C13 as stated fails: when `fetch` rejects with `Network request failed`, the closure of a
fresh hook (attempt number 0, below 3) does not issue the request again: the invocation
rejects with that message after the one request, and the error is in the error state. -/
theorem C13_network_error_is_not_retried :
    (calculateScores parsesNothing 0 noAnswers
      (fun _ => envFetchFails "Network request failed") 4 0).outcome
      = .rejected "Network request failed" ∧
    requestCount (calculateScores parsesNothing 0 noAnswers
      (fun _ => envFetchFails "Network request failed") 4 0).events = 1 ∧
    sleepsOf (calculateScores parsesNothing 0 noAnswers
      (fun _ => envFetchFails "Network request failed") 4 0).events = [] ∧
    (applyEvents HookState.initial (calculateScores parsesNothing 0 noAnswers
      (fun _ => envFetchFails "Network request failed") 4 0).events).error
      = some "Network request failed" := by
  decide

/-- C13 as amended: take a pass in which the hook is mounted, the request was sent and
`fetch` rejected.  The rejection reaches the outer `catch`, which has no retry for transport
failures as such: the invocation ends with this one request and rejects with the message of
the rejection, at every attempt number, unless that message includes `Rate limit` or `429`
and `retryCount < 3`, in which case the pass ends in a retry after the wait
`DEFAULT_RETRY_DELAY * 2 ^ retryCount`. -/
theorem C13_network_error_amended (P : Platform) (retryCount : Nat) (answers : JSVal)
    (world : Nat → AttemptEnv) (fuel i : Nat) (profile : List (String × List (String × String)))
    (message : String)
    (hentry : (world i).mountedAtEntry = true) (hset : (world i).storageSetItem = .ok ())
    (hprofile : buildProfile answers = .ok profile)
    (hfetch : (world i).fetch = .error message)
    (hcatch : (world i).mountedAtCatch = true) :
    (catchRetries retryCount message = false →
      (calculateScores P retryCount answers world (fuel + 1) i).outcome = .rejected message ∧
      requestCount (calculateScores P retryCount answers world (fuel + 1) i).events = 1 ∧
      sleepsOf (calculateScores P retryCount answers world (fuel + 1) i).events = []) ∧
    (catchRetries retryCount message = true →
      (attempt P retryCount answers (world i)).2 = .again ∧
      Event.sleep (backoffTime retryCount) ∈ (attempt P retryCount answers (world i)).1) ∧
    (jsIncludes message "Rate limit" = false → jsIncludes message "429" = false →
      catchRetries retryCount message = false) := by
  have htry := tryBody_fetch_rejects P retryCount answers (world i) profile message hset hprofile
    hfetch
  have hatt := attempt_of_thrown P retryCount answers (world i) _ _ hentry hcatch htry
  refine ⟨?_, ?_, catchRetries_false_of_plain _ _⟩
  · intro hno
    rw [hno] at hatt
    simp only [Bool.false_eq_true, if_false] at hatt
    rw [calculateScores_of_reject P retryCount answers world fuel i _ _ hatt]
    exact ⟨rfl, requestCount_requestEvents _ _ _ rfl, rfl⟩
  · intro hyes
    rw [hyes] at hatt
    simp only [if_true] at hatt
    rw [hatt]
    exact ⟨rfl, by simp⟩

/-- Witness for C13 as amended: a rejected `fetch` met by a closure with `retryCount = 2` is
rejected after one request. -/
theorem C13_network_error_amended_witness :
    (calculateScores parsesNothing 2 noAnswers
      (fun _ => envFetchFails "Network request failed") 3 0).outcome
      = .rejected "Network request failed" :=
  ((C13_network_error_amended parsesNothing 2 noAnswers
      (fun _ => envFetchFails "Network request failed") 2 0 emptyProfile
      "Network request failed" rfl rfl (by decide) rfl rfl).1 (by decide)).1

/-! ### The messages of the errors -/

theorem elemStrings_error_of (items : List JSVal)
    (hitems : ∀ x ∈ items, ∀ e, x.toStr = .error e → e = errToPrimitive) :
    ∀ e, elemStrings items = .error e → e = errToPrimitive := by
  induction items with
  | nil => intro e h; simp [elemStrings] at h
  | cons x rest ih =>
    intro e h
    have hrest := ih (fun y hy => hitems y (List.mem_cons_of_mem x hy))
    have hx := hitems x (List.mem_cons_self x rest)
    have key : ∀ (r : Except String String),
        (∀ e', r = .error e' → e' = errToPrimitive) →
        (match r with
          | .error e => Except.error e
          | .ok a =>
            match elemStrings rest with
            | .ok parts => Except.ok (a :: parts)
            | .error e => .error e) = .error e → e = errToPrimitive := by
      intro r hr hm
      cases r with
      | error e' =>
        simp only [Except.error.injEq] at hm
        subst hm
        exact hr e' rfl
      | ok a =>
        simp only at hm
        cases hrs : elemStrings rest with
        | ok parts => rw [hrs] at hm; simp at hm
        | error e' =>
          rw [hrs] at hm
          simp only [Except.error.injEq] at hm
          subst hm
          exact hrest e' hrs
    cases x with
    | undefined => exact key (.ok "") (fun e' h' => by simp at h') h
    | null => exact key (.ok "") (fun e' h' => by simp at h') h
    | bool b => exact key _ hx h
    | num n => exact key _ hx h
    | str s => exact key _ hx h
    | arr ys => exact key _ hx h
    | obj fs => exact key _ hx h

theorem toStr_error_eq_aux (n : Nat) :
    ∀ v : JSVal, sizeOf v ≤ n → ∀ e, v.toStr = .error e → e = errToPrimitive := by
  induction n with
  | zero =>
    intro v hv
    cases v <;> simp at hv
  | succ k ih =>
    intro v hv e h
    cases v with
    | undefined => simp [JSVal.toStr] at h
    | null => simp [JSVal.toStr] at h
    | bool b => simp [JSVal.toStr] at h
    | num m => simp [JSVal.toStr] at h
    | str s => simp [JSVal.toStr] at h
    | arr items =>
      simp only [JSVal.toStr] at h
      cases hitems : elemStrings items with
      | ok parts => rw [hitems] at h; simp at h
      | error e' =>
        rw [hitems] at h
        simp only [Except.error.injEq] at h
        subst h
        refine elemStrings_error_of items ?_ e' hitems
        intro x hx
        apply ih
        have h1 := List.sizeOf_lt_of_mem hx
        simp only [JSVal.arr.sizeOf_spec] at hv
        omega
    | obj fields =>
      simp only [JSVal.toStr] at h
      split at h
      · simp only [Except.error.injEq] at h; exact h.symm
      · simp at h

/-- The only exception `ToString` raises is the `TypeError` of the conversion of an
object. -/
theorem toStr_error_eq (v : JSVal) (e : String) (h : v.toStr = .error e) :
    e = errToPrimitive :=
  toStr_error_eq_aux (sizeOf v) v (Nat.le_refl _) e h

theorem toNumber_error_eq (v : JSVal) (e : String) (h : v.toNumber = .error e) :
    e = errToPrimitive := by
  cases v with
  | undefined => simp [JSVal.toNumber] at h
  | null => simp [JSVal.toNumber] at h
  | bool b => simp [JSVal.toNumber] at h
  | num m => simp [JSVal.toNumber] at h
  | str s => simp [JSVal.toNumber] at h
  | arr items =>
    simp only [JSVal.toNumber] at h
    cases hs : (JSVal.arr items).toStr with
    | ok s => rw [hs] at h; simp at h
    | error e' =>
      rw [hs] at h
      simp only [Except.error.injEq] at h
      subst h
      exact toStr_error_eq _ _ hs
  | obj fields =>
    simp only [JSVal.toNumber] at h
    cases hs : (JSVal.obj fields).toStr with
    | ok s => rw [hs] at h; simp at h
    | error e' =>
      rw [hs] at h
      simp only [Except.error.injEq] at h
      subst h
      exact toStr_error_eq _ _ hs

theorem append_ne_empty (a b : String) (h : a ≠ "") : a ++ b ≠ "" := by
  intro hab
  apply h
  have := congrArg String.data hab
  simp only [String.data_append] at this
  have ha : a.data = [] := (List.append_eq_nil.mp this).1
  exact String.ext ha

theorem errToPrimitive_ne_empty : errToPrimitive ≠ "" := by decide

theorem errNullish_ne_empty (key : String) : errNullish key ≠ "" := by
  unfold errNullish
  exact append_ne_empty _ _ (append_ne_empty _ _ (by decide))

theorem get_error_ne_empty (v : JSVal) (key e : String) (h : v.get key = .error e) : e ≠ "" := by
  cases v <;> simp only [JSVal.get, Except.error.injEq] at h <;>
    first
    | (subst h; exact errNullish_ne_empty key)
    | exact absurd h (by simp)

theorem readFloat_error_eq (v : JSVal) (e : String) (h : readFloat v = .error e) :
    e = errToPrimitive := by
  cases v with
  | str s => simp [readFloat] at h
  | undefined => exact toNumber_error_eq .undefined _ h
  | null => exact toNumber_error_eq .null _ h
  | bool b => exact toNumber_error_eq (.bool b) _ h
  | num n => exact toNumber_error_eq (.num n) _ h
  | arr xs => exact toNumber_error_eq (.arr xs) _ h
  | obj fs => exact toNumber_error_eq (.obj fs) _ h

theorem readInt_error_eq (v : JSVal) (e : String) (h : readInt v = .error e) :
    e = errToPrimitive := by
  cases v with
  | str s => simp [readInt] at h
  | undefined => exact toNumber_error_eq .undefined _ h
  | null => exact toNumber_error_eq .null _ h
  | bool b => exact toNumber_error_eq (.bool b) _ h
  | num n => exact toNumber_error_eq (.num n) _ h
  | arr xs => exact toNumber_error_eq (.arr xs) _ h
  | obj fs => exact toNumber_error_eq (.obj fs) _ h

theorem ensureValidScore_error_ne_empty (v : JSVal) (e : String)
    (h : ensureValidScore v = .error e) : e ≠ "" := by
  have hgen : ∀ w : JSVal, (match readFloat w with
      | .error e => Except.error e
      | .ok num => (Except.ok (scoreOf num) : Except String JSNum)) = .error e → e ≠ "" := by
    intro w hw
    cases hread : readFloat w with
    | ok n => rw [hread] at hw; simp at hw
    | error e' =>
      rw [hread] at hw
      simp only [Except.error.injEq] at hw
      subst hw
      rw [readFloat_error_eq _ _ hread]
      exact errToPrimitive_ne_empty
  cases v with
  | undefined => simp [ensureValidScore] at h
  | null => simp [ensureValidScore] at h
  | bool b => exact hgen (.bool b) h
  | num n => exact hgen (.num n) h
  | str s => exact hgen (.str s) h
  | arr xs => exact hgen (.arr xs) h
  | obj fs => exact hgen (.obj fs) h

theorem ensureValidRanking_error_ne_empty (v : JSVal) (e : String)
    (h : ensureValidRanking v = .error e) : e ≠ "" := by
  have hgen : ∀ w : JSVal, (match readInt w with
      | .error e => Except.error e
      | .ok num => (Except.ok (rankingOf num) : Except String JSNum)) = .error e → e ≠ "" := by
    intro w hw
    cases hread : readInt w with
    | ok n => rw [hread] at hw; simp at hw
    | error e' =>
      rw [hread] at hw
      simp only [Except.error.injEq] at hw
      subst hw
      rw [readInt_error_eq _ _ hread]
      exact errToPrimitive_ne_empty
  cases v with
  | undefined => simp [ensureValidRanking] at h
  | null => simp [ensureValidRanking] at h
  | bool b => exact hgen (.bool b) h
  | num n => exact hgen (.num n) h
  | str s => exact hgen (.str s) h
  | arr xs => exact hgen (.arr xs) h
  | obj fs => exact hgen (.obj fs) h

theorem ensureValidPercentile_error_ne_empty (v : JSVal) (e : String)
    (h : ensureValidPercentile v = .error e) : e ≠ "" := by
  have hgen : ∀ w : JSVal, (match readFloat w with
      | .error e => Except.error e
      | .ok num => (Except.ok (percentileOf num) : Except String JSNum)) = .error e → e ≠ "" := by
    intro w hw
    cases hread : readFloat w with
    | ok n => rw [hread] at hw; simp at hw
    | error e' =>
      rw [hread] at hw
      simp only [Except.error.injEq] at hw
      subst hw
      rw [readFloat_error_eq _ _ hread]
      exact errToPrimitive_ne_empty
  cases v with
  | undefined => simp [ensureValidPercentile] at h
  | null => simp [ensureValidPercentile] at h
  | bool b => exact hgen (.bool b) h
  | num n => exact hgen (.num n) h
  | str s => exact hgen (.str s) h
  | arr xs => exact hgen (.arr xs) h
  | obj fs => exact hgen (.obj fs) h

theorem except_bind_error_iff {ε α β : Type} (x : Except ε α) (f : α → Except ε β) (e : ε) :
    (x >>= f) = .error e ↔ x = .error e ∨ ∃ a, x = .ok a ∧ f a = .error e := by
  cases x with
  | error e' => simp [bind, Except.bind]
  | ok a => simp [bind, Except.bind]

/-- Every exception the normalisation raises has a non-empty message. -/
theorem normalize_error_ne_empty (v : JSVal) (e : String) (h : normalize v = .error e) :
    e ≠ "" := by
  simp only [normalize, except_bind_error_iff, pure, Except.pure] at h
  rcases h with h | ⟨_, -, h⟩
  · exact get_error_ne_empty _ _ _ h
  rcases h with h | ⟨_, -, h⟩
  · exact get_error_ne_empty _ _ _ h
  rcases h with h | ⟨_, -, h⟩
  · exact get_error_ne_empty _ _ _ h
  rcases h with h | ⟨_, -, h⟩
  · exact get_error_ne_empty _ _ _ h
  rcases h with h | ⟨_, -, h⟩
  · exact ensureValidScore_error_ne_empty _ _ h
  rcases h with h | ⟨_, -, h⟩
  · exact get_error_ne_empty _ _ _ h
  rcases h with h | ⟨_, -, h⟩
  · exact ensureValidScore_error_ne_empty _ _ h
  rcases h with h | ⟨_, -, h⟩
  · exact get_error_ne_empty _ _ _ h
  rcases h with h | ⟨_, -, h⟩
  · exact ensureValidScore_error_ne_empty _ _ h
  rcases h with h | ⟨_, -, h⟩
  · exact get_error_ne_empty _ _ _ h
  rcases h with h | ⟨_, -, h⟩
  · exact ensureValidScore_error_ne_empty _ _ h
  rcases h with h | ⟨_, -, h⟩
  · exact get_error_ne_empty _ _ _ h
  rcases h with h | ⟨_, -, h⟩
  · exact ensureValidScore_error_ne_empty _ _ h
  rcases h with h | ⟨_, -, h⟩
  · exact get_error_ne_empty _ _ _ h
  rcases h with h | ⟨_, -, h⟩
  · exact ensureValidScore_error_ne_empty _ _ h
  rcases h with h | ⟨_, -, h⟩
  · exact get_error_ne_empty _ _ _ h
  rcases h with h | ⟨_, -, h⟩
  · exact ensureValidScore_error_ne_empty _ _ h
  rcases h with h | ⟨_, -, h⟩
  · exact get_error_ne_empty _ _ _ h
  rcases h with h | ⟨_, -, h⟩
  · exact ensureValidRanking_error_ne_empty _ _ h
  rcases h with h | ⟨_, -, h⟩
  · exact ensureValidPercentile_error_ne_empty _ _ h
  rcases h with h | ⟨_, -, h⟩
  · exact get_error_ne_empty _ _ _ h
  rcases h with h | ⟨_, -, h⟩
  · exact get_error_ne_empty _ _ _ h
  · simp at h

theorem profileLeaf_error_ne_empty (answers : JSVal) (key e : String)
    (h : profileLeaf answers key = .error e) : e ≠ "" := by
  unfold profileLeaf at h
  cases hg : answers.get key with
  | error e' =>
    rw [hg] at h
    simp only [Except.error.injEq] at h
    subst h
    exact get_error_ne_empty _ _ _ hg
  | ok v =>
    rw [hg] at h
    simp only at h
    split at h
    · rw [toStr_error_eq _ _ h]; exact errToPrimitive_ne_empty
    · simp at h

theorem profileFields_error_ne_empty (answers : JSVal) (fields : List (String × String))
    (e : String) (h : profileFields answers fields = .error e) : e ≠ "" := by
  induction fields with
  | nil => simp [profileFields] at h
  | cons f rest ih =>
    obtain ⟨field, key⟩ := f
    simp only [profileFields] at h
    cases hl : profileLeaf answers key with
    | error e' =>
      rw [hl] at h
      simp only [Except.error.injEq] at h
      subst h
      exact profileLeaf_error_ne_empty _ _ _ hl
    | ok leaf =>
      rw [hl] at h
      simp only at h
      cases hr : profileFields answers rest with
      | error e' =>
        rw [hr] at h
        simp only [Except.error.injEq] at h
        subst h
        exact ih hr
      | ok leaves => rw [hr] at h; simp at h

theorem profileCategories_error_ne_empty (answers : JSVal)
    (layout : List (String × List (String × String))) (e : String)
    (h : profileCategories answers layout = .error e) : e ≠ "" := by
  induction layout with
  | nil => simp [profileCategories] at h
  | cons c rest ih =>
    obtain ⟨category, fields⟩ := c
    simp only [profileCategories] at h
    cases hl : profileFields answers fields with
    | error e' =>
      rw [hl] at h
      simp only [Except.error.injEq] at h
      subst h
      exact profileFields_error_ne_empty _ _ _ hl
    | ok leaves =>
      rw [hl] at h
      simp only at h
      cases hr : profileCategories answers rest with
      | error e' =>
        rw [hr] at h
        simp only [Except.error.injEq] at h
        subst h
        exact ih hr
      | ok cats => rw [hr] at h; simp at h

theorem buildProfile_error_ne_empty (answers : JSVal) (e : String)
    (h : buildProfile answers = .error e) : e ≠ "" :=
  profileCategories_error_ne_empty answers profileLayout e h

theorem apiErrorMessage_ne_empty (response : Response) (errorData : JSVal) :
    (∀ m, apiErrorMessage response errorData = .ok m → m ≠ "") ∧
    (∀ e, apiErrorMessage response errorData = .error e → e ≠ "") := by
  unfold apiErrorMessage
  cases hg : errorData.get "error" with
  | error e' =>
    refine ⟨fun m h => by simp at h, fun e h => ?_⟩
    simp only [Except.error.injEq] at h
    subst h
    exact get_error_ne_empty _ _ _ hg
  | ok err =>
    simp only
    split
    · rename_i e' hs
      refine ⟨fun m h => by simp at h, fun e h => ?_⟩
      simp only [Except.error.injEq] at h
      subst h
      rw [toStr_error_eq _ _ hs]
      exact errToPrimitive_ne_empty
    · rename_i text hs
      refine ⟨fun m h => ?_, fun e h => by simp at h⟩
      simp only [Except.ok.injEq] at h
      subst h
      exact append_ne_empty _ _ (append_ne_empty _ _ (append_ne_empty _ _ (by decide)))

theorem thrownForStatus_ne_empty (response : Response) : thrownForStatus response ≠ "" := by
  unfold thrownForStatus
  have h := apiErrorMessage_ne_empty response (errorDataOf response)
  cases hm : apiErrorMessage response (errorDataOf response) with
  | ok m => exact h.1 m hm
  | error e => exact h.2 e hm

/-- What the body of the outer `try` can end in: never a rejection of its own, and an
exception whose message is either not empty or the message of a rejection of
`AsyncStorage.setItem`, `fetch`, `response.json()` or `AsyncStorage.removeItem`. -/
theorem tryBody_outcomes (P : Platform) (retryCount : Nat) (answers : JSVal) (env : AttemptEnv) :
    (∀ step, (tryBody P retryCount answers env).2 = .ok step → ∀ m, step ≠ .reject m) ∧
    (∀ m, (tryBody P retryCount answers env).2 = .error m →
      m ≠ "" ∨ env.storageSetItem = .error m ∨ env.fetch = .error m ∨
      (∃ r, env.fetch = .ok r ∧ r.body = .error m) ∨ env.storageRemoveItem = .error m) := by
  cases h1 : env.storageSetItem with
  | error e =>
    simp only [tryBody, h1]
    refine ⟨fun step h => by simp at h, fun m h => ?_⟩
    simp only [Except.error.injEq] at h
    subst h
    exact Or.inr (Or.inl rfl)
  | ok u =>
    cases h2 : buildProfile answers with
    | error e =>
      simp only [tryBody, h1, h2]
      refine ⟨fun step h => by simp at h, fun m h => ?_⟩
      simp only [Except.error.injEq] at h
      subst h
      exact Or.inl (buildProfile_error_ne_empty _ _ h2)
    | ok profile =>
      cases h3 : env.fetch with
      | error e =>
        simp only [tryBody, h1, h2, h3]
        refine ⟨fun step h => by simp at h, fun m h => ?_⟩
        simp only [Except.error.injEq] at h
        subst h
        exact Or.inr (Or.inr (Or.inl rfl))
      | ok response =>
        cases h4 : response.ok with
        | false =>
          cases h5 : (decide (retryCount < MAX_RETRIES) &&
              (decide (response.status = 429) || decide (response.status ≥ 500))) with
          | true =>
            simp only [tryBody, h1, h2, h3, h4, h5, Bool.not_false, if_true]
            exact ⟨fun step h m => by simp only [Except.ok.injEq] at h; subst h; simp,
              fun m h => by simp at h⟩
          | false =>
            have hne := apiErrorMessage_ne_empty response
            simp only [tryBody, h1, h2, h3, h4, h5, Bool.not_false, if_true, Bool.false_eq_true,
              if_false]
            split
            · rename_i e hm
              refine ⟨fun step h => by simp at h, fun m h => ?_⟩
              simp only [Except.error.injEq] at h
              subst h
              exact Or.inl ((hne _).2 _ hm)
            · rename_i message hm
              refine ⟨fun step h => by simp at h, fun m h => ?_⟩
              simp only [Except.error.injEq] at h
              subst h
              exact Or.inl ((hne _).1 _ hm)
        | true =>
          cases h5 : response.body with
          | error e =>
            simp only [tryBody, h1, h2, h3, h4, h5, Bool.not_true, Bool.false_eq_true, if_false]
            refine ⟨fun step h => by simp at h, fun m h => ?_⟩
            simp only [Except.error.injEq] at h
            subst h
            exact Or.inr (Or.inr (Or.inr (Or.inl ⟨response, rfl, h5⟩)))
          | ok data =>
            cases h6 : env.mountedAfterBody with
            | false =>
              simp only [tryBody, h1, h2, h3, h4, h5, h6, Bool.not_true, Bool.not_false,
                Bool.false_eq_true, if_false, if_true]
              exact ⟨fun step h m => by simp only [Except.ok.injEq] at h; subst h; simp,
                fun m h => by simp at h⟩
            | true =>
              cases h7 : parseResponse P data with
              | error e =>
                by_cases h8 : retryCount < MAX_RETRIES
                · simp only [tryBody, h1, h2, h3, h4, h5, h6, h7, h8, Bool.not_true,
                    Bool.false_eq_true, if_false, if_true]
                  exact ⟨fun step h m => by simp only [Except.ok.injEq] at h; subst h; simp,
                    fun m h => by simp at h⟩
                · simp only [tryBody, h1, h2, h3, h4, h5, h6, h7, h8, Bool.not_true,
                    Bool.false_eq_true, if_false]
                  refine ⟨fun step h => by simp at h, fun m h => ?_⟩
                  simp only [Except.error.injEq] at h
                  subst h
                  exact Or.inl (append_ne_empty _ _ (by decide))
              | ok responseData =>
                cases h8 : normalize responseData with
                | error e =>
                  simp only [tryBody, h1, h2, h3, h4, h5, h6, h7, h8, Bool.not_true,
                    Bool.false_eq_true, if_false]
                  refine ⟨fun step h => by simp at h, fun m h => ?_⟩
                  simp only [Except.error.injEq] at h
                  subst h
                  exact Or.inl (normalize_error_ne_empty _ _ h8)
                | ok result =>
                  cases h9 : env.storageRemoveItem with
                  | error e =>
                    simp only [tryBody, h1, h2, h3, h4, h5, h6, h7, h8, h9, Bool.not_true,
                      Bool.false_eq_true, if_false]
                    refine ⟨fun step h => by simp at h, fun m h => ?_⟩
                    simp only [Except.error.injEq] at h
                    subst h
                    exact Or.inr (Or.inr (Or.inr (Or.inr rfl)))
                  | ok u2 =>
                    simp only [tryBody, h1, h2, h3, h4, h5, h6, h7, h8, h9, Bool.not_true,
                      Bool.false_eq_true, if_false]
                    exact ⟨fun step h m => by simp only [Except.ok.injEq] at h; subst h; simp,
                      fun m h => by simp at h⟩

theorem containsSub_append (pat a b : List Char) : containsSub pat (a ++ (pat ++ b)) = true := by
  induction a with
  | nil =>
    cases hp : pat ++ b with
    | nil =>
      have : pat = [] := (List.append_eq_nil.mp hp).1
      simp [containsSub, this]
    | cons c cs =>
      simp only [List.nil_append, containsSub, Bool.or_eq_true]
      left
      rw [← hp]
      exact List.isPrefixOf_iff_prefix.mpr (List.prefix_append pat b)
  | cons x rest ih =>
    simp only [List.cons_append, containsSub, Bool.or_eq_true]
    right
    exact ih

theorem jsIncludes_middle (a p b : String) : jsIncludes (a ++ p ++ b) p = true := by
  simp only [jsIncludes, String.data_append, List.append_assoc]
  exact containsSub_append _ _ _

theorem jsIncludes_end (a p : String) : jsIncludes (a ++ p) p = true := by
  have := containsSub_append p.data a.data []
  simp only [jsIncludes, String.data_append]
  simpa using this

theorem get_of_not_nullish (x : JSVal) (key : String) (h : x.isNullish = false) :
    x.get key = .ok (x.getOpt key) := by
  cases x <;> first | rfl | simp [JSVal.isNullish] at h

/-- The message of line 114 when the upstream error message is a non-empty string. -/
theorem thrownForStatus_of_message (response : Response) (s : String)
    (hbody : (errorDataOf response).isNullish = false)
    (hmsg : upstreamMessage (errorDataOf response) = .str s) (hs : s ≠ "") :
    thrownForStatus response
      = "API request failed: " ++ toString response.status ++ " - " ++ s := by
  have ht : (JSVal.str s).truthy = true := by
    simp only [JSVal.truthy, Bool.not_eq_true', List.isEmpty_eq_false]
    intro hd
    exact hs (String.ext hd)
  unfold upstreamMessage at hmsg
  simp only [thrownForStatus, apiErrorMessage, get_of_not_nullish _ _ hbody, hmsg, ht, if_true,
    JSVal.toStr]

/-- The message of line 114 when the body has no truthy error message. -/
theorem thrownForStatus_of_statusText (response : Response)
    (hbody : (errorDataOf response).isNullish = false)
    (hmsg : (upstreamMessage (errorDataOf response)).truthy = false) :
    thrownForStatus response
      = "API request failed: " ++ toString response.status ++ " - " ++ response.statusText := by
  unfold upstreamMessage at hmsg
  simp only [thrownForStatus, apiErrorMessage, get_of_not_nullish _ _ hbody, hmsg,
    Bool.false_eq_true, if_false, JSVal.toStr]

theorem tryBody_status_thrown (P : Platform) (retryCount : Nat) (answers : JSVal)
    (env : AttemptEnv) (profile : List (String × List (String × String))) (response : Response)
    (hset : env.storageSetItem = .ok ()) (hprofile : buildProfile answers = .ok profile)
    (hfetch : env.fetch = .ok response) (hnok : response.ok = false) :
    (tryBody P retryCount answers env).2 = .ok .again ∨
    (tryBody P retryCount answers env).2 = .error (thrownForStatus response) := by
  cases hcond : (decide (retryCount < MAX_RETRIES) &&
      (decide (response.status = 429) || decide (response.status ≥ 500))) with
  | true =>
    left
    simp only [tryBody, hset, hprofile, hfetch, hnok, hcond, Bool.not_false, if_true]
  | false =>
    right
    simp only [tryBody, hset, hprofile, hfetch, hnok, hcond, Bool.not_false, Bool.false_eq_true,
      if_false, if_true, thrownForStatus, errorDataOf]
    cases response.body <;> simp only <;> split <;> simp_all

/-- A rejection is the message of the exception that reached the outer `catch`, after the
two setter calls that put it in the error state. -/
theorem attempt_reject_inv (P : Platform) (retryCount : Nat) (answers : JSVal)
    (env : AttemptEnv) (message : String)
    (h : (attempt P retryCount answers env).2 = .reject message) :
    (tryBody P retryCount answers env).2 = .error message ∧
    (attempt P retryCount answers env).1 =
      (tryBody P retryCount answers env).1 ++ [.setError (some message), .setLoading false] := by
  have hout := tryBody_outcomes P retryCount answers env
  unfold attempt at h ⊢
  cases hentry : env.mountedAtEntry with
  | false => simp [hentry] at h
  | true =>
    simp only [hentry, Bool.not_true, Bool.false_eq_true, if_false] at h ⊢
    cases htb : tryBody P retryCount answers env with
    | mk evs r =>
      rw [htb] at h hout
      cases r with
      | ok step =>
        simp only at h
        exact absurd h (hout.1 step rfl message)
      | error m =>
        simp only at h ⊢
        cases hcatch : env.mountedAtCatch with
        | false => simp [hcatch] at h
        | true =>
          simp only [hcatch, Bool.not_true, Bool.false_eq_true, if_false] at h ⊢
          split at h
          · simp at h
          · rename_i hno
            simp only [Step.reject.injEq] at h
            subst h
            simp only [hno, if_false]
            exact ⟨trivial, rfl⟩

/-- C14 as stated fails.  When `fetch` rejects with an error whose message is empty, the
invocation rejects with the empty message and the error state holds the empty string.  And
the response with status 400 whose body is the JSON text `null` is not retried and rejects
with the message of the `TypeError` raised by `errorData.error`, which does not contain the
status code. -/
theorem C14_message_empty_or_without_status :
    (calculateScores parsesNothing 0 noAnswers (fun _ => envFetchFails "") 1 0).outcome
      = .rejected "" ∧
    (applyEvents HookState.initial
      (calculateScores parsesNothing 0 noAnswers (fun _ => envFetchFails "") 1 0).events).error
      = some "" ∧
    (calculateScores parsesNothing 0 noAnswers (fun _ => envWith badRequestNullBody) 1 0).outcome
      = .rejected "Cannot read properties of null or undefined (reading 'error')" ∧
    jsIncludes "Cannot read properties of null or undefined (reading 'error')" "400" = false := by
  decide

/-- C14 as amended: every rejection of a pass carries the message of the exception that
reached the outer `catch`, and the same message is put in the error state just before.  That
message is not empty when the exception was raised by the code of `calculateScores` itself
(`API request failed: ...`, `Invalid response format: ...`, a `TypeError`); an exception that
comes from `AsyncStorage`, `fetch` or `response.json()` is passed on with the message it
has.  For a non-retried non-2xx response the message is the one line 114 ends in; when the
body is not `null` it is `API request failed: ` followed by the status code, ` - ` and the
upstream error message (a non-empty string), or the status text when the body has no truthy
error message, and so contains both. -/
theorem C14_terminal_message_amended (P : Platform) (retryCount : Nat) (answers : JSVal)
    (env : AttemptEnv) (message : String)
    (h : (attempt P retryCount answers env).2 = .reject message) :
    (∃ evs, (attempt P retryCount answers env).1
      = evs ++ [.setError (some message), .setLoading false]) ∧
    (message ≠ "" ∨ env.storageSetItem = .error message ∨ env.fetch = .error message ∨
      (∃ r, env.fetch = .ok r ∧ r.body = .error message) ∨
      env.storageRemoveItem = .error message) ∧
    (∀ response profile, env.storageSetItem = .ok () → buildProfile answers = .ok profile →
      env.fetch = .ok response → response.ok = false →
      message = thrownForStatus response ∧ message ≠ "" ∧
      ((errorDataOf response).isNullish = false →
        (∀ s, upstreamMessage (errorDataOf response) = .str s → s ≠ "" →
          message = "API request failed: " ++ toString response.status ++ " - " ++ s ∧
          jsIncludes message (toString response.status) = true ∧
          jsIncludes message s = true) ∧
        ((upstreamMessage (errorDataOf response)).truthy = false →
          message
            = "API request failed: " ++ toString response.status ++ " - " ++ response.statusText ∧
          jsIncludes message (toString response.status) = true ∧
          jsIncludes message response.statusText = true))) := by
  obtain ⟨htb, hev⟩ := attempt_reject_inv P retryCount answers env message h
  refine ⟨⟨_, hev⟩, (tryBody_outcomes P retryCount answers env).2 message htb, ?_⟩
  intro response profile hset hprofile hfetch hnok
  have hmsg : message = thrownForStatus response := by
    rcases tryBody_status_thrown P retryCount answers env profile response hset hprofile hfetch
      hnok with h1 | h1
    · rw [h1] at htb; simp at htb
    · rw [h1] at htb
      simp only [Except.error.injEq] at htb
      exact htb.symm
  refine ⟨hmsg, hmsg ▸ thrownForStatus_ne_empty response, ?_⟩
  intro hbody
  constructor
  · intro s hs hne
    have heq := thrownForStatus_of_message response s hbody hs hne
    rw [hmsg, heq]
    refine ⟨rfl, ?_, jsIncludes_end _ _⟩
    rw [String.append_assoc]
    exact jsIncludes_middle _ _ _
  · intro hs
    have heq := thrownForStatus_of_statusText response hbody hs
    rw [hmsg, heq]
    refine ⟨rfl, ?_, jsIncludes_end _ _⟩
    rw [String.append_assoc]
    exact jsIncludes_middle _ _ _

/-- Witness for C14 as amended: HTTP 404 with an empty error object, met by a fresh hook,
rejects with `API request failed: 404 - Not Found`, which is put in the error state. -/
theorem C14_terminal_message_amended_witness :
    (attempt parsesNothing 0 noAnswers (envWith notFound)).2
      = .reject "API request failed: 404 - Not Found" ∧
    (∃ evs, (attempt parsesNothing 0 noAnswers (envWith notFound)).1
      = evs ++ [.setError (some "API request failed: 404 - Not Found"), .setLoading false]) ∧
    "API request failed: 404 - Not Found" = thrownForStatus notFound :=
  ⟨by decide,
   (C14_terminal_message_amended parsesNothing 0 noAnswers (envWith notFound)
      "API request failed: 404 - Not Found" (by decide)).1,
   ((C14_terminal_message_amended parsesNothing 0 noAnswers (envWith notFound)
      "API request failed: 404 - Not Found" (by decide)).2.2 notFound emptyProfile rfl
      (by decide) rfl (by decide)).1⟩

/-! ### Fence stripping -/

/-- Content without the marker goes to `JSON.parse` as it is. -/
theorem cleanContent_without_marker (s : String) (h : jsIncludes s fenceMarker = false) :
    cleanContent (.str s) = .ok (.str s) := by
  simp [cleanContent, h]

theorem isPrefixOf_false_of_longer (p q l : List Char) (h : p.isPrefixOf l = false) :
    (p ++ q).isPrefixOf l = false := by
  rw [Bool.eq_false_iff] at h ⊢
  intro hpq
  apply h
  rw [List.isPrefixOf_iff_prefix] at hpq ⊢
  exact (List.prefix_append p q).trans hpq

theorem stripFencesAux_keep (c : Char) (rest : List Char)
    (h3 : "```".data.isPrefixOf (c :: rest) = false)
    (h4 : "\n```".data.isPrefixOf (c :: rest) = false) :
    stripFencesAux 0 (c :: rest) = c :: stripFencesAux 0 rest := by
  have h1 : "```json\n".data.isPrefixOf (c :: rest) = false :=
    isPrefixOf_false_of_longer "```".data "json\n".data _ h3
  have h2 : "```json".data.isPrefixOf (c :: rest) = false :=
    isPrefixOf_false_of_longer "```".data "json".data _ h3
  rw [stripFencesAux, h1, h2, h3, h4]
  rfl

theorem stripFencesAux_open (rest : List Char) :
    stripFencesAux 0 ('`' :: '`' :: '`' :: 'j' :: 's' :: 'o' :: 'n' :: '\n' :: rest)
      = stripFencesAux 0 rest := by
  have h : "```json\n".data.isPrefixOf
      ('`' :: '`' :: '`' :: 'j' :: 's' :: 'o' :: 'n' :: '\n' :: rest) = true := by
    rw [List.isPrefixOf_iff_prefix]
    exact List.prefix_append _ rest
  rw [stripFencesAux, h]
  rfl

theorem stripFencesAux_body (body : List Char) (h : containsSub "```".data body = false) :
    stripFencesAux 0 (body ++ ['\n', '`', '`', '`']) = body := by
  induction body with
  | nil => decide
  | cons c cs ih =>
    have hsplit : "```".data.isPrefixOf (c :: cs) = false ∧ containsSub "```".data cs = false := by
      have h' := h
      rw [containsSub, Bool.or_eq_false_iff] at h'
      exact h'
    obtain ⟨hhead, htail⟩ := hsplit
    have h3 : "```".data.isPrefixOf (c :: (cs ++ ['\n', '`', '`', '`'])) = false := by
      rw [Bool.eq_false_iff] at hhead ⊢
      intro hp
      apply hhead
      rcases cs with _ | ⟨d, _ | ⟨e, r⟩⟩
      · simp [List.isPrefixOf] at hp
      · simp [List.isPrefixOf] at hp
      · simp only [List.isPrefixOf, List.cons_append, Bool.and_eq_true, beq_iff_eq,
          Bool.and_true] at hp ⊢
        tauto
    have h4 : "\n```".data.isPrefixOf (c :: (cs ++ ['\n', '`', '`', '`'])) = false := by
      rw [Bool.eq_false_iff]
      intro hp
      rcases cs with _ | ⟨d, _ | ⟨e, _ | ⟨f, r⟩⟩⟩
      · simp [List.isPrefixOf] at hp
      · simp [List.isPrefixOf] at hp
      · simp [List.isPrefixOf] at hp
      · have ht : "```".data.isPrefixOf (d :: e :: f :: r) = true := by
          simp only [List.isPrefixOf, List.cons_append, Bool.and_eq_true, beq_iff_eq,
            Bool.and_true] at hp ⊢
          tauto
        have : containsSub "```".data (d :: e :: f :: r) = true := by
          rw [containsSub, ht]
          rfl
        rw [this] at htail
        exact absurd htail (by simp)
    rw [List.cons_append, stripFencesAux_keep c _ h3 h4, ih htail]

/-- Where fence stripping does preserve the payload: a text without three backticks in a
row comes out of its fence as its own trimmed form. -/
theorem stripFences_fenced (j : String) (h : jsIncludes j "```" = false) :
    stripFences (fenced j) = jsTrim j := by
  unfold jsIncludes at h
  have hdata : (fenced j).data
      = '`' :: '`' :: '`' :: 'j' :: 's' :: 'o' :: 'n' :: '\n' :: (j.data ++ ['\n', '`', '`', '`']) := by
    simp only [fenced, String.data_append]
    rfl
  unfold stripFences
  rw [hdata, stripFencesAux_open, stripFencesAux_body j.data h]

/-- C15, evaluated on the code: the JSON text `statusWithBackticks` holds three backticks in
its `status` string.  Wrapped in a fence it includes the marker, so the replacement of line
140 runs; being global, it also removes the backticks inside the string, and `JSON.parse`
is handed a text whose `status` is `Use  to quote`.  The bare text has no marker and is
handed to `JSON.parse` as it is, with `status` `Use ``` to quote`. -/
theorem C15_inner_backticks_are_stripped :
    jsIncludes (fenced statusWithBackticks) fenceMarker = true ∧
    jsIncludes statusWithBackticks fenceMarker = false ∧
    cleanedText (.str (fenced statusWithBackticks))
      = some "\x7b\"status\":\"Use  to quote\"\x7d" ∧
    cleanedText (.str statusWithBackticks) = some "\x7b\"status\":\"Use ``` to quote\"\x7d" ∧
    stripFences (fenced statusWithBackticks) ≠ statusWithBackticks := by
  decide

theorem simpleAnswer_lookupField (fields : List (String × JSVal)) (key : String)
    (h : ∀ kv ∈ fields, simpleAnswer kv.2 = true) :
    simpleAnswer (lookupField fields key) = true := by
  unfold lookupField
  induction fields with
  | nil => rfl
  | cons kv rest ih =>
    obtain ⟨k, v⟩ := kv
    simp only [List.lookup]
    cases hk : key == k with
    | true => exact h (k, v) (List.mem_cons_self _ _)
    | false => exact ih (fun kv hkv => h kv (List.mem_cons_of_mem _ hkv))

theorem profileLeaf_simple (fields : List (String × JSVal)) (key : String)
    (h : ∀ kv ∈ fields, simpleAnswer kv.2 = true) :
    profileLeaf (.obj fields) key = .ok (leafOf (lookupField fields key)) := by
  have hs := simpleAnswer_lookupField fields key h
  simp only [profileLeaf, JSVal.get]
  cases hv : lookupField fields key with
  | undefined => rfl
  | null => rfl
  | bool b => rw [hv] at hs; simp [simpleAnswer] at hs
  | arr xs => rw [hv] at hs; simp [simpleAnswer] at hs
  | obj fs => rw [hv] at hs; simp [simpleAnswer] at hs
  | num n =>
    simp only [leafOf, JSVal.toStr]
    split <;> rfl
  | str s =>
    simp only [leafOf, JSVal.toStr, JSVal.truthy]
    cases hd : s.data.isEmpty with
    | false => rfl
    | true =>
      have : s = "" := String.ext (List.isEmpty_iff.mp hd)
      simp [this]

/-- C16: for every answers object whose fields are strings, numbers or `null` (or are
absent), the payload is built without an exception; it has the six categories with three
fields each, 18 leaves in all; every leaf is the string `String(answer || '')`, so never a
number, `null` or `undefined`; and a missing or `null` answer gives the empty string. -/
theorem C16_profile_leaves_are_strings (fields : List (String × JSVal))
    (h : ∀ kv ∈ fields, simpleAnswer kv.2 = true) :
    buildProfile (.obj fields)
      = .ok (profileLayout.map (fun cat =>
          (cat.1, cat.2.map (fun leaf => (leaf.1, leafOf (lookupField fields leaf.2)))))) ∧
    (profileLayout.map (fun cat => cat.2.length)) = [3, 3, 3, 3, 3, 3] ∧
    (profileLayout.map (fun cat => cat.1))
      = ["wealth", "physical", "power", "intelligence", "willpower", "legacy"] ∧
    (∀ key, hasOwn fields key = false → leafOf (lookupField fields key) = "") ∧
    (∀ key, lookupField fields key = .null → leafOf (lookupField fields key) = "") := by
  refine ⟨?_, by decide, by decide, ?_, ?_⟩
  · simp only [buildProfile, profileLayout, profileCategories, profileFields,
      profileLeaf_simple fields _ h, List.map]
  · intro key hk
    unfold hasOwn at hk
    unfold lookupField
    cases hl : fields.lookup key with
    | none => rfl
    | some v => rw [hl] at hk; simp at hk
  · intro key hk
    rw [hk]
    rfl

/-- Witness for C16: answers with a string, the number 5, a `null` and the rest missing. -/
theorem C16_profile_leaves_witness :
    buildProfile (.obj [("annualIncome", .str "50k-100k"), ("height", .num (.ofInt 5)),
        ("lifestyle", .null)])
      = .ok [("wealth", [("income", "50k-100k"), ("netWorth", ""), ("lifestyle", "")]),
          ("physical", [("height", "5"), ("bodyType", ""), ("strength", "")]),
          ("power", [("leadership", ""), ("socialReach", ""), ("network", "")]),
          ("intelligence", [("problemSolving", ""), ("skills", ""), ("achievements", "")]),
          ("willpower", [("discipline", ""), ("productivity", ""), ("resilience", "")]),
          ("legacy", [("relationships", ""), ("attractiveness", ""), ("impact", "")])] :=
  (C16_profile_leaves_are_strings
    [("annualIncome", .str "50k-100k"), ("height", .num (.ofInt 5)), ("lifestyle", .null)]
    (by decide)).1.trans (by decide)

/-! ### Calls while another call is pending -/

/-- Once storage accepted the state and the payload is built, the body of the outer `try`
issues the request, however the pass goes on. -/
theorem tryBody_issues_request (P : Platform) (retryCount : Nat) (answers : JSVal)
    (env : AttemptEnv) (profile : List (String × List (String × String)))
    (hset : env.storageSetItem = .ok ()) (hprofile : buildProfile answers = .ok profile) :
    ∃ tail, (tryBody P retryCount answers env).1 = requestEvents retryCount profile ++ tail := by
  cases h3 : env.fetch with
  | error e =>
    exact ⟨[], by simp only [tryBody, hset, hprofile, h3, requestEvents]; rfl⟩
  | ok response =>
    cases h4 : response.ok with
    | false =>
      cases h5 : (decide (retryCount < MAX_RETRIES) &&
          (decide (response.status = 429) || decide (response.status ≥ 500))) with
      | true =>
        exact ⟨_, by simp only [tryBody, hset, hprofile, h3, h4, h5, Bool.not_false, if_true,
          requestEvents]; rfl⟩
      | false =>
        refine ⟨[], ?_⟩
        simp only [tryBody, hset, hprofile, h3, h4, h5, Bool.not_false, if_true,
          Bool.false_eq_true, if_false, requestEvents]
        split <;> rfl
    | true =>
      cases h5 : response.body with
      | error e =>
        exact ⟨_, by simp only [tryBody, hset, hprofile, h3, h4, h5, Bool.not_true,
          Bool.false_eq_true, if_false, requestEvents]; rfl⟩
      | ok data =>
        cases h6 : env.mountedAfterBody with
        | false =>
          exact ⟨_, by simp only [tryBody, hset, hprofile, h3, h4, h5, h6, Bool.not_true,
            Bool.not_false, Bool.false_eq_true, if_false, if_true, requestEvents]; rfl⟩
        | true =>
          cases h7 : parseResponse P data with
          | error e =>
            by_cases h8 : retryCount < MAX_RETRIES
            · exact ⟨_, by simp only [tryBody, hset, hprofile, h3, h4, h5, h6, h7, h8,
                Bool.not_true, Bool.false_eq_true, if_false, if_true, requestEvents]; rfl⟩
            · exact ⟨_, by simp only [tryBody, hset, hprofile, h3, h4, h5, h6, h7, h8,
                Bool.not_true, Bool.false_eq_true, if_false, requestEvents]; rfl⟩
          | ok responseData =>
            cases h8 : normalize responseData with
            | error e =>
              exact ⟨_, by simp only [tryBody, hset, hprofile, h3, h4, h5, h6, h7, h8,
                Bool.not_true, Bool.false_eq_true, if_false, requestEvents]; rfl⟩
            | ok result =>
              cases h9 : env.storageRemoveItem with
              | error e =>
                exact ⟨_, by simp only [tryBody, hset, hprofile, h3, h4, h5, h6, h7, h8, h9,
                  Bool.not_true, Bool.false_eq_true, if_false, requestEvents]; rfl⟩
              | ok u2 =>
                exact ⟨_, by simp only [tryBody, hset, hprofile, h3, h4, h5, h6, h7, h8, h9,
                  Bool.not_true, Bool.false_eq_true, if_false, requestEvents]; rfl⟩

theorem attempt_issues_request (P : Platform) (retryCount : Nat) (answers : JSVal)
    (env : AttemptEnv) (profile : List (String × List (String × String)))
    (hentry : env.mountedAtEntry = true)
    (hset : env.storageSetItem = .ok ()) (hprofile : buildProfile answers = .ok profile) :
    ∃ tail, (attempt P retryCount answers env).1 = requestEvents retryCount profile ++ tail := by
  obtain ⟨tail, ht⟩ := tryBody_issues_request P retryCount answers env profile hset hprofile
  unfold attempt
  simp only [hentry, Bool.not_true, Bool.false_eq_true, if_false]
  cases htb : tryBody P retryCount answers env with
  | mk evs r =>
    rw [htb] at ht
    simp only at ht
    subst ht
    cases r with
    | ok step => exact ⟨tail, rfl⟩
    | error m =>
      simp only
      split
      · exact ⟨tail, rfl⟩
      · split
        · exact ⟨_, by rw [List.append_assoc]⟩
        · exact ⟨_, by rw [List.append_assoc]⟩

theorem apiEventsOf_map (events : List Event) :
    apiEventsOf (events.map ScreenEvent.api) = events := by
  induction events with
  | nil => rfl
  | cons e rest ih =>
    simp only [apiEventsOf, List.map, List.filterMap_cons] at ih ⊢
    rw [ih]

theorem apiEventsOf_performCalculation (P : Platform) (retryCount : Nat) (answers : JSVal)
    (world : Nat → AttemptEnv) (fuel : Nat) :
    apiEventsOf (performCalculation P false retryCount answers world fuel).1
      = (calculateScores P retryCount answers world fuel 0).events := by
  have happ : ∀ (a b : List ScreenEvent), apiEventsOf (a ++ b) = apiEventsOf a ++ apiEventsOf b := by
    intro a b
    simp only [apiEventsOf, List.filterMap_append]
  simp only [performCalculation, Bool.false_eq_true, if_false]
  cases (calculateScores P retryCount answers world fuel 0).outcome <;>
    simp only [happ, apiEventsOf_map] <;> simp [apiEventsOf]

/-- C17, evaluated on the code: a second call made while the first is pending is no no-op.
`performCalculation` starts with `if (isCalculating) return;`, but `isCalculating` is the
value its closure captured, so a second call of the same function (made before the next
render) passes the guard like the first: each of the two calls reaches `calculateScores` and
issues a request, two requests in all while the first call is pending, and neither returns
`null`.  Only the function of a later render, which captured `isCalculating = true`, returns
at once.  `calculateScores` itself has no guard: a second call while the first is pending
issues its own request. -/
theorem C17_second_call_issues_request :
    (performCalculation parsesNothing false 0 noAnswers (fun _ => envWith serverError) 1).2
      = false ∧
    requestCount (apiEventsOf
      (performCalculation parsesNothing false 0 noAnswers (fun _ => envWith serverError) 1).1)
      = 1 ∧
    requestCount (apiEventsOf
      ((performCalculation parsesNothing false 0 noAnswers (fun _ => envWith serverError) 1).1 ++
        (performCalculation parsesNothing false 0 noAnswers (fun _ => envWith serverError) 1).1))
      = 2 ∧
    performCalculation parsesNothing true 0 noAnswers (fun _ => envWith serverError) 1
      = ([], true) ∧
    (calculateScores parsesNothing 0 noAnswers (fun _ => envWith serverError) 1 0).outcome
      = .pending ∧
    requestCount (calculateScores parsesNothing 0 noAnswers (fun _ => envWith serverError) 1 0).events
      = 1 ∧
    (attempt parsesNothing 0 noAnswers (envWith serverError)).2 ≠ .resolveNull ∧
    requestCount (attempt parsesNothing 0 noAnswers (envWith serverError)).1 = 1 ∧
    requestCount
      ((calculateScores parsesNothing 0 noAnswers (fun _ => envWith serverError) 1 0).events ++
        (attempt parsesNothing 0 noAnswers (envWith serverError)).1) = 2 := by
  decide

/-- What holds of every call: `calculateScores` returns `null` without any effect only when
the hook is not mounted; every call made while the hook is mounted issues a request of its
own once storage accepted the state and the payload is built, whatever else is pending; a
call of a `performCalculation` whose captured `isCalculating` is `true` returns at once
without any effect, and one whose captured `isCalculating` is `false` runs `calculateScores`
with all its effects. -/
theorem mounted_call_issues_request (P : Platform) (retryCount : Nat) (answers : JSVal)
    (env : AttemptEnv) (profile : List (String × List (String × String)))
    (world : Nat → AttemptEnv) (fuel : Nat) :
    (env.mountedAtEntry = false → attempt P retryCount answers env = ([], .resolveNull)) ∧
    (env.mountedAtEntry = true → env.storageSetItem = .ok () →
      buildProfile answers = .ok profile →
      Event.fetch profile ∈ (attempt P retryCount answers env).1 ∧
      1 ≤ requestCount (attempt P retryCount answers env).1) ∧
    performCalculation P true retryCount answers world fuel = ([], true) ∧
    apiEventsOf (performCalculation P false retryCount answers world fuel).1
      = (calculateScores P retryCount answers world fuel 0).events := by
  refine ⟨?_, ?_, rfl, apiEventsOf_performCalculation P retryCount answers world fuel⟩
  · intro h
    simp [attempt, h]
  · intro hentry hset hprofile
    obtain ⟨tail, ht⟩ := attempt_issues_request P retryCount answers env profile hentry hset
      hprofile
    rw [ht]
    constructor
    · simp [requestEvents]
    · simp only [requestCount, List.filter_append, List.length_append]
      have : (List.filter (fun e => match e with
          | .fetch _ => true
          | _ => false) (requestEvents retryCount profile)).length = 1 := rfl
      omega

/-! ## The passes of an invocation: retries, waits and teardown -/

/-- How the body of the outer `try` can end, with the waits it made: a retry is made only
while `retryCount < MAX_RETRIES`, after one call of `setRetryCount` and one wait, of one of
the two delays; in every other case there was no such call and no wait; and a result is
returned only when the hook was mounted at line 123. -/
theorem tryBody_cases (P : Platform) (retryCount : Nat) (answers : JSVal) (env : AttemptEnv) :
    (((tryBody P retryCount answers env).2 = .ok .again ∧ retryCount < MAX_RETRIES ∧
        retryCountAfter 0 (tryBody P retryCount answers env).1 = 1 ∧
        (sleepsOf (tryBody P retryCount answers env).1 = [backoffTime retryCount] ∨
          sleepsOf (tryBody P retryCount answers env).1 = [parseRetryDelay retryCount])) ∨
      ((tryBody P retryCount answers env).2 ≠ .ok .again ∧
        retryCountAfter 0 (tryBody P retryCount answers env).1 = 0 ∧
        sleepsOf (tryBody P retryCount answers env).1 = [])) ∧
    (∀ r, (tryBody P retryCount answers env).2 = .ok (.resolve r) →
      env.mountedAfterBody = true) := by
  unfold tryBody
  simp only []
  repeat' split
  all_goals simp_all [sleepsOf, retryCountAfter, List.filterMap, List.filter]

theorem retryCountAfter_append (start : Nat) (a b : List Event) :
    retryCountAfter start (a ++ b) = retryCountAfter start a + retryCountAfter 0 b := by
  simp only [retryCountAfter, List.filter_append, List.length_append]
  omega

theorem sleepsOf_append (a b : List Event) : sleepsOf (a ++ b) = sleepsOf a ++ sleepsOf b := by
  simp only [sleepsOf, List.filterMap_append]

theorem applyEvents_retryCount (s : HookState) (events : List Event) :
    (applyEvents s events).retryCount = retryCountAfter s.retryCount events := by
  unfold applyEvents
  induction events generalizing s with
  | nil => simp [retryCountAfter]
  | cons e rest ih =>
    rw [List.foldl_cons, ih]
    cases e <;> simp [applyEvent, retryCountAfter, List.filter]
    omega

/-- How a pass can end, with the retries counted and the waits it made. -/
theorem attempt_cases (P : Platform) (retryCount : Nat) (answers : JSVal) (env : AttemptEnv) :
    (((attempt P retryCount answers env).2 = .again ∧ retryCount < MAX_RETRIES ∧
        retryCountAfter 0 (attempt P retryCount answers env).1 = 1 ∧
        (sleepsOf (attempt P retryCount answers env).1 = [backoffTime retryCount] ∨
          sleepsOf (attempt P retryCount answers env).1 = [parseRetryDelay retryCount])) ∨
      ((attempt P retryCount answers env).2 ≠ .again ∧
        retryCountAfter 0 (attempt P retryCount answers env).1 = 0 ∧
        sleepsOf (attempt P retryCount answers env).1 = [])) ∧
    (∀ r, (attempt P retryCount answers env).2 = .resolve r →
      env.mountedAtEntry = true ∧ env.mountedAfterBody = true) ∧
    (∀ m, (attempt P retryCount answers env).2 = .reject m →
      env.mountedAtEntry = true ∧ env.mountedAtCatch = true) := by
  have h := tryBody_cases P retryCount answers env
  unfold attempt
  cases hm : env.mountedAtEntry with
  | false => simp [sleepsOf, retryCountAfter]
  | true =>
    cases hb : tryBody P retryCount answers env with
    | mk evs res =>
      rw [hb] at h
      cases res with
      | ok step =>
        simp only [Bool.not_true, Bool.false_eq_true, if_false]
        obtain ⟨h1, h2⟩ := h
        refine ⟨?_, ?_, ?_⟩
        · rcases h1 with ⟨ha, hlt, hr, hs⟩ | ⟨ha, hr, hs⟩
          · left
            simp only [Except.ok.injEq] at ha
            exact ⟨ha, hlt, hr, hs⟩
          · right
            exact ⟨fun hc => ha (by rw [hc]), hr, hs⟩
        · intro r hr
          exact ⟨trivial, h2 r (by rw [hr])⟩
        · intro m hr
          have := (tryBody_outcomes P retryCount answers env).1 step (by rw [hb]) m
          exact absurd hr this
      | error m =>
        obtain ⟨h1, _⟩ := h
        have hs : retryCountAfter 0 evs = 0 ∧ sleepsOf evs = [] := by
          rcases h1 with ⟨ha, _⟩ | ⟨_, hs⟩
          · simp at ha
          · exact hs
        simp only [Bool.not_true, Bool.false_eq_true, if_false]
        cases hc : env.mountedAtCatch with
        | false => simp [hs]
        | true =>
          have hs3 : retryCountAfter 0 (evs ++ [Event.setError (some m), Event.setLoading false])
                = 0 ∧
              sleepsOf (evs ++ [Event.setError (some m), Event.setLoading false]) = [] := by
            rw [retryCountAfter_append, sleepsOf_append, hs.1, hs.2]
            exact ⟨rfl, rfl⟩
          by_cases hlt : retryCount < MAX_RETRIES
          · cases hi : (jsIncludes m "Rate limit" || jsIncludes m "429") with
            | true =>
              have hs2 : retryCountAfter 0 (evs ++ [Event.incRetryCount,
                    Event.setCalculationStatus "Retrying connection...",
                    Event.sleep (backoffTime retryCount)]) = 1 ∧
                  sleepsOf (evs ++ [Event.incRetryCount,
                    Event.setCalculationStatus "Retrying connection...",
                    Event.sleep (backoffTime retryCount)]) = [backoffTime retryCount] := by
                rw [retryCountAfter_append, sleepsOf_append, hs.1, hs.2]
                exact ⟨rfl, rfl⟩
              simp [hlt, hi, hs2]
            | false => simp [hlt, hi, hs3]
          · simp [hlt, hs3]

/-- Every wait of an invocation is one of the two delays for the captured `retryCount`, and
is made only while that `retryCount` is below `MAX_RETRIES`. -/
theorem sleeps_of_run (P : Platform) (retryCount : Nat) (answers : JSVal)
    (world : Nat → AttemptEnv) (fuel i : Nat) (ms : Dec)
    (h : ms ∈ sleepsOf (calculateScores P retryCount answers world fuel i).events) :
    retryCount < MAX_RETRIES ∧ (ms = backoffTime retryCount ∨ ms = parseRetryDelay retryCount) := by
  induction fuel generalizing i with
  | zero => simp [calculateScores, sleepsOf] at h
  | succ k ih =>
    have hc := (attempt_cases P retryCount answers (world i)).1
    unfold calculateScores at h
    cases ha : attempt P retryCount answers (world i) with
    | mk evs step =>
      rw [ha] at h hc
      have hevs : ms ∈ sleepsOf evs →
          retryCount < MAX_RETRIES ∧
            (ms = backoffTime retryCount ∨ ms = parseRetryDelay retryCount) := by
        intro hmem
        rcases hc with ⟨_, hlt, _, hs | hs⟩ | ⟨_, _, hs⟩
        · rw [hs] at hmem
          exact ⟨hlt, Or.inl (List.mem_singleton.mp hmem)⟩
        · rw [hs] at hmem
          exact ⟨hlt, Or.inr (List.mem_singleton.mp hmem)⟩
        · rw [hs] at hmem
          simp at hmem
      cases step with
      | resolve r => exact hevs h
      | resolveNull => exact hevs h
      | reject m => exact hevs h
      | again =>
        simp only [sleepsOf_append, List.mem_append] at h
        rcases h with h | h
        · exact hevs h
        · exact ih (i + 1) h

/-- A closure that captured a `retryCount` of `MAX_RETRIES` or more makes one pass: it
settles there, without a retry and without a wait. -/
theorem run_exhausted (P : Platform) (retryCount : Nat) (answers : JSVal)
    (world : Nat → AttemptEnv) (fuel i : Nat) (hrc : ¬ retryCount < MAX_RETRIES) :
    (calculateScores P retryCount answers world (fuel + 1) i).outcome ≠ .pending ∧
    (calculateScores P retryCount answers world (fuel + 1) i).events
      = (attempt P retryCount answers (world i)).1 ∧
    retryCountAfter 0 (calculateScores P retryCount answers world (fuel + 1) i).events = 0 ∧
    sleepsOf (calculateScores P retryCount answers world (fuel + 1) i).events = [] := by
  have hc := (attempt_cases P retryCount answers (world i)).1
  unfold calculateScores
  cases ha : attempt P retryCount answers (world i) with
  | mk evs step =>
    rw [ha] at hc
    rcases hc with ⟨_, hlt, _⟩ | ⟨hna, hr, hs⟩
    · exact absurd hlt hrc
    · cases step with
      | resolve r => exact ⟨by simp, rfl, hr, hs⟩
      | resolveNull => exact ⟨by simp, rfl, hr, hs⟩
      | reject m => exact ⟨by simp, rfl, hr, hs⟩
      | again => exact absurd rfl hna

/-- The state `retryCount` after an invocation is the one before it plus the number of
retries the invocation made: nothing in `calculateScores` sets it back. -/
theorem retryCount_after_run (P : Platform) (retryCount : Nat) (answers : JSVal)
    (world : Nat → AttemptEnv) (fuel i : Nat) (s : HookState) :
    (applyEvents s (calculateScores P retryCount answers world fuel i).events).retryCount
      = s.retryCount +
        retryCountAfter 0 (calculateScores P retryCount answers world fuel i).events := by
  rw [applyEvents_retryCount]
  simp only [retryCountAfter]
  omega

/-! ## The history of results -/

/-- C22: for every stored history `h` and new result `r`, the list written to
`@results_history` is `r` followed by the first `min |h| 9` entries of `h` in their order; its
length is `min (|h| + 1) 10` and its head is `r`.  With nothing stored the list is `[r]`. -/
theorem C22_history_capped_newest_first {α : Type} (h : List α) (r : α) :
    saveHistory (some h) r = r :: h.take (min h.length 9) ∧
    (saveHistory (some h) r).length = min (h.length + 1) 10 ∧
    (saveHistory (some h) r).head? = some r ∧
    saveHistory none r = [r] := by
  have h1 : saveHistory (some h) r = r :: h.take 9 := rfl
  have h2 : h.take (min h.length 9) = h.take 9 := by
    rcases Nat.le_total h.length 9 with hl | hl
    · rw [Nat.min_eq_left hl, List.take_of_length_le hl, List.take_of_length_le (le_refl _)]
    · rw [Nat.min_eq_right hl]
  refine ⟨by rw [h1, h2], ?_, by rw [h1]; rfl, rfl⟩
  rw [h1, List.length_cons, List.length_take]
  omega

/-! ## The size of the waits -/

theorem backoffTime_val (n : Nat) : (backoffTime n).val = 2000 * 2 ^ n := by
  simp [backoffTime, Dec.val, Dec.ofInt, DEFAULT_RETRY_DELAY]

theorem parseRetryDelay_val (n : Nat) : (parseRetryDelay n).val = 2000 * (3 / 2 : ℚ) ^ n := by
  simp only [parseRetryDelay, Dec.val, DEFAULT_RETRY_DELAY]
  have h15 : (15 : ℚ) = 3 / 2 * 10 := by norm_num
  push_cast
  rw [h15, mul_pow]
  field_simp
  ring

theorem delays_le_max (n : Nat) (hn : n < MAX_RETRIES) :
    (backoffTime n).val ≤ MAX_RETRY_DELAY ∧ (parseRetryDelay n).val ≤ MAX_RETRY_DELAY := by
  rw [backoffTime_val, parseRetryDelay_val]
  have h3 : n < 3 := hn
  interval_cases n <;> norm_num [MAX_RETRY_DELAY]


/-- C29: every wait an invocation of `calculateScores` makes is `DEFAULT_RETRY_DELAY * 2 ^ n`
or `DEFAULT_RETRY_DELAY * 1.5 ^ n` for the captured `retryCount = n`, with `n < MAX_RETRIES`,
and is at most `TIMEOUT.MAX_RETRY_DELAY = 10000` ms; and for every `n < MAX_RETRIES` both
delays, `2000 * 2 ^ n` and `2000 * 1.5 ^ n`, are at most 10000 ms. -/
theorem C29_waits_at_most_max_retry_delay (P : Platform) (retryCount : Nat) (answers : JSVal)
    (world : Nat → AttemptEnv) (fuel i : Nat) (ms : Dec)
    (h : ms ∈ sleepsOf (calculateScores P retryCount answers world fuel i).events) :
    retryCount < MAX_RETRIES ∧
    (ms = backoffTime retryCount ∨ ms = parseRetryDelay retryCount) ∧
    ms.val ≤ MAX_RETRY_DELAY ∧
    MAX_RETRY_DELAY = 10000 ∧
    ∀ n, n < MAX_RETRIES →
      (backoffTime n).val = 2000 * 2 ^ n ∧ (parseRetryDelay n).val = 2000 * (3 / 2 : ℚ) ^ n ∧
      (backoffTime n).val ≤ MAX_RETRY_DELAY ∧ (parseRetryDelay n).val ≤ MAX_RETRY_DELAY := by
  obtain ⟨hlt, hms⟩ := sleeps_of_run P retryCount answers world fuel i ms h
  refine ⟨hlt, hms, ?_, rfl, fun n hn =>
    ⟨backoffTime_val n, parseRetryDelay_val n, (delays_le_max n hn).1, (delays_le_max n hn).2⟩⟩
  rcases hms with hms | hms
  · rw [hms]
    exact (delays_le_max retryCount hlt).1
  · rw [hms]
    exact (delays_le_max retryCount hlt).2

/-- Witness for C29: the wait of 8000 ms that a closure with `retryCount = 2` makes against
HTTP 500. -/
theorem C29_waits_witness :
    Dec.ofInt 8000 ∈ sleepsOf
      (calculateScores parsesNothing 2 noAnswers (fun _ => envWith serverError) 1 0).events ∧
    (Dec.ofInt 8000).val ≤ MAX_RETRY_DELAY :=
  ⟨by decide, (C29_waits_at_most_max_retry_delay parsesNothing 2 noAnswers
    (fun _ => envWith serverError) 1 0 (Dec.ofInt 8000) (by decide)).2.2.1⟩

/-! ### Retries after a malformed response -/

theorem attempt_malformed (retryCount : Nat) (hrc : retryCount < MAX_RETRIES) :
    attempt parsesNothing retryCount noAnswers (envWithContent (.str "not json")) =
      ([.setLoading true, .setError none, .setProgress 0,
        .setCalculationStatus "Validating your responses...", .storageSetItem retryCount,
        .setProgress 20, .setCalculationStatus "Connecting to assessment server...",
        .fetch emptyProfile,
        .setProgress 40, .setCalculationStatus "Analyzing your profile data...",
        .setProgress 70, .setCalculationStatus "Processing results...",
        .incRetryCount, .setCalculationStatus "Retrying analysis...",
        .sleep (parseRetryDelay retryCount)], .again) := by
  have hprofile : buildProfile noAnswers = .ok emptyProfile := by decide
  have hok : (okResponse (bodyWith (.str "not json"))).ok = true := by decide
  have he : parseResponse parsesNothing (bodyWith (.str "not json"))
      = .error "Unexpected token o in JSON at position 1" := rfl
  have hbody : (okResponse (bodyWith (.str "not json"))).body
      = .ok (bodyWith (.str "not json")) := rfl
  simp only [attempt, tryBody, envWithContent, envWith, hprofile, hok, hbody, he, hrc,
    Bool.not_true, Bool.false_eq_true, if_false, if_true, List.cons_append, List.nil_append]

theorem sleepsOf_malformed (retryCount : Nat) (hrc : retryCount < MAX_RETRIES) (n i : Nat) :
    sleepsOf (calculateScores parsesNothing retryCount noAnswers
        (fun _ => envWithContent (.str "not json")) n i).events
      = List.replicate n (parseRetryDelay retryCount) := by
  induction n generalizing i with
  | zero => rfl
  | succ k ih =>
    simp only [calculateScores, attempt_malformed retryCount hrc]
    rw [sleepsOf_append, ih (i + 1)]
    simp [sleepsOf, List.filterMap, List.replicate_succ]

/-- C23, evaluated on the code: inside one invocation that gets content that is not JSON in
every pass, every wait is `DEFAULT_RETRY_DELAY * 1.5 ^ retryCount` for the one `retryCount`
the closure captured, so the waits before the retries are all equal: 2000, 2000, 2000 for a
fresh hook, not 2000, 3000, 4500.  The expression of line 168 is the one the claim names: its
value for `retryCount = n` is `2000 * 1.5 ^ n`, which equals `2000 * 2 ^ n` for `n = 0` and is
strictly smaller for every `n >= 1`. -/
theorem C23_parse_delay_constant_within_invocation (retryCount : Nat) (n : Nat)
    (hrc : retryCount < MAX_RETRIES) :
    sleepsOf (calculateScores parsesNothing retryCount noAnswers
        (fun _ => envWithContent (.str "not json")) n 0).events
      = List.replicate n (parseRetryDelay retryCount) ∧
    (parseRetryDelay retryCount).val = 2000 * (3 / 2 : ℚ) ^ retryCount ∧
    (parseRetryDelay 0).val = 2000 ∧ (parseRetryDelay 1).val = 3000 ∧
    (parseRetryDelay 2).val = 4500 ∧
    (parseRetryDelay 0).val = (backoffTime 0).val ∧
    ∀ k, 1 ≤ k → (parseRetryDelay k).val < (backoffTime k).val := by
  refine ⟨sleepsOf_malformed retryCount hrc n 0, parseRetryDelay_val retryCount, ?_, ?_, ?_,
    ?_, ?_⟩
  · rw [parseRetryDelay_val]
    norm_num
  · rw [parseRetryDelay_val]
    norm_num
  · rw [parseRetryDelay_val]
    norm_num
  · rw [parseRetryDelay_val, backoffTime_val]
    norm_num
  · intro k hk
    rw [parseRetryDelay_val, backoffTime_val]
    have h : (3 / 2 : ℚ) ^ k < 2 ^ k :=
      pow_lt_pow_left₀ (by norm_num) (by norm_num) (by omega)
    linarith

/-- Witness for C23: three passes against content that is not JSON, from a fresh hook, wait
2000 ms each time. -/
theorem C23_parse_delay_constant_witness :
    sleepsOf (calculateScores parsesNothing 0 noAnswers
        (fun _ => envWithContent (.str "not json")) 3 0).events
      = [Dec.ofInt 2000, Dec.ofInt 2000, Dec.ofInt 2000] ∧
    [Dec.ofInt 2000, Dec.ofInt 2000, Dec.ofInt 2000]
      ≠ [parseRetryDelay 0, parseRetryDelay 1, parseRetryDelay 2] :=
  ⟨(C23_parse_delay_constant_within_invocation 0 3 (by decide)).1.trans (by decide),
    by decide⟩

/-! ### One counter for both kinds of retry -/

theorem attempt_alternating (i : Nat) :
    (attempt parsesNothing 0 noAnswers (worldAlternating i)).2 = .again ∧
    retryCountAfter 0 (attempt parsesNothing 0 noAnswers (worldAlternating i)).1 = 1 ∧
    requestCount (attempt parsesNothing 0 noAnswers (worldAlternating i)).1 = 1 := by
  unfold worldAlternating
  split
  · rw [attempt_retryable_status parsesNothing 0 rateLimited (by decide) (Or.inl rfl)]
    exact ⟨rfl, rfl, rfl⟩
  · rw [attempt_malformed 0 (by decide)]
    exact ⟨rfl, rfl, rfl⟩

theorem requestCount_append (a b : List Event) :
    requestCount (a ++ b) = requestCount a + requestCount b := by
  simp only [requestCount, List.filter_append, List.length_append]

theorem calculateScores_alternating (n i : Nat) :
    (calculateScores parsesNothing 0 noAnswers worldAlternating n i).outcome = .pending ∧
    retryCountAfter 0 (calculateScores parsesNothing 0 noAnswers worldAlternating n i).events
      = n ∧
    requestCount (calculateScores parsesNothing 0 noAnswers worldAlternating n i).events = n := by
  induction n generalizing i with
  | zero => exact ⟨rfl, rfl, rfl⟩
  | succ k ih =>
    obtain ⟨h1, h2, h3⟩ := ih (i + 1)
    obtain ⟨a1, a2, a3⟩ := attempt_alternating i
    unfold calculateScores
    cases ha : attempt parsesNothing 0 noAnswers (worldAlternating i) with
    | mk evs step =>
      rw [ha] at a1 a2 a3
      simp only at a1 a2 a3
      subst a1
      simp only
      refine ⟨h1, ?_, ?_⟩
      · rw [retryCountAfter_append, a2, h2]
        omega
      · rw [requestCount_append, a3, h3]
        omega

/-- C24, evaluated on the code: against a transport that answers with HTTP 429 and with
content that is not JSON in turn, the function `calculateScores` of a fresh hook (captured
`retryCount = 0`) has, after any number `n` of passes, made `n` retries and `n` requests and
is still not settled.  Both kinds of retry test and increment the one `retryCount`, but each
pass tests the value the closure captured, so no total is enforced: after a retry for HTTP
429 and one for bad JSON the same run makes a third, a fourth and a fifth retry, more than
`MAX_RETRIES = 3`. -/
theorem C24_combined_retries_unbounded (n : Nat) :
    (calculateScores parsesNothing 0 noAnswers worldAlternating n 0).outcome = .pending ∧
    retryCountAfter 0 (calculateScores parsesNothing 0 noAnswers worldAlternating n 0).events
      = n ∧
    requestCount (calculateScores parsesNothing 0 noAnswers worldAlternating n 0).events = n ∧
    sleepsOf (calculateScores parsesNothing 0 noAnswers worldAlternating 2 0).events
      = [backoffTime 0, parseRetryDelay 0] ∧
    MAX_RETRIES <
      retryCountAfter 0 (calculateScores parsesNothing 0 noAnswers worldAlternating 5 0).events :=
  ⟨(calculateScores_alternating n 0).1, (calculateScores_alternating n 0).2.1,
    (calculateScores_alternating n 0).2.2, by decide, by
      rw [(calculateScores_alternating 5 0).2.1]
      decide⟩

/-! ### Runs that follow one another -/

/-- C25 as stated fails.  A first run from a fresh hook that meets HTTP 500 three times and
then a good response resolves and leaves the state `retryCount` at 3; the function of the
next render captures 3, and a run of it against HTTP 429 is rejected after one request,
without a retry and without a wait, and leaves `retryCount` at 3.  After a first run with one
retry the next run captures 1 and its first wait is 4000 ms, not 2000 ms. -/
theorem C25_retryCount_is_carried_over :
    (calculateScores (parsesTo plainResponse) 0 noAnswers (worldFailsFirst 3) 4 0).outcome
      = .resolved plainResult ∧
    (applyEvents HookState.initial
      (calculateScores (parsesTo plainResponse) 0 noAnswers (worldFailsFirst 3) 4 0).events).retryCount
      = 3 ∧
    (calculateScores (parsesTo plainResponse) 3 noAnswers (fun _ => envWith rateLimited) 4 0).outcome
      = .rejected "API request failed: 429 - Too Many Requests" ∧
    requestCount
      (calculateScores (parsesTo plainResponse) 3 noAnswers (fun _ => envWith rateLimited) 4 0).events
      = 1 ∧
    sleepsOf
      (calculateScores (parsesTo plainResponse) 3 noAnswers (fun _ => envWith rateLimited) 4 0).events
      = [] ∧
    (applyEvents ⟨false, none, 100, "Calculation complete!", 3⟩
      (calculateScores (parsesTo plainResponse) 3 noAnswers (fun _ => envWith rateLimited) 4 0).events).retryCount
      = 3 ∧
    (applyEvents HookState.initial
      (calculateScores (parsesTo plainResponse) 0 noAnswers (worldFailsFirst 1) 2 0).events).retryCount
      = 1 ∧
    sleepsOf
      (calculateScores (parsesTo plainResponse) 1 noAnswers (fun _ => envWith rateLimited) 1 0).events
      = [Dec.ofInt 4000] := by
  decide

/-- C25, amended: nothing in `calculateScores` sets `retryCount` back.  For every run, from
every state of the hook, the state `retryCount` after the run is the one before it plus the
number of retries of the run, so it is never smaller; every wait of the run uses the
`retryCount` its closure captured, which is below `MAX_RETRIES`; and a closure that captured
`MAX_RETRIES` or more settles in its first pass without a retry and without a wait. -/
theorem C25_retryCount_never_reset (P : Platform) (retryCount : Nat) (answers : JSVal)
    (world : Nat → AttemptEnv) (fuel i : Nat) (s : HookState) :
    (applyEvents s (calculateScores P retryCount answers world fuel i).events).retryCount
      = s.retryCount +
        retryCountAfter 0 (calculateScores P retryCount answers world fuel i).events ∧
    s.retryCount
      ≤ (applyEvents s (calculateScores P retryCount answers world fuel i).events).retryCount ∧
    (∀ ms, ms ∈ sleepsOf (calculateScores P retryCount answers world fuel i).events →
      retryCount < MAX_RETRIES ∧
        (ms = backoffTime retryCount ∨ ms = parseRetryDelay retryCount)) ∧
    (¬ retryCount < MAX_RETRIES →
      (calculateScores P retryCount answers world (fuel + 1) i).outcome ≠ .pending ∧
      retryCountAfter 0 (calculateScores P retryCount answers world (fuel + 1) i).events = 0 ∧
      sleepsOf (calculateScores P retryCount answers world (fuel + 1) i).events = []) := by
  have h := retryCount_after_run P retryCount answers world fuel i s
  refine ⟨h, by omega, fun ms hms => sleeps_of_run P retryCount answers world fuel i ms hms,
    fun hrc => ?_⟩
  obtain ⟨h1, _, h3, h4⟩ := run_exhausted P retryCount answers world fuel i hrc
  exact ⟨h1, h3, h4⟩

/-- Witness for C25: a closure that captured `retryCount = 3`, run against HTTP 429. -/
theorem C25_retryCount_never_reset_witness :
    ¬ 3 < MAX_RETRIES ∧
    (calculateScores parsesNothing 3 noAnswers (fun _ => envWith rateLimited) 1 0).outcome
      ≠ .pending ∧
    retryCountAfter 0
      (calculateScores parsesNothing 3 noAnswers (fun _ => envWith rateLimited) 1 0).events = 0 ∧
    Dec.ofInt 4000 ∈ sleepsOf
      (calculateScores parsesNothing 1 noAnswers (fun _ => envWith rateLimited) 1 0).events ∧
    (1 < MAX_RETRIES ∧
      (Dec.ofInt 4000 = backoffTime 1 ∨ Dec.ofInt 4000 = parseRetryDelay 1)) :=
  ⟨by decide,
    ((C25_retryCount_never_reset parsesNothing 3 noAnswers (fun _ => envWith rateLimited) 0 0
      HookState.initial).2.2.2 (by decide)).1,
    ((C25_retryCount_never_reset parsesNothing 3 noAnswers (fun _ => envWith rateLimited) 0 0
      HookState.initial).2.2.2 (by decide)).2.1,
    by decide,
    (C25_retryCount_never_reset parsesNothing 1 noAnswers (fun _ => envWith rateLimited) 1 0
      HookState.initial).2.2.1 (Dec.ofInt 4000) (by decide)⟩

/-! ### Teardown -/

/-- A pass that starts after teardown returns `null` at once; a pass whose response comes
after teardown gives neither a result nor a rejection; and when the next pass starts after
teardown, the invocation resolves to `null`. -/
theorem run_torn_down (P : Platform) (retryCount : Nat) (answers : JSVal)
    (world : Nat → AttemptEnv) (fuel i : Nat)
    (hbody : (world i).mountedAfterBody = false) (hcatch : (world i).mountedAtCatch = false)
    (hnext : (world (i + 1)).mountedAtEntry = false) :
    (calculateScores P retryCount answers world (fuel + 2) i).outcome = .resolvedNull := by
  have hc := attempt_cases P retryCount answers (world i)
  have hn : attempt P retryCount answers (world (i + 1)) = ([], .resolveNull) := by
    simp [attempt, hnext]
  simp only [calculateScores, hn]
  cases ha : attempt P retryCount answers (world i) with
  | mk evs step =>
    rw [ha] at hc
    cases step with
    | resolve r =>
      have := (hc.2.1 r rfl).2
      rw [hbody] at this
      cases this
    | resolveNull => rfl
    | reject m =>
      have := (hc.2.2 m rfl).2
      rw [hcatch] at this
      cases this
    | again => rfl

/-- C21, evaluated on the code.  An invocation started after teardown returns `null` with no
effect at all.  But when the hook is torn down while the request is pending, the statements
after `await fetch` still call setters: for a 2xx response, `setProgress(40)` and
`setCalculationStatus('Analyzing your profile data...')` of lines 117-118 run before the check
of line 123; for HTTP 500 met by a fresh hook, `setRetryCount`, `setCalculationStatus` and the
wait of lines 106-110 run, and the state `retryCount` becomes 1.  In both cases the promise
resolves to `null`. -/
theorem C21_setters_called_after_teardown (P : Platform) (retryCount : Nat) (answers : JSVal) :
    attempt P retryCount answers envUnmounted = ([], .resolveNull) ∧
    (calculateScores P 0 noAnswers (worldTornDown (okResponse (bodyWith (.str "x")))) 2 0).outcome
      = .resolvedNull ∧
    eventsAfterRequest
      (calculateScores P 0 noAnswers (worldTornDown (okResponse (bodyWith (.str "x")))) 2 0).events
      = [.setProgress 40, .setCalculationStatus "Analyzing your profile data..."] ∧
    (calculateScores P 0 noAnswers (worldTornDown serverError) 2 0).outcome = .resolvedNull ∧
    eventsAfterRequest (calculateScores P 0 noAnswers (worldTornDown serverError) 2 0).events
      = [.incRetryCount, .setCalculationStatus "Retrying connection...",
          .sleep (Dec.ofInt 2000)] ∧
    (eventsAfterRequest
      (calculateScores P 0 noAnswers (worldTornDown serverError) 2 0).events).any isSetter
      = true ∧
    (applyEvents HookState.initial
      (eventsAfterRequest
        (calculateScores P 0 noAnswers (worldTornDown serverError) 2 0).events)).retryCount = 1 :=
  ⟨rfl, rfl, rfl, rfl, rfl, rfl, rfl⟩

/-! ### The leaves of the payload for the answers that are there -/

/-- C26 as stated fails: `String(0)` is `"0"`, but the leaf for the numeric answer 0 is the
empty string, because `0 || ''` is `''`; the payload for that answer is the payload for no
answers at all. -/
theorem C26_zero_answer_gives_empty_leaf :
    (JSVal.num (.ofInt 0)).toStr = .ok "0" ∧
    profileLeaf (.obj [("annualIncome", .num (.ofInt 0))]) "annualIncome" = .ok "" ∧
    buildProfile (.obj [("annualIncome", .num (.ofInt 0))]) = .ok emptyProfile ∧
    buildProfile (.obj [("annualIncome", .num (.ofInt 0))]) = buildProfile noAnswers := by
  decide

/-- C26, amended: for every answers object whose fields are strings, numbers or `null` (or
are absent), every leaf of the payload, under its category and field name, is
`String(answer || '')`: for a truthy answer (a non-empty string, a number other than 0 and
`NaN`) that is `String(answer)`, so a string is embedded unchanged and 5 becomes `"5"`; for a
falsy answer (the empty string, 0, `NaN`, `null`, a missing one) it is the empty string. -/
theorem C26_profile_leaves_amended (fields : List (String × JSVal))
    (h : ∀ kv ∈ fields, simpleAnswer kv.2 = true) :
    buildProfile (.obj fields)
      = .ok (profileLayout.map (fun cat =>
          (cat.1, cat.2.map (fun leaf => (leaf.1, leafOf (lookupField fields leaf.2)))))) ∧
    (∀ v, simpleAnswer v = true → v.truthy = true → v.toStr = .ok (leafOf v)) ∧
    (∀ v, simpleAnswer v = true → v.truthy = false → leafOf v = "") ∧
    (∀ s, leafOf (.str s) = s) ∧
    leafOf (.num (.ofInt 5)) = "5" ∧ leafOf (.num (.ofInt 0)) = "" := by
  refine ⟨?_, ?_, ?_, fun s => rfl, by decide, by decide⟩
  · simp only [buildProfile, profileLayout, profileCategories, profileFields,
      profileLeaf_simple fields _ h, List.map]
  · intro v hs ht
    cases v with
    | undefined => simp [JSVal.truthy] at ht
    | null => simp [JSVal.truthy] at ht
    | bool b => simp [simpleAnswer] at hs
    | arr xs => simp [simpleAnswer] at hs
    | obj fs => simp [simpleAnswer] at hs
    | num n => simp [leafOf, JSVal.toStr, ht]
    | str s => simp [leafOf, JSVal.toStr]
  · intro v hs ht
    cases v with
    | undefined => rfl
    | null => rfl
    | bool b => simp [simpleAnswer] at hs
    | arr xs => simp [simpleAnswer] at hs
    | obj fs => simp [simpleAnswer] at hs
    | num n => simp [leafOf, ht]
    | str s =>
      simp only [JSVal.truthy, Bool.not_eq_false', List.isEmpty_iff] at ht
      exact String.ext ht

/-- Witness for C26: answers with a string, the number 5 and the number 0. -/
theorem C26_profile_leaves_amended_witness :
    buildProfile (.obj [("annualIncome", .str "50k-100k"), ("height", .num (.ofInt 5)),
        ("lifestyle", .num (.ofInt 0))])
      = .ok [("wealth", [("income", "50k-100k"), ("netWorth", ""), ("lifestyle", "")]),
          ("physical", [("height", "5"), ("bodyType", ""), ("strength", "")]),
          ("power", [("leadership", ""), ("socialReach", ""), ("network", "")]),
          ("intelligence", [("problemSolving", ""), ("skills", ""), ("achievements", "")]),
          ("willpower", [("discipline", ""), ("productivity", ""), ("resilience", "")]),
          ("legacy", [("relationships", ""), ("attractiveness", ""), ("impact", "")])] :=
  (C26_profile_leaves_amended
    [("annualIncome", .str "50k-100k"), ("height", .num (.ofInt 5)),
      ("lifestyle", .num (.ofInt 0))]
    (by decide)).1.trans (by decide)

/-! ## The display values of the results screen -/

set_option maxRecDepth 100000 in
/-- C28, evaluated on the code: `calculateScores` can return a score of 0, a position of 0
and a percentile of 0, and the results screen shows 50, 1985000000 and 50 for them, because
`0 || fallback` is the fallback.  For the response with `wealth` 0.3 the result has
`wealth = 0` and the screen derives 50; for the response with `position` 0.3 the result has
`position = 0` and the screen derives 1985000000; for a response with `percentile` 0 the
result has `percentile = 0` and the screen derives 50.  Every score from 1 to 100 is derived
unchanged. -/
theorem C28_zero_is_displayed_as_fallback :
    (∃ r, (calculateScores (parsesTo wealthThreeTenths) 0 noAnswers
          (fun _ => envWithContent (.str "model output")) 1 0).outcome = .resolved r ∧
        r.categoryScores.wealth = .ofInt 0 ∧
        (displayCategoryScores r.categoryScores).wealth = .ofInt 50) ∧
    (∃ r, (calculateScores (parsesTo positionThreeTenths) 0 noAnswers
          (fun _ => envWithContent (.str "model output")) 1 0).outcome = .resolved r ∧
        r.globalRanking.position = .ofInt 0 ∧
        (displayRanking r.globalRanking).position = .ofInt 1985000000) ∧
    (∃ r, (calculateScores
          (parsesTo (sampleResponse (.num (.ofInt 72)) (.num (.ofInt 68))
            (.num (.ofInt 198500000)) (.num (.ofInt 0)) (.str "Above average")
            (.str "Steady growth")))
          0 noAnswers (fun _ => envWithContent (.str "model output")) 1 0).outcome
            = .resolved r ∧
        r.globalRanking.percentile = .ofInt 0 ∧
        (displayRanking r.globalRanking).percentile = .ofInt 50) ∧
    displayInt (.ofInt 0) 50 = .ofInt 50 ∧
    (∀ n : Nat, n < 100 → displayInt (.ofInt ((n : Int) + 1)) 50 = .ofInt ((n : Int) + 1)) := by
  refine ⟨⟨_, rfl, by decide, by decide⟩, ⟨_, rfl, by decide, by decide⟩,
    ⟨_, rfl, by decide, by decide⟩, by decide, by decide!⟩

/-! ## The subscription helpers -/

theorem remaining_ne_expired (x : String) : x ++ " remaining" ≠ "Expired" := by
  intro h
  have hl := congrArg String.length h
  rw [String.length_append] at hl
  have h10 : " remaining".length = 10 := by decide
  have h7 : "Expired".length = 7 := by decide
  omega

/-- C30: for every reading `now` of the clock and every expiry, `isSubscriptionActive` is
true exactly when `getTimeRemaining` is not `Expired`; for a missing expiry, and for an expiry
at or before `now`, the one is false and the other is `Expired`; and an expiry after `now` and
less than one hour ahead is active and reported as `0 hours remaining`. -/
theorem C30_entitlement_helpers_agree (now : Nat) (expiryDate : ExpiryDate) :
    (isSubscriptionActive now expiryDate = true ↔ getTimeRemaining now expiryDate ≠ "Expired") ∧
    (isSubscriptionActive now .missing = false ∧ getTimeRemaining now .missing = "Expired") ∧
    (expiryDate.time ≤ now →
      isSubscriptionActive now expiryDate = false ∧
        getTimeRemaining now expiryDate = "Expired") ∧
    (expiryDate ≠ .missing → (now : Int) < expiryDate.time →
      expiryDate.time < (now : Int) + 1000 * 60 * 60 →
      isSubscriptionActive now expiryDate = true ∧
        getTimeRemaining now expiryDate = "0 hours remaining") := by
  refine ⟨?_, ⟨rfl, rfl⟩, ?_, ?_⟩
  · unfold isSubscriptionActive getTimeRemaining
    cases ht : expiryDate.truthy with
    | false => simp
    | true =>
      simp only [Bool.not_true, Bool.false_eq_true, if_false, decide_eq_true_eq]
      by_cases hd : expiryDate.time - (now : Int) ≤ 0
      · simp only [hd, if_true]
        constructor
        · intro h; omega
        · intro h; exact absurd rfl h
      · simp only [hd, if_false]
        constructor
        · intro _
          split
          · exact remaining_ne_expired _
          · exact remaining_ne_expired _
        · intro _; omega
  · intro hle
    unfold isSubscriptionActive getTimeRemaining
    cases ht : expiryDate.truthy with
    | false => simp
    | true =>
      have hd : expiryDate.time - (now : Int) ≤ 0 := by omega
      simp only [Bool.not_true, Bool.false_eq_true, if_false, hd, if_true, decide_eq_false_iff_not]
      exact ⟨by omega, trivial⟩
  · intro hne hlt hhour
    have ht : expiryDate.truthy = true := by
      cases expiryDate with
      | missing => exact absurd rfl hne
      | isoString t => rfl
      | millis t =>
        simp only [ExpiryDate.time] at hlt
        simp only [ExpiryDate.truthy, decide_eq_true_eq]
        omega
    have hd : ¬ expiryDate.time - (now : Int) ≤ 0 := by omega
    have hdays : (expiryDate.time - (now : Int)) / (1000 * 60 * 60 * 24) = 0 :=
      Int.ediv_eq_zero_of_lt (by omega) (by omega)
    have hmod : (expiryDate.time - (now : Int)) % (1000 * 60 * 60 * 24)
        = expiryDate.time - (now : Int) := Int.emod_eq_of_lt (by omega) (by omega)
    have hhours : (expiryDate.time - (now : Int)) / (1000 * 60 * 60) = 0 :=
      Int.ediv_eq_zero_of_lt (by omega) (by omega)
    unfold isSubscriptionActive getTimeRemaining
    simp only [ht, Bool.not_true, Bool.false_eq_true, if_false, hd, hdays, hmod, hhours,
      decide_eq_true_eq]
    exact ⟨by omega, by decide⟩

/-- Witness for C30: an expiry given as a date string, 30 minutes after the clock's
reading. -/
theorem C30_entitlement_helpers_witness :
    isSubscriptionActive 1700000000000 (.isoString 1700001800000) = true ∧
    getTimeRemaining 1700000000000 (.isoString 1700001800000) = "0 hours remaining" ∧
    isSubscriptionActive 1700000000000 (.isoString 1700000000000) = false ∧
    getTimeRemaining 1700000000000 (.isoString 1700000000000) = "Expired" :=
  ⟨((C30_entitlement_helpers_agree 1700000000000 (.isoString 1700001800000)).2.2.2
      (by simp) (by decide) (by decide)).1,
    ((C30_entitlement_helpers_agree 1700000000000 (.isoString 1700001800000)).2.2.2
      (by simp) (by decide) (by decide)).2,
    ((C30_entitlement_helpers_agree 1700000000000 (.isoString 1700000000000)).2.2.1
      (by decide)).1,
    ((C30_entitlement_helpers_agree 1700000000000 (.isoString 1700000000000)).2.2.1
      (by decide)).2⟩

/-! ## The questionnaire -/

theorem lookupField_setField_ne (fields : List (String × JSVal)) (field key : String)
    (value : JSVal) (hne : key ≠ field) :
    lookupField (setField fields field value) key = lookupField fields key := by
  unfold lookupField
  induction fields with
  | nil =>
    have : (key == field) = false := by simpa using hne
    simp [setField, List.lookup, this]
  | cons kv rest ih =>
    obtain ⟨k, v⟩ := kv
    simp only [setField]
    cases hfk : field == k with
    | true =>
      have hfk' : field = k := by simpa using hfk
      have : (key == k) = false := by rw [← hfk']; simpa using hne
      simp [List.lookup, this]
    | false =>
      simp only [Bool.false_eq_true, if_false, List.lookup]
      cases hkk : key == k with
      | true => rfl
      | false => exact ih

theorem any_congr_mem {α : Type} (l : List α) (p q : α → Bool) (h : ∀ a ∈ l, p a = q a) :
    l.any p = l.any q := by
  induction l with
  | nil => rfl
  | cons a rest ih =>
    simp only [List.any_cons]
    rw [h a (List.mem_cons_self _ _), ih (fun b hb => h b (List.mem_cons_of_mem _ hb))]

theorem validateCategory_updateAnswer (s : QState) (field : String) (value : JSVal) (c : Nat)
    (h : ¬ field ∈ CATEGORY_FIELDS c) :
    validateCategory (updateAnswer s field value) c = validateCategory s c := by
  unfold validateCategory updateAnswer
  simp only
  congr 1
  apply any_congr_mem
  intro g hg
  rw [lookupField_setField_ne]
  intro hgf
  exact h (hgf ▸ hg)

theorem category_fields_disjoint :
    ∀ c < 7, ∀ d < 7, c ≠ d → ∀ g ∈ CATEGORY_FIELDS c, ∀ f ∈ CATEGORY_FIELDS d, g ≠ f := by
  decide

theorem QInv_initial : QInv QState.initial :=
  ⟨by decide, by decide, fun c h2 h1 => by
    have : QState.initial.currentCategory = 1 := rfl
    omega⟩

theorem QInv_qStep (s : QState) (a : QAction) (hinv : QInv s) (hshown : shownCall s a = true) :
    QInv (qStep s a) := by
  obtain ⟨h1, h6, hall⟩ := hinv
  cases a with
  | update field value =>
    refine ⟨h1, h6, fun c hc2 hc1 => ?_⟩
    have hmem : field ∈ CATEGORY_FIELDS s.currentCategory := by
      simpa [shownCall] using hshown
    have hc2' : c < s.currentCategory := hc2
    have hnot : ¬ field ∈ CATEGORY_FIELDS c := fun hin =>
      category_fields_disjoint c (by omega) s.currentCategory (by omega) (by omega) field hin
        field hmem rfl
    show validateCategory (updateAnswer s field value) c = true
    rw [validateCategory_updateAnswer s field value c hnot]
    exact hall c hc2' hc1
  | next =>
    simp only [qStep, moveToNextCategory]
    cases hv : validateCategory s s.currentCategory with
    | false => exact ⟨h1, h6, hall⟩
    | true =>
      simp only [Bool.not_true, Bool.false_eq_true, if_false]
      by_cases hlt : s.currentCategory < 6
      · simp only [hlt, if_true]
        refine ⟨by simp only; omega, by simp only; omega, fun c hc2 hc1 => ?_⟩
        simp only at hc2
        have hsame : validateCategory { s with currentCategory := s.currentCategory + 1 } c
            = validateCategory s c := rfl
        rw [hsame]
        by_cases hcc : c < s.currentCategory
        · exact hall c hcc hc1
        · have : c = s.currentCategory := by omega
          rw [this]
          exact hv
      · simp only [hlt, if_false]
        exact ⟨h1, h6, hall⟩
  | previous =>
    simp only [qStep, moveToPreviousCategory]
    by_cases hgt : s.currentCategory > 1
    · simp only [hgt, if_true]
      refine ⟨by simp only; omega, by simp only; omega, fun c hc2 hc1 => ?_⟩
      simp only at hc2
      have hsame : validateCategory { s with currentCategory := s.currentCategory - 1 } c
          = validateCategory s c := rfl
      rw [hsame]
      exact hall c (by omega) hc1
    · simp only [hgt, if_false]
      exact ⟨h1, h6, hall⟩

theorem QInv_qRun (actions : List QAction) (s : QState) (hinv : QInv s)
    (hshown : shownCalls s actions = true) : QInv (qRun s actions) := by
  induction actions generalizing s with
  | nil => exact hinv
  | cons a rest ih =>
    simp only [shownCalls, Bool.and_eq_true] at hshown
    exact ih (qStep s a) (QInv_qStep s a hinv hshown.1) hshown.2

theorem validateCategory_eq_all (s : QState) (c : Nat) :
    validateCategory s c = (CATEGORY_FIELDS c).all (fun key => (lookupField s.answers key).truthy) := by
  unfold validateCategory
  induction CATEGORY_FIELDS c with
  | nil => rfl
  | cons a rest ih =>
    simp only [List.any_cons, List.all_cons, Bool.not_or, Bool.not_not]
    rw [ih]

theorem allAnswered_of_complete (s : QState) (hinv : QInv s)
    (hdone : (moveToNextCategory s).2 = true) : allAnswered s = true := by
  obtain ⟨h1, h6, hall⟩ := hinv
  unfold moveToNextCategory at hdone
  cases hv : validateCategory s s.currentCategory with
  | false => simp [hv] at hdone
  | true =>
    by_cases hlt : s.currentCategory < 6
    · simp [hv, hlt] at hdone
    · have hcat : s.currentCategory = 6 := by omega
      rw [hcat] at hv hall
      have v1 := hall 1 (by omega) (by omega)
      have v2 := hall 2 (by omega) (by omega)
      have v3 := hall 3 (by omega) (by omega)
      have v4 := hall 4 (by omega) (by omega)
      have v5 := hall 5 (by omega) (by omega)
      rw [validateCategory_eq_all] at v1 v2 v3 v4 v5 hv
      unfold allAnswered answerKeys
      simp only [List.all_append, Bool.and_eq_true]
      exact ⟨⟨⟨⟨⟨v1, v2⟩, v3⟩, v4⟩, v5⟩, hv⟩

/-- C27 as stated fails: after the calls of a user who answered everything up to category 6,
a call `updateAnswer('annualIncome', '')` empties an answer of category 1, and
`moveToNextCategory`, which checks category 6 only, still returns true. -/
theorem C27_completion_with_an_empty_answer :
    (moveToNextCategory (qRun QState.initial answerAllThenClear)).2 = true ∧
    (qRun QState.initial answerAllThenClear).currentCategory = 6 ∧
    (lookupField (qRun QState.initial answerAllThenClear).answers "annualIncome").truthy = false ∧
    allAnswered (qRun QState.initial answerAllThenClear) = false ∧
    shownCalls QState.initial answerAllThenClear = false := by
  decide

/-- C27, amended: in every state reached from the initial state by calls of
`updateAnswer`, `moveToNextCategory` and `moveToPreviousCategory` in which `updateAnswer` is
called for fields of the current category only (the fields the screen shows), a
`moveToNextCategory` that returns true finds all 18 answers non-empty. -/
theorem C27_completion_amended (actions : List QAction)
    (hshown : shownCalls QState.initial actions = true)
    (hdone : (moveToNextCategory (qRun QState.initial actions)).2 = true) :
    allAnswered (qRun QState.initial actions) = true :=
  allAnswered_of_complete _ (QInv_qRun actions QState.initial QInv_initial hshown) hdone

/-- Witness for C27: the calls of a user who answers everything. -/
theorem C27_completion_amended_witness :
    shownCalls QState.initial answerAll = true ∧
    (moveToNextCategory (qRun QState.initial answerAll)).2 = true ∧
    allAnswered (qRun QState.initial answerAll) = true :=
  ⟨by decide, by decide, C27_completion_amended answerAll (by decide) (by decide)⟩

end StatusAI
